import Mathlib

set_option linter.unusedVariables false

/-!
Shallow embedding of the COVINS backend optimization core
(`covins_backend/src/covins_backend/optimization_be.cpp`).

Real numbers of the source (C++ `double`) are modelled by exact rationals,
represented as unnormalized numerator/denominator fractions (`Scalar` below);
floating-point rounding is not modelled.  Every operation keeps the
denominator positive, and comparisons are the usual cross-multiplication
ones, so the arithmetic agrees with ℚ; fractions are kept unnormalized so
that every model run reduces inside the Lean kernel.  `Scalar.equiv` is
equality of the represented rationals (structural equality of two values
produced by the same computation path implies it).  Rigid transforms
(`TransformType`, a 4x4 matrix in
the source) are represented by their unit-quaternion + translation coordinates
(`Pose` below), which is exactly the 7-scalar layout the source stores into
every Ceres pose parameter block; matrix composition and inversion of the
source correspond to the quaternion operations defined here.

The Ceres solver is external third-party code.  It is abstracted as a
function on assignments of parameter-block values, constrained by the
documented Ceres contract `SolverOk`: a solve never modifies a parameter
block that was set constant, nor a block that is not part of the problem.
Residual evaluation (`ceres::Problem::Evaluate`) is likewise abstracted as a
function from the problem and the current assignment to per-block 2-vectors.

Entity classes (`Keyframe`, `Landmark`, `Map`) live in other files of the
repository that are not part of the verified source; their accessors and
mutators used here are modelled from the spec (section 6, External
Interfaces) and are marked `Modelled from the spec:` in their doc comments.
-/

/-- An exact rational: numerator over a positive denominator, not reduced. -/
structure Scalar where
  n : Int
  d : Nat
deriving DecidableEq

instance (k : Nat) : OfNat Scalar k := ⟨⟨Int.ofNat k, 1⟩⟩

instance : Add Scalar :=
  ⟨fun a b => ⟨a.n * (b.d : Int) + b.n * (a.d : Int), a.d * b.d⟩⟩

instance : Neg Scalar := ⟨fun a => ⟨-a.n, a.d⟩⟩

instance : Sub Scalar := ⟨fun a b => a + (-b)⟩

instance : Mul Scalar := ⟨fun a b => ⟨a.n * b.n, a.d * b.d⟩⟩

/-- Reciprocal (the sign moves to the numerator; never applied to a
represented zero by the model). -/
def Scalar.inv (a : Scalar) : Scalar :=
  if a.n < 0 then ⟨-(a.d : Int), a.n.natAbs⟩
  else if a.n = 0 then ⟨0, 1⟩
  else ⟨(a.d : Int), a.n.natAbs⟩

instance : Div Scalar := ⟨fun a b => a * b.inv⟩

instance : LT Scalar := ⟨fun a b => a.n * (b.d : Int) < b.n * (a.d : Int)⟩

instance (a b : Scalar) : Decidable (a < b) :=
  inferInstanceAs (Decidable (a.n * (b.d : Int) < b.n * (a.d : Int)))

/-- Equality of the represented rational numbers. -/
def Scalar.equiv (a b : Scalar) : Prop := a.n * (b.d : Int) = b.n * (a.d : Int)

instance (a b : Scalar) : Decidable (a.equiv b) :=
  inferInstanceAs (Decidable (a.n * (b.d : Int) = b.n * (a.d : Int)))

structure Vec2 where
  x : Scalar
  y : Scalar
deriving DecidableEq

structure Vec3 where
  x : Scalar
  y : Scalar
  z : Scalar
deriving DecidableEq

structure Quat where
  x : Scalar
  y : Scalar
  z : Scalar
  w : Scalar
deriving DecidableEq

/-- A rigid transform, stored as quaternion (x,y,z,w) + translation — the
7-scalar layout of `robopt::defs::pose::kPoseBlockSize` blocks. -/
structure Pose where
  q : Quat
  t : Vec3
deriving DecidableEq

def vadd (a b : Vec3) : Vec3 := ⟨a.x + b.x, a.y + b.y, a.z + b.z⟩

def vneg (a : Vec3) : Vec3 := ⟨-a.x, -a.y, -a.z⟩

def vcross (a b : Vec3) : Vec3 :=
  ⟨a.y * b.z - a.z * b.y, a.z * b.x - a.x * b.z, a.x * b.y - a.y * b.x⟩

def vsmul (c : Scalar) (a : Vec3) : Vec3 := ⟨c * a.x, c * a.y, c * a.z⟩

def quatMul (a b : Quat) : Quat :=
  ⟨a.w * b.x + a.x * b.w + a.y * b.z - a.z * b.y,
   a.w * b.y - a.x * b.z + a.y * b.w + a.z * b.x,
   a.w * b.z + a.x * b.y - a.y * b.x + a.z * b.w,
   a.w * b.w - a.x * b.x - a.y * b.y - a.z * b.z⟩

def quatConj (a : Quat) : Quat := ⟨-a.x, -a.y, -a.z, a.w⟩

/-- Action of a (unit) quaternion on a vector; corresponds to multiplication
by the rotation matrix `q.toRotationMatrix()` of the source. -/
def quatRotate (q : Quat) (v : Vec3) : Vec3 :=
  let u : Vec3 := ⟨q.x, q.y, q.z⟩
  let s := vsmul 2 (vcross u v)
  vadd v (vadd (vsmul q.w s) (vcross u s))

/-- Composition of rigid transforms (`T1 * T2` on 4x4 matrices). -/
def poseMul (a b : Pose) : Pose := ⟨quatMul a.q b.q, vadd a.t (quatRotate a.q b.t)⟩

/-- Inverse of a rigid transform (`T.inverse()`). -/
def poseInv (a : Pose) : Pose :=
  ⟨quatConj a.q, vneg (quatRotate (quatConj a.q) a.t)⟩

/-- Apply a rigid transform to a point: `T.block(0,0,3,3) * p + T.block(0,3,3,1)`. -/
def poseApply (a : Pose) (p : Vec3) : Vec3 := vadd (quatRotate a.q p) a.t

/-- The 7-scalar Ceres layout of a pose: `q.x, q.y, q.z, q.w, t.x, t.y, t.z`
(the write order used at e.g. lines 1772-1778 of the source). -/
def encodePose (p : Pose) : List Scalar :=
  [p.q.x, p.q.y, p.q.z, p.q.w, p.t.x, p.t.y, p.t.z]

/-- Modelled from the spec: `Utils::Ceres2Transform` decodes a 7-scalar pose
parameter block back into a rigid transform (State Synchronizer, section 2). -/
def Ceres2Transform (l : List Scalar) : Pose :=
  ⟨⟨l.getD 0 0, l.getD 1 0, l.getD 2 0, l.getD 3 0⟩,
   ⟨l.getD 4 0, l.getD 5 0, l.getD 6 0⟩⟩

/-- The comparison `residual.norm() > threshold` of the source, expressed
over ℚ without square roots: ‖v‖ > th iff th < 0 or v.x² + v.y² > th². -/
def normGt (v : Vec2) (th : Scalar) : Bool :=
  decide (th < 0) || decide (th * th < v.x * v.x + v.y * v.y)

/-! ### Camera / distortion tags, robust losses, factors -/

/-- `aslam::Camera::Type` restricted to the tags the source dispatches on;
any other tag takes the fatal `Unknown projection type` branch. -/
inductive CamType where
  | kPinhole
  | kUnifiedProjection
  | kOtherCam
deriving DecidableEq

/-- `aslam::Distortion::Type` restricted to the tags the source dispatches on. -/
inductive DistType where
  | kEquidistant
  | kRadTan
  | kFisheye
  | kOtherDist
deriving DecidableEq

inductive Loss where
  | noLoss
  | cauchy (s : Scalar)
  | huber (s : Scalar)
deriving DecidableEq

/-- Identity of a Ceres parameter block.  In the source a block is identified
by the address of the underlying `double` array; entity-owned arrays are
identified here by the entity's index in the map's vector, camera arrays by
the camera object's id.  `kfYaw`/`kfTrans` are the two sub-blocks
`&ceres_pose_[1]` / `&ceres_pose_[4]` used by the 4-DoF pose-graph
optimization; `relPose` is the stack array `ceresAB` of
`OptimizeRelativePose`. -/
inductive BlockId where
  | kfPose (i : Nat)
  | kfVelBias (i : Nat)
  | kfExtr (i : Nat)
  | camDist (cam : Nat)
  | camIntr (cam : Nat)
  | lmPos (i : Nat)
  | kfYaw (i : Nat)
  | kfTrans (i : Nat)
  | relPose
deriving DecidableEq

/-- A residual factor.  Payloads record the data the source passes to the
corresponding cost-function constructor. `sixDofBetween` carries the two
uniform diagonal scales of the `sqrt_info` matrix (top-left 3x3 and
bottom-right 3x3 blocks, which the source always sets to scaled identity). -/
inductive Factor where
  | imuPre (pred kf : Nat) (loss : Loss)
  | reproj (kf : Nat) (camT : CamType) (distT : DistType) (lm : Nat) (feat : Nat)
      (kp : Vec2) (sigma : Scalar) (cam : Nat) (loss : Loss)
  | sixDofBetween (kf1 kf2 : Nat) (meas : Pose) (infoRot infoTrans : Scalar) (loss : Loss)
  | fourDofWeight (kf1 kf2 : Nat) (t : Vec3) (relYaw pitch1 roll1 weight : Scalar) (loss : Loss)
  | fourDof (kf1 kf2 : Nat) (t : Vec3) (relYaw pitch1 roll1 : Scalar) (loss : Loss)
  | relRepr (inverseDir : Bool) (kp : Vec2) (sigma : Scalar) (p3d : Vec3) (loss : Loss)
deriving DecidableEq

/-- The `KeypointIdentifier` bookkeeping struct of the source: which keyframe,
landmark and feature index a reprojection residual block belongs to. -/
structure KeypointIdentifier where
  keyframe : Nat
  landmark : Nat
  keypointId : Nat
deriving DecidableEq

/-- A `ceres::Problem`: registered parameter blocks, the subset held
constant, and the residual blocks (with removable numeric ids). -/
structure CeresProblem where
  blocks : List BlockId
  constants : List BlockId
  residuals : List (Nat × Factor)
  nextId : Nat
deriving DecidableEq

def emptyProblem : CeresProblem := ⟨[], [], [], 0⟩

/-- `Problem::AddParameterBlock` — idempotent on an already-registered block. -/
def addBlock (p : CeresProblem) (b : BlockId) : CeresProblem :=
  if b ∈ p.blocks then p else { p with blocks := p.blocks ++ [b] }

/-- `Problem::SetParameterBlockConstant` — idempotent. -/
def setConst (p : CeresProblem) (b : BlockId) : CeresProblem :=
  if b ∈ p.constants then p else { p with constants := p.constants ++ [b] }

/-- `Problem::AddResidualBlock`; returns the fresh residual block id. -/
def addResidual (p : CeresProblem) (f : Factor) : CeresProblem × Nat :=
  ({ p with residuals := p.residuals ++ [(p.nextId, f)], nextId := p.nextId + 1 },
   p.nextId)

/-- `Problem::RemoveResidualBlock`. -/
def removeResidual (p : CeresProblem) (id : Nat) : CeresProblem :=
  { p with residuals := p.residuals.filter (fun r => r.1 ≠ id) }

/-- `Problem::HasParameterBlock`. -/
def hasBlock (p : CeresProblem) (b : BlockId) : Bool := decide (b ∈ p.blocks)

/-- An assignment of values to parameter blocks (the contents of all the
`double` arrays Ceres optimizes in place). -/
abbrev Asg := BlockId → List Scalar

/-- `ceres::Solver::Options`, restricted to the fields the source sets. -/
inductive LinearSolverType where
  | sparseSchur
  | sparseNormalCholesky
deriving DecidableEq

inductive TrustRegionType where
  | doglegTR
  | levenbergMarquardtTR
deriving DecidableEq

structure SolverOptions where
  linearSolverType : LinearSolverType
  numThreads : Nat
  numLinearSolverThreads : Nat
  trustRegionStrategyType : TrustRegionType
  maxNumIterations : Int
  /-- `max_solver_time_in_seconds`; `Option.none` means the source left the
  Ceres default (no finite budget is applied). -/
  maxSolverTimeInSeconds : Option Scalar
deriving DecidableEq

/-- A solver: given options, the problem and the current block values,
produces the post-solve block values. -/
abbrev SolveFn := SolverOptions → CeresProblem → Asg → Asg

/-- The documented Ceres contract assumed of any solver: parameter blocks
held constant, and blocks that are not part of the problem, are not
modified by `ceres::Solve`. -/
def SolverOk (s : SolveFn) : Prop :=
  ∀ (o : SolverOptions) (p : CeresProblem) (a : Asg) (b : BlockId),
    (b ∈ p.constants ∨ b ∉ p.blocks) → s o p a b = a b

/-- `ceres::Problem::Evaluate` restricted to a residual-block list, as used
by both outlier-removal passes: given the problem and the current assignment,
yields the 2-D residual of the i-th requested residual block.  Abstract: the
claims hold for every evaluation function. -/
abbrev EvalFn := CeresProblem → Asg → Nat → Vec2

/-- Fatal conditions of the source: every `exit(-1)` site (and the crashes
on null keyframe dereference in the pose-graph neighbour loops). -/
inductive Fatal where
  | unknownProjection
  | unknownDistortion
  | noPredecessor
  | invalidPredecessor
  | missingParamBlock
  | missingIntrinsics
  | nullKeyframe
  | missingNonCorrectedPose
deriving DecidableEq

/-! ### Entities (modelled from the spec, sections 3 and 6) -/

/-- Modelled from the spec: the keyframe entity (data model, section 3), with
the accessors/mutators of section 6.  `pred`/`succ` are
`GetPredecessor`/`GetSuccessor` as indices into the map's keyframe vector
(`Option.none` = null pointer).  `landmarkSlots` is the ordered landmark
vector returned by `GetLandmarks` and mutated by `EraseLandmark`.
`ceresPose`, `ceresVelBias`, `ceresExtr` are the entity-owned Ceres arrays
`ceres_pose_`, `ceres_velocity_and_bias_`, `ceres_extrinsics_`, which persist
in the entity between calls. -/
structure Keyframe where
  idFirst : Nat
  idSecond : Nat
  invalid : Bool
  pose : Pose
  vel : Vec3
  biasA : Vec3
  biasG : Vec3
  extrinsics : Pose
  isLoaded : Bool
  isGbaOptimized : Bool
  poseOptimized : Bool
  velBiasOptimized : Bool
  cameraId : Nat
  camType : CamType
  distType : DistType
  pred : Option Nat
  succ : Option Nat
  numImuMeas : Nat
  kpDist : List Vec2
  kpAor1 : List Scalar
  landmarkSlots : List (Option Nat)
  ceresPose : List Scalar
  ceresVelBias : List Scalar
  ceresExtr : List Scalar
deriving DecidableEq

/-- Modelled from the spec: the landmark entity.  `observations` is the
keyframe-keyed observation map `GetObservations()` as an association list
(keyframe index or null, feature index); the C++ `std::map` guarantees
distinct keyframe keys, which well-formed inputs satisfy via `List.Nodup`
hypotheses where needed. -/
structure Landmark where
  invalid : Bool
  posW : Vec3
  observations : List (Option Nat × Nat)
  refKf : Option Nat
  optimized : Bool
  isGbaOptimized : Bool
  ceresPos : List Scalar
deriving DecidableEq

/-- A loop constraint (spec section 3): keyframe pair (as indices into the
map's keyframe vector), relative transform between the sensor frames, 6x6
covariance matrix (row-major list of rows) and relative yaw. -/
structure LoopConstraint where
  kf1 : Nat
  kf2 : Nat
  T_s1_s2 : Pose
  covMat : List (List Scalar)
  relativeYaw : Scalar
deriving DecidableEq

/-- `i.cov_mat.block(3,3,3,3).trace()` — the translational covariance trace. -/
def covTransTrace (l : LoopConstraint) : Scalar :=
  ((l.covMat.getD 3 []).getD 3 0) + ((l.covMat.getD 4 []).getD 4 0) +
    ((l.covMat.getD 5 []).getD 5 0)

/-- Modelled from the spec: the map collaborator (section 6) — ordered
keyframe and landmark vectors, loop constraints, and the map's own id
`id_map_`. -/
structure MapState where
  idMap : Nat
  keyframes : List Keyframe
  landmarks : List Landmark
  loops : List LoopConstraint
deriving DecidableEq

/-- `covins_params` configuration values read by the four procedures. -/
structure Params where
  threadsServer : Nat
  thGbaOutlierGlobal : Scalar
  gbaFixPosesLoadedMaps : Bool
  gbaUseMapLoopConstraints : Bool
  pgoIterationLimit : Int
  pgoFixKfsAfterGba : Bool
  pgoFixPosesLoadedMaps : Bool
  thOutlierAlign : Scalar
  covSwitch : Scalar
  covSwitch2 : Scalar
  wtLpT1 : Scalar
  wtLpR1 : Scalar
  wtLpR2 : Scalar
  wtLpR3 : Scalar
  wtKfR : Scalar
  wtKfT : Scalar
deriving DecidableEq

/-- Modelled from the spec: `UpdateCeresFromState` (State Synchronizer,
section 2) — copy the live entity state into the flat Ceres arrays. -/
def encodeVelBias (kf : Keyframe) : List Scalar :=
  [kf.vel.x, kf.vel.y, kf.vel.z, kf.biasA.x, kf.biasA.y, kf.biasA.z,
   kf.biasG.x, kf.biasG.y, kf.biasG.z]

def UpdateCeresFromState (kf : Keyframe) : Keyframe :=
  { kf with
    ceresPose := encodePose kf.pose
    ceresVelBias := encodeVelBias kf
    ceresExtr := encodePose kf.extrinsics }

/-- Modelled from the spec: `UpdateFromCeres` (State Synchronizer, section 2)
— copy the flat arrays back into the entity state. -/
def UpdateFromCeres (kf : Keyframe) (poseArr vbArr extrArr : List Scalar) : Keyframe :=
  { kf with
    pose := Ceres2Transform poseArr
    vel := ⟨vbArr.getD 0 0, vbArr.getD 1 0, vbArr.getD 2 0⟩
    biasA := ⟨vbArr.getD 3 0, vbArr.getD 4 0, vbArr.getD 5 0⟩
    biasG := ⟨vbArr.getD 6 0, vbArr.getD 7 0, vbArr.getD 8 0⟩
    extrinsics := Ceres2Transform extrArr
    ceresPose := poseArr
    ceresVelBias := vbArr
    ceresExtr := extrArr }

/-- Update the i-th element of a list in place (identity when out of range). -/
def listModify {α : Type} (l : List α) (i : Nat) (f : α → α) : List α :=
  match l, i with
  | [], _ => []
  | a :: rest, 0 => f a :: rest
  | a :: rest, n + 1 => a :: listModify rest n f

/-- Modelled from the spec: `Keyframe::EraseLandmark(kp_id)` — "mutator to
erase one observation by feature index" (section 6): the landmark slot at the
feature index becomes null. -/
def eraseKfSlot (m : MapState) (kfIdx featId : Nat) : MapState :=
  { m with
    keyframes := listModify m.keyframes kfIdx (fun kf =>
      { kf with landmarkSlots := kf.landmarkSlots.set featId Option.none }) }

/-- Modelled from the spec: `Landmark::EraseObservation(kf)` — "mutator to
erase one observation by keyframe" (section 6): drop the keyframe's entry
from the observation map. -/
def eraseLmObs (m : MapState) (lmIdx kfIdx : Nat) : MapState :=
  { m with
    landmarks := listModify m.landmarks lmIdx (fun lm =>
      { lm with observations := lm.observations.filter (fun o => o.1 ≠ some kfIdx) }) }

/-- The values every entity-owned array holds at solve time. -/
def initAsg (m : MapState) : Asg := fun b =>
  match b with
  | .kfPose i => ((m.keyframes.get? i).map (fun kf => kf.ceresPose)).getD []
  | .kfVelBias i => ((m.keyframes.get? i).map (fun kf => kf.ceresVelBias)).getD []
  | .kfExtr i => ((m.keyframes.get? i).map (fun kf => kf.ceresExtr)).getD []
  | .camDist _ => []
  | .camIntr _ => []
  | .lmPos i => ((m.landmarks.get? i).map (fun lm => lm.ceresPos)).getD []
  | .kfYaw i => ((m.keyframes.get? i).map (fun kf => [kf.ceresPose.getD 1 0])).getD []
  | .kfTrans i =>
      ((m.keyframes.get? i).map (fun kf =>
        [kf.ceresPose.getD 4 0, kf.ceresPose.getD 5 0, kf.ceresPose.getD 6 0])).getD []
  | .relPose => []

/-! ### Global Bundle Adjustment (source lines 179-740)

The keyframe / landmark loops interleave per-entity state synchronization
(writes into that entity's own Ceres arrays) with problem accumulation; since
the synchronization of one entity is never read while processing another,
the model performs all synchronization first (`gbaSyncKeyframes`,
`gbaSyncLandmarks`) and then accumulates the problem, which is
observationally the same. -/

def assocFind {α β : Type} [DecidableEq α] (l : List (α × β)) (k : α) : Option β :=
  match l with
  | [] => Option.none
  | (a, b) :: rest => if a = k then some b else assocFind rest k

/-- `std::map::insert` — does not overwrite an existing key. -/
def assocInsertIfAbsent {α β : Type} [DecidableEq α] (l : List (α × β)) (k : α) (v : β) :
    List (α × β) :=
  match assocFind l k with
  | some _ => l
  | Option.none => l ++ [(k, v)]

structure KfBuildSt where
  prob : CeresProblem
  distortionMap : List ((Nat × Nat) × Nat)
  intrinsicsMap : List ((Nat × Nat) × Nat)
  imuFactorIds : List Nat
deriving DecidableEq

/-- Camera parameter blocks (lines 217-238, identically 465-486): both the
pinhole and the unified-projection branches register the camera's distortion
and intrinsics arrays as constant parameter blocks and record them in the two
id-keyed maps; any other camera tag is the fatal `Unknown projection type`
branch. -/
def gbaAddCameraBlocks (kf : Keyframe) (st : KfBuildSt) : Except Fatal KfBuildSt :=
  match kf.camType with
  | CamType.kOtherCam => .error .unknownProjection
  | _ =>
    let pr1 := setConst (addBlock st.prob (.camDist kf.cameraId)) (.camDist kf.cameraId)
    let pr2 := setConst (addBlock pr1 (.camIntr kf.cameraId)) (.camIntr kf.cameraId)
    .ok { st with
          prob := pr2
          distortionMap := assocInsertIfAbsent st.distortionMap (kf.idFirst, kf.idSecond) kf.cameraId
          intrinsicsMap := assocInsertIfAbsent st.intrinsicsMap (kf.idFirst, kf.idSecond) kf.cameraId }

/-- IMU factor for one keyframe (pass 1: lines 240-267; pass 2: lines
488-542).  Differences of pass 2: a keyframe whose preintegration holds zero
measurements is skipped (line 504), the four `HasParameterBlock` checks
(lines 520-535) abort on a missing block, and the created residual id is
recorded in `imu_factors`.  (`repropagate` mutates the external
preintegration object only and is not modelled.) -/
def gbaAddImuFactor (isPass1 : Bool) (m : MapState) (i : Nat) (kf : Keyframe)
    (st : KfBuildSt) : Except Fatal KfBuildSt :=
  let predKf : Option Keyframe := kf.pred.bind (fun j => m.keyframes.get? j)
  match kf.pred, predKf with
  | Option.none, _ =>
      if kf.idFirst ≠ 0 then .error .noPredecessor else .ok st
  | some _, Option.none =>
      -- a dangling predecessor index cannot arise from C++ (the pointer is
      -- always dereferenceable); treated like a null predecessor
      if kf.idFirst ≠ 0 then .error .noPredecessor else .ok st
  | some predIdx, some pk =>
      if pk.invalid then
        if kf.idFirst ≠ 0 then .error .noPredecessor else .ok st
      else if !isPass1 && kf.numImuMeas == 0 then .ok st
      else if !isPass1 &&
          !(hasBlock st.prob (.kfPose predIdx) && hasBlock st.prob (.kfPose i) &&
            hasBlock st.prob (.kfVelBias predIdx) && hasBlock st.prob (.kfVelBias i)) then
        .error .missingParamBlock
      else
        let pr := addResidual st.prob (.imuPre predIdx i .noLoss)
        .ok { st with
              prob := pr.1
              imuFactorIds := if isPass1 then st.imuFactorIds else st.imuFactorIds ++ [pr.2] }

/-- One iteration of the keyframe loop (pass 1: lines 204-268; pass 2: lines
443-543).  Pass 2 additionally holds the poses of loaded-map keyframes
constant when so configured (lines 460-463). -/
def gbaKfStep (isPass1 : Bool) (p : Params) (visualOnly : Bool) (m : MapState)
    (i : Nat) (kf : Keyframe) (st : KfBuildSt) : Except Fatal KfBuildSt :=
  if kf.invalid then .ok st
  else
    let pr1 := addBlock st.prob (.kfPose i)
    let pr2 := if kf.idFirst = 0 ∧ kf.idSecond = m.idMap then setConst pr1 (.kfPose i) else pr1
    let pr3 := if visualOnly then pr2 else addBlock pr2 (.kfVelBias i)
    let pr4 := setConst (addBlock pr3 (.kfExtr i)) (.kfExtr i)
    let pr5 := if !isPass1 && kf.isLoaded && p.gbaFixPosesLoadedMaps then setConst pr4 (.kfPose i)
               else pr4
    match gbaAddCameraBlocks kf { st with prob := pr5 } with
    | .error e => .error e
    | .ok st2 =>
        if visualOnly then .ok st2
        else gbaAddImuFactor isPass1 m i kf st2

def gbaKfLoop (isPass1 : Bool) (p : Params) (visualOnly : Bool) (m : MapState) :
    List (Nat × Keyframe) → KfBuildSt → Except Fatal KfBuildSt
  | [], st => .ok st
  | (i, kf) :: rest, st =>
    match gbaKfStep isPass1 p visualOnly m i kf st with
    | .error e => .error e
    | .ok st2 => gbaKfLoop isPass1 p visualOnly m rest st2

def gbaSyncKeyframes (m : MapState) : MapState :=
  { m with keyframes := m.keyframes.map (fun kf =>
      if kf.invalid then kf else UpdateCeresFromState kf) }

/-- `num_edges` of the landmark pre-check: observations whose keyframe is
non-null and valid (lines 286-291 / 565-570). -/
def validObsCount (m : MapState) (lm : Landmark) : Nat :=
  lm.observations.countP (fun o =>
    match o.1 with
    | Option.none => false
    | some k =>
      match m.keyframes.get? k with
      | Option.none => false
      | some kfx => !kfx.invalid)

inductive LmGate where
  | invalidLm
  | notIncluded
  | included
deriving DecidableEq

/-- Landmark gating (`th_min_observations = 2`, lines 182, 277-294 /
556-575): invalid landmarks are skipped; valid landmarks with fewer than
two total observations, or fewer than two valid observing keyframes, are
marked not-included. -/
def gbaLmGate (m : MapState) (lm : Landmark) : LmGate :=
  if lm.invalid then .invalidLm
  else if lm.observations.length < 2 then .notIncluded
  else if validObsCount m lm < 2 then .notIncluded
  else .included

def gbaSyncLandmarks (m : MapState) : MapState :=
  { m with landmarks := m.landmarks.map (fun lm =>
      if gbaLmGate m lm = .included then
        { lm with ceresPos := [lm.posW.x, lm.posW.y, lm.posW.z] }
      else lm) }

structure LmBuildSt where
  prob : CeresProblem
  intrinsicsMap : List ((Nat × Nat) × Nat)
  residualIds : List Nat
  keypointIds : List KeypointIdentifier
deriving DecidableEq

/-- One observation of an included landmark (lines 301-358 / 584-651): skip
null/invalid keyframes; look up the camera arrays by keyframe id (absence is
fatal — pass 2 checks explicitly at lines 594-597, pass 1 crashes in
`std::map::at`); select the reprojection-factor variant by camera x
distortion type (unknown tags fatal); attach with Cauchy(1.0) loss and the
observation-uncertainty scale `(aors[1] + 1) * 2.0`. -/
def gbaObsStep (m : MapState) (lmIdx : Nat) (obs : Option Nat × Nat)
    (st : LmBuildSt) : Except Fatal LmBuildSt :=
  match obs.1 with
  | Option.none => .ok st
  | some kfIdx =>
    match m.keyframes.get? kfIdx with
    | Option.none => .ok st
    | some kfx =>
      if kfx.invalid then .ok st
      else
        match assocFind st.intrinsicsMap (kfx.idFirst, kfx.idSecond) with
        | Option.none => .error .missingIntrinsics
        | some camId =>
          if kfx.camType = CamType.kOtherCam then .error .unknownProjection
          else if kfx.distType = DistType.kOtherDist then .error .unknownDistortion
          else
            let kp := kfx.kpDist.getD obs.2 ⟨0, 0⟩
            let sigma := (kfx.kpAor1.getD obs.2 0 + 1) * 2
            let pr := addResidual st.prob
              (.reproj kfIdx kfx.camType kfx.distType lmIdx obs.2 kp sigma camId (.cauchy 1))
            .ok { st with
                  prob := pr.1
                  residualIds := st.residualIds ++ [pr.2]
                  keypointIds := st.keypointIds ++ [⟨kfIdx, lmIdx, obs.2⟩] }

def gbaObsLoop (m : MapState) (lmIdx : Nat) :
    List (Option Nat × Nat) → LmBuildSt → Except Fatal LmBuildSt
  | [], st => .ok st
  | obs :: rest, st =>
    match gbaObsStep m lmIdx obs st with
    | .error e => .error e
    | .ok st2 => gbaObsLoop m lmIdx rest st2

def gbaLmLoop (m : MapState) :
    List (Nat × Landmark) → LmBuildSt → Except Fatal LmBuildSt
  | [], st => .ok st
  | (i, lm) :: rest, st =>
    if gbaLmGate m lm ≠ LmGate.included then gbaLmLoop m rest st
    else
      match gbaObsLoop m i lm.observations { st with prob := addBlock st.prob (.lmPos i) } with
      | .error e => .error e
      | .ok st2 => gbaLmLoop m rest st2

/-- Pass-1 loop edges (lines 361-377): one `SixDofBetweenError` per loop
constraint, `sqrt_info` identity with top-left *= 100 and bottom-right *=
1e4, no loss, no existence checks. -/
def gbaLoopEdgeLoop1 : List LoopConstraint → CeresProblem → CeresProblem
  | [], pr => pr
  | l :: rest, pr =>
    gbaLoopEdgeLoop1 rest (addResidual pr (.sixDofBetween l.kf1 l.kf2 l.T_s1_s2 100 10000 .noLoss)).1

/-- Pass-2 loop edges (lines 660-679): only if `gba_use_map_loop_constraints`
is set; an edge is skipped when either endpoint's pose block is absent; the
robust loss is applied. -/
def gbaLoopEdgeLoop2 : List LoopConstraint → CeresProblem → CeresProblem
  | [], pr => pr
  | l :: rest, pr =>
    gbaLoopEdgeLoop2 rest
      (if hasBlock pr (.kfPose l.kf1) && hasBlock pr (.kfPose l.kf2) then
        (addResidual pr (.sixDofBetween l.kf1 l.kf2 l.T_s1_s2 100 10000 (.cauchy 1))).1
      else pr)

structure GbaBuild where
  m : MapState
  prob : CeresProblem
  residualIds : List Nat
  keypointIds : List KeypointIdentifier
  imuFactorIds : List Nat
deriving DecidableEq

/-- The shared problem construction of the two GBA rounds; `isPass1` selects
the handful of sites where the rounds differ (see the individual loop
functions). -/
def gbaBuildProblem (isPass1 : Bool) (p : Params) (visualOnly : Bool) (m0 : MapState) :
    Except Fatal GbaBuild :=
  let m1 := gbaSyncKeyframes m0
  match gbaKfLoop isPass1 p visualOnly m1 m1.keyframes.enum ⟨emptyProblem, [], [], []⟩ with
  | .error e => .error e
  | .ok kst =>
    let m2 := gbaSyncLandmarks m1
    match gbaLmLoop m2 m2.landmarks.enum ⟨kst.prob, kst.intrinsicsMap, [], []⟩ with
    | .error e => .error e
    | .ok lst =>
      let prob := if isPass1 then gbaLoopEdgeLoop1 m2.loops lst.prob
                  else if p.gbaUseMapLoopConstraints then gbaLoopEdgeLoop2 m2.loops lst.prob
                  else lst.prob
      .ok ⟨m2, prob, lst.residualIds, lst.keypointIds, kst.imuFactorIds⟩

/-- Pass-1 solver options (lines 380-388): dogleg sparse-Schur, 5 iterations,
no time budget. -/
def gbaPass1SolverOptions (threads : Nat) : SolverOptions :=
  ⟨.sparseSchur, threads, threads, .doglegTR, 5, Option.none⟩

/-- Pass-2 solver options (lines 681-688): dogleg sparse-Schur with the
caller's iteration cap.  The `time_limit` argument of
`GlobalBundleAdjustment` is accepted but never applied:
`max_solver_time_in_seconds` is left at the Ceres default (the commented-out
line 386 only printed it). -/
def gbaSolverOptions (threads : Nat) (interationsLimit : Int) (timeLimit : Scalar) :
    SolverOptions :=
  ⟨.sparseSchur, threads, threads, .doglegTR, interationsLimit, Option.none⟩

/-- Ceres solves in place: the post-solve assignment is written back into
every entity-owned array. -/
def storeAsg (m : MapState) (a : Asg) : MapState :=
  { m with
    keyframes := m.keyframes.enum.map (fun ik =>
      { ik.2 with
        ceresPose := a (.kfPose ik.1)
        ceresVelBias := a (.kfVelBias ik.1)
        ceresExtr := a (.kfExtr ik.1) })
    landmarks := m.landmarks.enum.map (fun il => { il.2 with ceresPos := a (.lmPos il.1) }) }

/-- The outlier-removal loop (lines 392-413): for every reprojection residual
block whose evaluated 2-D residual norm exceeds the threshold, erase the
observation from the keyframe (`EraseLandmark`) and from the landmark
(`EraseObservation`), remove the residual block, and count it. -/
def gbaRemoveOutliers (th : Scalar) (ev : Nat → Vec2) :
    List (Nat × Nat × KeypointIdentifier) → MapState × CeresProblem × Nat →
    MapState × CeresProblem × Nat
  | [], st => st
  | (pos, rid, kp) :: rest, (m, prob, numBad) =>
    if normGt (ev pos) th then
      gbaRemoveOutliers th ev rest
        (eraseLmObs (eraseKfSlot m kp.keyframe kp.keypointId) kp.landmark kp.keyframe,
         removeResidual prob rid, numBad + 1)
    else gbaRemoveOutliers th ev rest (m, prob, numBad)

def zipPos (rids : List Nat) (kps : List KeypointIdentifier) :
    List (Nat × Nat × KeypointIdentifier) :=
  (List.range rids.length).zip (rids.zip kps)

/-- GBA round one (outlier removal, lines 185-416): build, solve 5
iterations, evaluate all reprojection residuals, remove outliers.  Returns
the mutated map, the pruned problem and `num_bad`. -/
def gbaPass1 (p : Params) (visualOnly : Bool) (solve : SolveFn) (ev : EvalFn)
    (m0 : MapState) : Except Fatal (MapState × CeresProblem × Nat) :=
  match gbaBuildProblem true p visualOnly m0 with
  | .error e => .error e
  | .ok b =>
    let a1 := solve (gbaPass1SolverOptions p.threadsServer) b.prob (initAsg b.m)
    .ok (gbaRemoveOutliers p.thGbaOutlierGlobal (ev b.prob a1)
          (zipPos b.residualIds b.keypointIds) (storeAsg b.m a1, b.prob, 0))

/-- Keyframe writeback of round two (lines 694-717). -/
def gbaWritebackKf (visualOnly : Bool) (a : Asg) (i : Nat) (kf : Keyframe) : Keyframe :=
  if kf.invalid then kf
  else
    let pa := a (.kfPose i)
    let vb := a (.kfVelBias i)
    let kf1 := { kf with
                 pose := Ceres2Transform pa
                 poseOptimized := true
                 ceresPose := pa
                 ceresVelBias := vb }
    let kf2 := if visualOnly then kf1
               else { kf1 with
                      vel := ⟨vb.getD 0 0, vb.getD 1 0, vb.getD 2 0⟩
                      biasA := ⟨vb.getD 3 0, vb.getD 4 0, vb.getD 5 0⟩
                      biasG := ⟨vb.getD 6 0, vb.getD 7 0, vb.getD 8 0⟩
                      velBiasOptimized := true }
    { kf2 with isGbaOptimized := true }

/-- Landmark writeback of round two (lines 720-731): skipped for landmarks
not included in the problem and for invalid landmarks. -/
def gbaWritebackLm (m : MapState) (a : Asg) (i : Nat) (lm : Landmark) : Landmark :=
  if gbaLmGate m lm ≠ LmGate.included then lm
  else
    let cp := a (.lmPos i)
    { lm with
      posW := ⟨cp.getD 0 0, cp.getD 1 0, cp.getD 2 0⟩
      optimized := true
      isGbaOptimized := true
      ceresPos := cp }

/-- GBA round two ('real' optimization, lines 419-732). -/
def gbaPass2 (p : Params) (interationsLimit : Int) (timeLimit : Scalar)
    (visualOnly : Bool) (solve : SolveFn) (m0 : MapState) : Except Fatal MapState :=
  match gbaBuildProblem false p visualOnly m0 with
  | .error e => .error e
  | .ok b =>
    let a1 := solve (gbaSolverOptions p.threadsServer interationsLimit timeLimit) b.prob
                (initAsg b.m)
    .ok { b.m with
          keyframes := b.m.keyframes.enum.map (fun ik => gbaWritebackKf visualOnly a1 ik.1 ik.2)
          landmarks := b.m.landmarks.enum.map (fun il => gbaWritebackLm b.m a1 il.1 il.2) }

/-- `Optimization::GlobalBundleAdjustment` (line 179).  `estimate_bias` is
accepted and never read, exactly as in the source; the final `map->Clean()`
belongs to the external map collaborator (spec section 1, out of scope) and
does not touch poses or landmark positions. -/
def GlobalBundleAdjustment (p : Params) (interationsLimit : Int) (timeLimit : Scalar)
    (visualOnly outlierRemoval estimateBias : Bool) (solve : SolveFn) (ev : EvalFn)
    (m0 : MapState) : Except Fatal MapState :=
  match (if outlierRemoval then (gbaPass1 p visualOnly solve ev m0).map (fun r => r.1)
         else .ok m0) with
  | .error e => .error e
  | .ok m1 => gbaPass2 p interationsLimit timeLimit visualOnly solve m1

/-! ### Two-view relative pose optimization (`Optimization::OptimizeRelativePose`,
source lines 1119-1330) -/

/-- Modelled from the spec: `Landmark::GetFeatureIndex(kf)` — the feature
index under which this landmark is observed in the given keyframe, `-1` when
it is not observed there (observation set of section 6). -/
def GetFeatureIndex (lm : Landmark) (kfIdx : Nat) : Int :=
  match lm.observations.find? (fun o => o.1 = some kfIdx) with
  | some o => Int.ofNat o.2
  | Option.none => -1

/-- One accepted correspondence: the original index `i` into `matches1`
(pushed into `vIndex`, line 1275) and the ids of its two residual blocks. -/
structure RelCorr where
  origIdx : Nat
  idA : Nat
  idB : Nat
deriving DecidableEq

structure RelBuildSt where
  prob : CeresProblem
  corrs : List RelCorr
deriving DecidableEq

/-- One iteration of the correspondence loop (lines 1154-1283): skip null
matches, null slots of `vpMapPointsA`, invalid endpoints and matches without
a resolvable feature index in kf2; otherwise attach the two bidirectional
`RelativeEuclideanReprError` factors (Cauchy(1.0) loss), dispatching on both
cameras' projection/distortion tags (unknown tags fatal, in source order).
`vpMapPointsA[i]` beyond the end of kf1's landmark vector is undefined
behaviour in C++ and modelled as a null slot. -/
def relPoseCorrStep (kf1 kf2 : Keyframe) (k2 : Nat) (lms : List Landmark)
    (TcwA TcwB : Pose) (i : Nat) (mi : Option Nat) (st : RelBuildSt) :
    Except Fatal RelBuildSt :=
  match mi with
  | Option.none => .ok st
  | some bIdx =>
    match kf1.landmarkSlots.getD i Option.none with
    | Option.none => .ok st
    | some aIdx =>
      match lms.get? aIdx, lms.get? bIdx with
      | some lmA, some lmB =>
        let iB := GetFeatureIndex lmB k2
        if !lmA.invalid && !lmB.invalid && decide (0 ≤ iB) then
          if kf1.camType = CamType.kOtherCam then .error .unknownProjection
          else if kf1.distType = DistType.kOtherDist then .error .unknownDistortion
          else if kf2.camType = CamType.kOtherCam then .error .unknownProjection
          else if kf2.distType = DistType.kOtherDist then .error .unknownDistortion
          else
            let P3DAc := poseApply TcwA lmA.posW
            let P3DBc := poseApply TcwB lmB.posW
            let kpA := kf1.kpDist.getD i ⟨0, 0⟩
            let sigA := (kf1.kpAor1.getD i 0 + 1) * 2
            let kpB := kf2.kpDist.getD iB.toNat ⟨0, 0⟩
            let sigB := (kf2.kpAor1.getD iB.toNat 0 + 1) * 2
            let prA := addResidual st.prob (.relRepr false kpA sigA P3DBc (.cauchy 1))
            let prB := addResidual prA.1 (.relRepr true kpB sigB P3DAc (.cauchy 1))
            .ok ⟨prB.1, st.corrs ++ [⟨i, prA.2, prB.2⟩]⟩
        else .ok st
      | _, _ => .ok st

def relPoseCorrLoop (kf1 kf2 : Keyframe) (k2 : Nat) (lms : List Landmark)
    (TcwA TcwB : Pose) : List (Nat × Option Nat) → RelBuildSt → Except Fatal RelBuildSt
  | [], st => .ok st
  | (i, mi) :: rest, st =>
    match relPoseCorrStep kf1 kf2 k2 lms TcwA TcwB i mi st with
    | .error e => .error e
    | .ok st2 => relPoseCorrLoop kf1 kf2 k2 lms TcwA TcwB rest st2

/-- Outlier classification (lines 1305-1317): a correspondence is an outlier
when either direction's evaluated residual norm exceeds
`th_outlier_align`; both its residual blocks are removed and an entry of
`matches1` is nulled.  The source nulls `matches1[i]` where `i` is the
correspondence ordinal among the accepted correspondences — NOT `vIndex[i]`,
the correspondence's original index (the `vIndex` vector is built at line
1275 and never read). -/
def relPoseOutlierLoop (thAlign : Scalar) (evA evB : Nat → Vec2) :
    List (Nat × RelCorr) → CeresProblem × List (Option Nat) × Nat →
    CeresProblem × List (Option Nat) × Nat
  | [], st => st
  | (j, c) :: rest, (prob, ms, numBad) =>
    if normGt (evA j) thAlign || normGt (evB j) thAlign then
      relPoseOutlierLoop thAlign evA evB rest
        (removeResidual (removeResidual prob c.idA) c.idB,
         ms.set j Option.none,
         numBad + 1)
    else relPoseOutlierLoop thAlign evA evB rest (prob, ms, numBad)

/-- Both solves of `OptimizeRelativePose` use 5 iterations (lines 1286-1293,
1323-1324). -/
def relPoseSolverOptions (threads : Nat) : SolverOptions :=
  ⟨.sparseSchur, threads, threads, .doglegTR, 5, Option.none⟩

structure RelPoseResult where
  ret : Nat
  T12 : Pose
  matches1 : List (Option Nat)
deriving DecidableEq

/-- Initial contents of the `ceresAB` block (lines 1129-1138): the
7-scalar encoding of the input relative transform. -/
def relPoseInitAsg (T12 : Pose) : Asg :=
  fun b => if b = BlockId.relPose then encodePose T12 else []

/-- Problem construction of `OptimizeRelativePose` (lines 1120-1283): one
pose block plus the accepted correspondences with their factor pairs. -/
def relPoseBuild (kfs : List Keyframe) (lms : List Landmark) (k1 k2 : Nat)
    (matches1 : List (Option Nat)) : Except Fatal RelBuildSt :=
  match kfs.get? k1, kfs.get? k2 with
  | some kf1, some kf2 =>
    relPoseCorrLoop kf1 kf2 k2 lms
      (poseInv (poseMul kf1.pose kf1.extrinsics))
      (poseInv (poseMul kf2.pose kf1.extrinsics))
      matches1.enum ⟨addBlock emptyProblem .relPose, []⟩
  | _, _ => .error .nullKeyframe

/-- `Optimization::OptimizeRelativePose` (line 1119).  `kfs`/`lms` are the
map's entity vectors; `k1`, `k2` identify the two keyframes (their pointer
identities).  `th2` is accepted and never read, as in the source (the
classification threshold is `covins_params::opt::th_outlier_align`).  Note
line 1142: `TcwB` is built with kf1's extrinsics. -/
def OptimizeRelativePose (p : Params) (kfs : List Keyframe) (lms : List Landmark)
    (k1 k2 : Nat) (matches1 : List (Option Nat)) (T12 : Pose) (th2 : Scalar)
    (solve : SolveFn) (evA evB : EvalFn) : Except Fatal RelPoseResult :=
  match relPoseBuild kfs lms k1 k2 matches1 with
  | .error e => .error e
  | .ok st =>
    let a1 := solve (relPoseSolverOptions p.threadsServer) st.prob (relPoseInitAsg T12)
    let res := relPoseOutlierLoop p.thOutlierAlign (evA st.prob a1) (evB st.prob a1)
                 st.corrs.enum (st.prob, matches1, 0)
    let numCorr := st.corrs.length
    let numBad := res.2.2
    if numCorr - numBad < 12 then .ok ⟨0, T12, res.2.1⟩
    else
      let a2 := solve (relPoseSolverOptions p.threadsServer) res.1 a1
      .ok ⟨numCorr - numBad, Ceres2Transform (a2 BlockId.relPose), res.2.1⟩

/-- `numCorrespondences - numBad`, the count of correspondences surviving
outlier classification (0 when construction fails). -/
def relPoseSurvivors (p : Params) (kfs : List Keyframe) (lms : List Landmark)
    (k1 k2 : Nat) (matches1 : List (Option Nat)) (T12 : Pose)
    (solve : SolveFn) (evA evB : EvalFn) : Nat :=
  match relPoseBuild kfs lms k1 k2 matches1 with
  | .error _ => 0
  | .ok st =>
    let a1 := solve (relPoseSolverOptions p.threadsServer) st.prob (relPoseInitAsg T12)
    st.corrs.length -
      (relPoseOutlierLoop p.thOutlierAlign (evA st.prob a1) (evB st.prob a1)
        st.corrs.enum (st.prob, matches1, 0)).2.2

/-! ### Local Bundle Adjustment between-factors (source lines 979-1011) -/

/-- One LBA window member: a tag modelling the keyframe pointer identity plus
the keyframe's current world pose `GetPoseTws()` (spec section 6). -/
structure LbaKf where
  tag : Nat
  poseTws : Pose
deriving DecidableEq

structure LbaEdge where
  kf1 : Nat
  kf2 : Nat
  meas : Pose
deriving DecidableEq

/-- The 6-DoF between-factors of `Optimization::LocalBundleAdjustment`
(lines 979-1011): for every candidate-window keyframe `CKFs[i]`, i ≥ 1, one
edge from `CKF = CKFs[0]`; then for every query-window keyframe `QKFs[i]`,
i ≥ 1, one edge from `QKF = QKFs[0]`.  Each edge measures
`kf1.GetPoseTsw() * kf2.GetPoseTws()` and is attached as a
`SixDofBetweenError` between the two `ceres_pose_local_` blocks with
`sqrt_info` top-left *= 100 / bottom-right *= 1e4 and the Cauchy(1.0) loss
(identical for every edge, so not repeated in `LbaEdge`).  The source reads
`QKFs[0]` and `CKFs[0]` unconditionally (lines 762-763); `headD` models the
nonempty windows the callers guarantee. -/
def lbaBetweenEdges (QKFs CKFs : List LbaKf) : List LbaEdge :=
  let ckf := CKFs.headD ⟨0, ⟨⟨0, 0, 0, 1⟩, ⟨0, 0, 0⟩⟩⟩
  let qkf := QKFs.headD ⟨0, ⟨⟨0, 0, 0, 1⟩, ⟨0, 0, 0⟩⟩⟩
  ((CKFs.drop 1).map (fun kf2 =>
      ⟨ckf.tag, kf2.tag, poseMul (poseInv ckf.poseTws) kf2.poseTws⟩))
    ++ ((QKFs.drop 1).map (fun kf2 =>
      ⟨qkf.tag, kf2.tag, poseMul (poseInv qkf.poseTws) kf2.poseTws⟩))

/-! ### Pose-graph optimization, 6-DoF (source lines 1741-2041) and 4-DoF
(source lines 1491-1739) -/

abbrev PoseMap := List ((Nat × Nat) × Pose)

/-- `std::map` insertion-or-overwrite (`map[k] = v`). -/
def assocSet {α β : Type} [DecidableEq α] (l : List (α × β)) (k : α) (v : β) :
    List (α × β) :=
  match assocFind l k with
  | some _ => l.map (fun kv => if kv.1 = k then (k, v) else kv)
  | Option.none => l ++ [(k, v)]

/-- 6-DoF PGO keyframe initialization (lines 1760-1778): the Ceres pose array
is seeded from the externally corrected pose when one is supplied for this
keyframe, from the keyframe's current pose otherwise. -/
def pgoSyncKf (correctedPoses : PoseMap) (kf : Keyframe) : Keyframe :=
  if kf.invalid then kf
  else
    let tws := (assocFind correctedPoses (kf.idFirst, kf.idSecond)).getD kf.pose
    { UpdateCeresFromState kf with ceresPose := encodePose tws }

def pgoSyncKeyframes (correctedPoses : PoseMap) (m : MapState) : MapState :=
  { m with keyframes := m.keyframes.map (pgoSyncKf correctedPoses) }

/-- 6-DoF PGO parameter blocks (lines 1779-1783): pose block per valid
keyframe, constant for the map's anchor keyframe; extrinsics always
constant.  (The active 6-DoF variant has no loaded/post-GBA constancy.) -/
def pgoKfBlocks (m : MapState) : List (Nat × Keyframe) → CeresProblem → CeresProblem
  | [], pr => pr
  | (i, kf) :: rest, pr =>
    if kf.invalid then pgoKfBlocks m rest pr
    else
      let pr1 := addBlock pr (.kfPose i)
      let pr2 := if kf.idFirst = 0 ∧ kf.idSecond = m.idMap then setConst pr1 (.kfPose i)
                 else pr1
      let pr3 := setConst (addBlock pr2 (.kfExtr i)) (.kfExtr i)
      pgoKfBlocks m rest pr3

/-- Loop-edge weight of the 6-DoF pose-graph optimization (lines 1870-1878):
three bands keyed by the translational covariance trace.  The initial
`weight = wt_lp_t1` (line 1871) is dead — every branch of the subsequent
conditional overwrites it. -/
def pgo6LoopWeight (p : Params) (cov : Scalar) : Scalar :=
  if cov < p.covSwitch then p.wtLpR1
  else if cov < p.covSwitch2 then p.wtLpR2
  else p.wtLpR3

/-- 6-DoF PGO loop edges (lines 1853-1910): `sqrt_info_l` is the identity
scaled uniformly by the bucket weight; no robust loss. -/
def pgo6LoopEdges (p : Params) : List LoopConstraint → CeresProblem → CeresProblem
  | [], pr => pr
  | l :: rest, pr =>
    let w := pgo6LoopWeight p (covTransTrace l)
    pgo6LoopEdges p rest
      (addResidual pr (.sixDofBetween l.kf1 l.kf2 l.T_s1_s2 w w .noLoss)).1

structure PgoBuildSt where
  prob : CeresProblem
  insertedEdges : List (Nat × Nat)
deriving DecidableEq

/-- 6-DoF PGO successor edges (lines 1914-1939): one between-factor per
keyframe and its temporal successor, `sqrt_info` top-left *= wt_kf_r /
bottom-right *= wt_kf_t, no loss, deduplicated through `inserted_edges`. -/
def pgo6SuccEdges (p : Params) (m : MapState) :
    List (Nat × Keyframe) → PgoBuildSt → PgoBuildSt
  | [], st => st
  | (i, kf) :: rest, st =>
    if kf.invalid then pgo6SuccEdges p m rest st
    else
      match kf.succ with
      | Option.none => pgo6SuccEdges p m rest st
      | some sIdx =>
        match m.keyframes.get? sIdx with
        | Option.none => pgo6SuccEdges p m rest st
        | some succKf =>
          if (i, sIdx) ∈ st.insertedEdges then pgo6SuccEdges p m rest st
          else
            let meas := poseMul (poseInv kf.pose) succKf.pose
            pgo6SuccEdges p m rest
              ⟨(addResidual st.prob (.sixDofBetween i sIdx meas p.wtKfR p.wtKfT .noLoss)).1,
               st.insertedEdges ++ [(i, sIdx)]⟩

/-- The `Use 4 Previous KFs` collection loop (lines 1948-1958 / 1633-1642):
for j = 1..4, when `int(id_.first) - j > 0`, follow `GetPredecessor` and push
the result.  Calling `GetPredecessor` on a null `temp_kf` is a crash in the
source, modelled as a fatal error. -/
def pgoCollectConnGo (m : MapState) (kf : Keyframe) :
    List Int → Option Nat → List (Option Nat) → Except Fatal (List (Option Nat))
  | [], _, acc => .ok acc
  | j :: rest, current, acc =>
    if (kf.idFirst : Int) - j > 0 then
      match current with
      | Option.none => .error .nullKeyframe
      | some idx =>
        match m.keyframes.get? idx with
        | Option.none => .error .nullKeyframe
        | some tk => pgoCollectConnGo m kf rest tk.pred (acc ++ [tk.pred])
    else pgoCollectConnGo m kf rest current acc

def pgoCollectConnections (m : MapState) (i : Nat) (kf : Keyframe) :
    Except Fatal (List (Option Nat)) :=
  pgoCollectConnGo m kf [1, 2, 3, 4] (some i) []

/-- 6-DoF PGO additional neighbour edges for one keyframe (lines 1961-1977):
using a pushed null connection (`kfc->GetPoseTws()`) is a crash. -/
def pgo6NeighborEdgesForKf (p : Params) (m : MapState) (i : Nat) (kf : Keyframe) :
    List (Option Nat) → PgoBuildSt → Except Fatal PgoBuildSt
  | [], st => .ok st
  | copt :: rest, st =>
    match copt with
    | Option.none => .error .nullKeyframe
    | some cIdx =>
      match m.keyframes.get? cIdx with
      | Option.none => .error .nullKeyframe
      | some kfc =>
        if (i, cIdx) ∈ st.insertedEdges then pgo6NeighborEdgesForKf p m i kf rest st
        else
          let meas := poseMul (poseInv kf.pose) kfc.pose
          pgo6NeighborEdgesForKf p m i kf rest
            ⟨(addResidual st.prob (.sixDofBetween i cIdx meas p.wtKfR p.wtKfT .noLoss)).1,
             st.insertedEdges ++ [(i, cIdx)]⟩

def pgo6NeighborEdges (p : Params) (m : MapState) :
    List (Nat × Keyframe) → PgoBuildSt → Except Fatal PgoBuildSt
  | [], st => .ok st
  | (i, kf) :: rest, st =>
    if kf.invalid then pgo6NeighborEdges p m rest st
    else
      match pgoCollectConnections m i kf with
      | .error e => .error e
      | .ok conns =>
        match pgo6NeighborEdgesForKf p m i kf conns st with
        | .error e => .error e
        | .ok st2 => pgo6NeighborEdges p m rest st2

def pgoSolverOptions (threads : Nat) (iterLimit : Int) : SolverOptions :=
  ⟨.sparseSchur, threads, threads, .doglegTR, iterLimit, Option.none⟩

/-- 6-DoF PGO keyframe writeback (lines 1998-2010): capture the uncorrected
pose, decode the solved pose array (`velocity/bias` and extrinsics arrays are
not touched by this problem), and rotate the stored velocity by
`R_corrected * R_uncorrected⁻¹`. -/
def pgo6WritebackKfs (a : Asg) :
    List (Nat × Keyframe) → List Keyframe × PoseMap → List Keyframe × PoseMap
  | [], acc => acc
  | (i, kf) :: rest, (ks, nc) =>
    if kf.invalid then pgo6WritebackKfs a rest (ks ++ [kf], nc)
    else
      let Tu := kf.pose
      let poseArr := a (.kfPose i)
      let kf1 := UpdateFromCeres kf poseArr kf.ceresVelBias (a (.kfExtr i))
      let Tc := Ceres2Transform poseArr
      let vel2 := quatRotate Tc.q (quatRotate (quatConj Tu.q) kf1.vel)
      pgo6WritebackKfs a rest
        (ks ++ [{ kf1 with vel := vel2 }], assocSet nc (kf.idFirst, kf.idSecond) Tu)

/-- Landmark re-anchoring, identical in the 6-DoF (lines 2013-2038) and
4-DoF (lines 1711-1736) variants: transform the landmark from its reference
keyframe's captured pre-solve frame into that keyframe's new world frame;
a reference keyframe absent from `non_corrected_poses` is fatal. -/
def pgoWritebackLm (m2 : MapState) (nc : PoseMap) (lm : Landmark) :
    Except Fatal Landmark :=
  if lm.invalid then .ok lm
  else
    match lm.refKf with
    | Option.none => .ok lm
    | some rIdx =>
      match m2.keyframes.get? rIdx with
      | Option.none => .error .nullKeyframe
      | some kfRef =>
        match assocFind nc (kfRef.idFirst, kfRef.idSecond) with
        | Option.none => .error .missingNonCorrectedPose
        | some Tu =>
          let posS := poseApply (poseInv Tu) lm.posW
          .ok { lm with posW := poseApply kfRef.pose posS }

def pgoWritebackLms (m2 : MapState) (nc : PoseMap) :
    List Landmark → List Landmark → Except Fatal (List Landmark)
  | [], acc => .ok acc
  | lm :: rest, acc =>
    match pgoWritebackLm m2 nc lm with
    | .error e => .error e
    | .ok lm2 => pgoWritebackLms m2 nc rest (acc ++ [lm2])

/-- `Optimization::PoseGraphOptimization` (line 1741), the active 6-DoF
variant. -/
def PoseGraphOptimization (p : Params) (correctedPoses : PoseMap) (solve : SolveFn)
    (m0 : MapState) : Except Fatal MapState :=
  let m1 := pgoSyncKeyframes correctedPoses m0
  let pr0 := pgoKfBlocks m1 m1.keyframes.enum emptyProblem
  let pr1 := pgo6LoopEdges p m1.loops pr0
  let st1 := pgo6SuccEdges p m1 m1.keyframes.enum ⟨pr1, []⟩
  match pgo6NeighborEdges p m1 m1.keyframes.enum st1 with
  | .error e => .error e
  | .ok st2 =>
    let a1 := solve (pgoSolverOptions p.threadsServer p.pgoIterationLimit) st2.prob
                (initAsg m1)
    let wb := pgo6WritebackKfs a1 m1.keyframes.enum ([], [])
    let m2 := { m1 with keyframes := wb.1 }
    match pgoWritebackLms m2 wb.2 m1.landmarks [] with
    | .error e => .error e
    | .ok lms2 => .ok { m2 with landmarks := lms2 }

/-! #### 4-DoF variant -/

/-- The trigonometric primitives `M_PI`, `std::sin`, `std::cos` used by
`eulerAnglesToQuat`; abstract over ℚ (any oracle satisfies the claims
proved here). -/
structure TrigOracle where
  pi : Scalar
  sin : Scalar → Scalar
  cos : Scalar → Scalar

/-- `degToRad` (line 63). -/
def degToRad (tc : TrigOracle) (angle : Scalar) : Scalar := angle * tc.pi / 180

/-- `eulerAnglesToQuat` (lines 119-149), including the final sign
normalization to `w ≥ 0`. -/
def eulerAnglesToQuat (tc : TrigOracle) (yaw pitch roll : Scalar) : Quat :=
  let y := degToRad tc yaw
  let p := degToRad tc pitch
  let r := degToRad tc roll
  let cy := tc.cos (y / 2)
  let sy := tc.sin (y / 2)
  let cp := tc.cos (p / 2)
  let sp := tc.sin (p / 2)
  let cr := tc.cos (r / 2)
  let sr := tc.sin (r / 2)
  let qw := cy * cp * cr + sy * sp * sr
  let qx := cy * cp * sr - sy * sp * cr
  let qy := sy * cp * sr + cy * sp * cr
  let qz := sy * cp * cr - cy * sp * sr
  if qw < 0 then ⟨-qx, -qy, -qz, -qw⟩ else ⟨qx, qy, qz, qw⟩

/-- 4-DoF PGO keyframe initialization (lines 1509-1529): `corrected_poses`
is not consulted — `T_ws_init` is always the keyframe's current pose; the
Ceres pose array holds (stale q.x, yaw, pitch, roll, tx, ty, tz) with
(yaw,pitch,roll) from `Utils::R2ypr` (external, abstracted as `r2ypr`, in
degrees). -/
def pgo4SyncKf (r2ypr : Quat → Vec3) (kf : Keyframe) : Keyframe :=
  if kf.invalid then kf
  else
    let kfs := UpdateCeresFromState kf
    let ypr := r2ypr kf.pose.q
    { kfs with ceresPose := [kf.pose.q.x, ypr.x, ypr.y, ypr.z,
                             kf.pose.t.x, kf.pose.t.y, kf.pose.t.z] }

/-- `q_ws_map` (lines 1507, 1520-1521): initial rotation per keyframe id. -/
def pgo4QwsMap (m : MapState) : List ((Nat × Nat) × Quat) :=
  m.keyframes.foldl
    (fun acc kf => if kf.invalid then acc
                   else assocSet acc (kf.idFirst, kf.idSecond) kf.pose.q) []

/-- 4-DoF PGO parameter blocks (lines 1531-1549): the yaw scalar
`&ceres_pose_[1]` (angle local parameterization) and the translation
`&ceres_pose_[4]`; both constant for the anchor, for post-GBA keyframes when
`pgo_fix_kfs_after_gba`, and for loaded keyframes when
`pgo_fix_poses_loaded_maps`. -/
def pgo4KfBlocks (p : Params) (m : MapState) :
    List (Nat × Keyframe) → CeresProblem → CeresProblem
  | [], pr => pr
  | (i, kf) :: rest, pr =>
    if kf.invalid then pgo4KfBlocks p m rest pr
    else
      let pr1 := addBlock (addBlock pr (.kfYaw i)) (.kfTrans i)
      let pr2 := if kf.idFirst = 0 ∧ kf.idSecond = m.idMap then
                   setConst (setConst pr1 (.kfYaw i)) (.kfTrans i)
                 else pr1
      let pr3 := if kf.isGbaOptimized && p.pgoFixKfsAfterGba then
                   setConst (setConst pr2 (.kfYaw i)) (.kfTrans i)
                 else if kf.isLoaded && p.pgoFixPosesLoadedMaps then
                   setConst (setConst pr2 (.kfYaw i)) (.kfTrans i)
                 else pr2
      pgo4KfBlocks p m rest pr3

/-- Loop-edge weight of the 4-DoF pose-graph optimization (lines 1563-1571):
the constant `1` — the covariance-trace bucket selection exists only as
commented-out code there, so the weight does not depend on `cov`. -/
def pgo4LoopWeight (cov : Scalar) : Scalar := 1

/-- `q_ws_map[kf1->id_]` of the loop-edge construction (line 1574): kf1's
initial rotation; a missing entry is default-constructed in C++ (modelled as
the identity quaternion). -/
def pgo4LoopQ1 (qws : List ((Nat × Nat) × Quat)) (m : MapState)
    (l : LoopConstraint) : Quat :=
  match m.keyframes.get? l.kf1 with
  | some kf1 => (assocFind qws (kf1.idFirst, kf1.idSecond)).getD ⟨0, 0, 0, 1⟩
  | Option.none => ⟨0, 0, 0, 1⟩

/-- 4-DoF PGO loop edges (lines 1558-1586): `FourDOFWeightError` with the
loop's relative translation and relative yaw, pitch/roll of kf1's initial
rotation, weight `pgo4LoopWeight`, Huber(0.1) loss. -/
def pgo4LoopEdges (r2ypr : Quat → Vec3) (qws : List ((Nat × Nat) × Quat))
    (m : MapState) : List LoopConstraint → CeresProblem → CeresProblem
  | [], pr => pr
  | l :: rest, pr =>
    let e := r2ypr (pgo4LoopQ1 qws m l)
    let w := pgo4LoopWeight (covTransTrace l)
    pgo4LoopEdges r2ypr qws m rest
      (addResidual pr
        (.fourDofWeight l.kf1 l.kf2 l.T_s1_s2.t l.relativeYaw e.y e.z w (.huber (1/10)))).1

/-- 4-DoF PGO successor edges (lines 1589-1624): `FourDOFError` with the
relative translation from the current poses and the relative yaw taken from
the initialized yaw entries of the two Ceres arrays, no loss, deduplicated
through `inserted_edges`. -/
def pgo4SuccEdges (r2ypr : Quat → Vec3) (qws : List ((Nat × Nat) × Quat))
    (m : MapState) : List (Nat × Keyframe) → PgoBuildSt → PgoBuildSt
  | [], st => st
  | (i, kf) :: rest, st =>
    if kf.invalid then pgo4SuccEdges r2ypr qws m rest st
    else
      match kf.succ with
      | Option.none => pgo4SuccEdges r2ypr qws m rest st
      | some sIdx =>
        match m.keyframes.get? sIdx with
        | Option.none => pgo4SuccEdges r2ypr qws m rest st
        | some succKf =>
          if (i, sIdx) ∈ st.insertedEdges then pgo4SuccEdges r2ypr qws m rest st
          else
            let meas := poseMul (poseInv kf.pose) succKf.pose
            let relYaw := succKf.ceresPose.getD 1 0 - kf.ceresPose.getD 1 0
            let q := (assocFind qws (kf.idFirst, kf.idSecond)).getD ⟨0, 0, 0, 1⟩
            let e := r2ypr q
            pgo4SuccEdges r2ypr qws m rest
              ⟨(addResidual st.prob (.fourDof i sIdx meas.t relYaw e.y e.z .noLoss)).1,
               st.insertedEdges ++ [(i, sIdx)]⟩

/-- 4-DoF PGO additional neighbour edges for one keyframe (lines 1644-1670). -/
def pgo4NeighborEdgesForKf (r2ypr : Quat → Vec3) (qws : List ((Nat × Nat) × Quat))
    (m : MapState) (i : Nat) (kf : Keyframe) :
    List (Option Nat) → PgoBuildSt → Except Fatal PgoBuildSt
  | [], st => .ok st
  | copt :: rest, st =>
    match copt with
    | Option.none => .error .nullKeyframe
    | some cIdx =>
      match m.keyframes.get? cIdx with
      | Option.none => .error .nullKeyframe
      | some kfc =>
        if (i, cIdx) ∈ st.insertedEdges then
          pgo4NeighborEdgesForKf r2ypr qws m i kf rest st
        else
          let meas := poseMul (poseInv kf.pose) kfc.pose
          let relYaw := kfc.ceresPose.getD 1 0 - kf.ceresPose.getD 1 0
          let q := (assocFind qws (kf.idFirst, kf.idSecond)).getD ⟨0, 0, 0, 1⟩
          let e := r2ypr q
          pgo4NeighborEdgesForKf r2ypr qws m i kf rest
            ⟨(addResidual st.prob (.fourDof i cIdx meas.t relYaw e.y e.z .noLoss)).1,
             st.insertedEdges ++ [(i, cIdx)]⟩

def pgo4NeighborEdges (r2ypr : Quat → Vec3) (qws : List ((Nat × Nat) × Quat))
    (m : MapState) : List (Nat × Keyframe) → PgoBuildSt → Except Fatal PgoBuildSt
  | [], st => .ok st
  | (i, kf) :: rest, st =>
    if kf.invalid then pgo4NeighborEdges r2ypr qws m rest st
    else
      match pgoCollectConnections m i kf with
      | .error e => .error e
      | .ok conns =>
        match pgo4NeighborEdgesForKf r2ypr qws m i kf conns st with
        | .error e => .error e
        | .ok st2 => pgo4NeighborEdges r2ypr qws m rest st2

/-- 4-DoF solver options (lines 1675-1679): sparse normal Cholesky, no trust
region strategy set (Ceres default: Levenberg-Marquardt). -/
def pgo4SolverOptions (threads : Nat) (iterLimit : Int) : SolverOptions :=
  ⟨.sparseNormalCholesky, threads, threads, .levenbergMarquardtTR, iterLimit, Option.none⟩

/-- 4-DoF PGO keyframe writeback (lines 1689-1708): rebuild the quaternion
from the (solved) yaw and the (untouched) pitch/roll entries; the pose array
becomes (q.x,q.y,q.z,q.w,solved translation); velocity is rotated as in the
6-DoF variant. -/
def pgo4WritebackKfs (tc : TrigOracle) (a : Asg) :
    List (Nat × Keyframe) → List Keyframe × PoseMap → List Keyframe × PoseMap
  | [], acc => acc
  | (i, kf) :: rest, (ks, nc) =>
    if kf.invalid then pgo4WritebackKfs tc a rest (ks ++ [kf], nc)
    else
      let Tu := kf.pose
      let yaw := (a (.kfYaw i)).getD 0 0
      let pitch := kf.ceresPose.getD 2 0
      let roll := kf.ceresPose.getD 3 0
      let q := eulerAnglesToQuat tc yaw pitch roll
      let tr := a (.kfTrans i)
      let poseArr := [q.x, q.y, q.z, q.w, tr.getD 0 0, tr.getD 1 0, tr.getD 2 0]
      let kf1 := UpdateFromCeres kf poseArr kf.ceresVelBias kf.ceresExtr
      let Tc := Ceres2Transform poseArr
      let vel2 := quatRotate Tc.q (quatRotate (quatConj Tu.q) kf1.vel)
      pgo4WritebackKfs tc a rest
        (ks ++ [{ kf1 with vel := vel2 }], assocSet nc (kf.idFirst, kf.idSecond) Tu)

/-- `Optimization::PoseGraphOptimization4DoF` (line 1491).  The
`corrected_poses` argument is accepted and never read by this variant. -/
def PoseGraphOptimization4DoF (p : Params) (tc : TrigOracle) (r2ypr : Quat → Vec3)
    (correctedPoses : PoseMap) (solve : SolveFn) (m0 : MapState) :
    Except Fatal MapState :=
  let m1 := { m0 with keyframes := m0.keyframes.map (pgo4SyncKf r2ypr) }
  let qws := pgo4QwsMap m1
  let pr0 := pgo4KfBlocks p m1 m1.keyframes.enum emptyProblem
  let pr1 := pgo4LoopEdges r2ypr qws m1 m1.loops pr0
  let st1 := pgo4SuccEdges r2ypr qws m1 m1.keyframes.enum ⟨pr1, []⟩
  match pgo4NeighborEdges r2ypr qws m1 m1.keyframes.enum st1 with
  | .error e => .error e
  | .ok st2 =>
    let a1 := solve (pgo4SolverOptions p.threadsServer p.pgoIterationLimit) st2.prob
                (initAsg m1)
    let wb := pgo4WritebackKfs tc a1 m1.keyframes.enum ([], [])
    let m2 := { m1 with keyframes := wb.1 }
    match pgoWritebackLms m2 wb.2 m1.landmarks [] with
    | .error e => .error e
    | .ok lms2 => .ok { m2 with landmarks := lms2 }

/-! ### Auxiliary definitions for the verification -/

def exceptIsOk {ε α : Type} : Except ε α → Bool
  | .ok _ => true
  | .error _ => false

instance {ε α : Type} [DecidableEq ε] [DecidableEq α] : DecidableEq (Except ε α) :=
  fun x y =>
    match x, y with
    | .ok a, .ok b =>
      if h : a = b then .isTrue (by rw [h])
      else .isFalse (fun hh => h (Except.ok.inj hh))
    | .error a, .error b =>
      if h : a = b then .isTrue (by rw [h])
      else .isFalse (fun hh => h (Except.error.inj hh))
    | .ok _, .error _ => .isFalse (fun hh => Except.noConfusion hh)
    | .error _, .ok _ => .isFalse (fun hh => Except.noConfusion hh)

/-- Modelled from the spec: the three-band loop-edge weight table of section
4.5 — tight/medium/loose bands keyed by the loop constraint's
translational-covariance trace with the configured breakpoints — stated in
order to compare it against what the code computes. -/
def specBucketWeight (p : Params) (cov : Scalar) : Scalar :=
  if cov < p.covSwitch then p.wtLpR1
  else if cov < p.covSwitch2 then p.wtLpR2
  else p.wtLpR3

def idQuat : Quat := ⟨0, 0, 0, 1⟩

def idPose : Pose := ⟨idQuat, ⟨0, 0, 0⟩⟩

/-- The identity solver: returns the assignment unchanged.  It trivially
satisfies `SolverOk` and serves as the concrete solver of the witnesses. -/
def idSolve : SolveFn := fun _ _ a => a

theorem idSolve_ok : SolverOk idSolve := fun _ _ _ _ _ => rfl

def zeroEval : EvalFn := fun _ _ _ => ⟨0, 0⟩

/-- A neutral keyframe all concrete examples start from. -/
def exKf : Keyframe :=
  { idFirst := 0
    idSecond := 0
    invalid := false
    pose := idPose
    vel := ⟨0, 0, 0⟩
    biasA := ⟨0, 0, 0⟩
    biasG := ⟨0, 0, 0⟩
    extrinsics := idPose
    isLoaded := false
    isGbaOptimized := false
    poseOptimized := false
    velBiasOptimized := false
    cameraId := 0
    camType := CamType.kPinhole
    distType := DistType.kRadTan
    pred := Option.none
    succ := Option.none
    numImuMeas := 1
    kpDist := []
    kpAor1 := []
    landmarkSlots := []
    ceresPose := []
    ceresVelBias := []
    ceresExtr := [] }

/-- A neutral landmark all concrete examples start from. -/
def exLm : Landmark :=
  { invalid := false
    posW := ⟨0, 0, 0⟩
    observations := []
    refKf := Option.none
    optimized := false
    isGbaOptimized := false
    ceresPos := [] }

/-- A neutral parameter set all concrete examples start from. -/
def exParams : Params :=
  { threadsServer := 4
    thGbaOutlierGlobal := 3
    gbaFixPosesLoadedMaps := false
    gbaUseMapLoopConstraints := true
    pgoIterationLimit := 50
    pgoFixKfsAfterGba := false
    pgoFixPosesLoadedMaps := false
    thOutlierAlign := 1
    covSwitch := 1
    covSwitch2 := 2
    wtLpT1 := 1
    wtLpR1 := 1/2
    wtLpR2 := 1/10
    wtLpR3 := 1/100
    wtKfR := 100
    wtKfT := 10000 }

/-! ### C8 — the GBA time budget -/

/-- C8 (corrected): the `time_limit` argument of
`Optimization::GlobalBundleAdjustment` is accepted but ignored — the entire
call is independent of it, the solver options it builds carry no
`max_solver_time_in_seconds`, and the solve is bounded only by the caller's
iteration cap. -/
theorem C8_gba_time_budget_ignored :
    ∀ (p : Params) (il : Int) (t1 t2 : Scalar) (vo orem eb : Bool)
      (solve : SolveFn) (ev : EvalFn) (m : MapState),
      GlobalBundleAdjustment p il t1 vo orem eb solve ev m =
        GlobalBundleAdjustment p il t2 vo orem eb solve ev m ∧
      (gbaSolverOptions p.threadsServer il t1).maxSolverTimeInSeconds = Option.none ∧
      (gbaSolverOptions p.threadsServer il t1).maxNumIterations = il :=
  fun _ _ _ _ _ _ _ _ _ _ => ⟨rfl, rfl, rfl⟩

/-- C8 counterexample to the claim as stated: the solver options GBA passes
to `ceres::Solve` are identical for a zero and a one-hour time budget, and no
finite solver time is ever configured — so the solve is not bounded by the
caller's budget. -/
theorem C8_gba_time_budget_counterexample :
    gbaSolverOptions 4 10 0 = gbaSolverOptions 4 10 3600 ∧
    (gbaSolverOptions 4 10 3600).maxSolverTimeInSeconds = Option.none :=
  ⟨rfl, rfl⟩

/-! ### C9 — the LBA between-factor topology -/

/-- C9 (corrected): the 6-DoF between-factors of Local Bundle Adjustment
form two stars, one per window: the first candidate keyframe connects to
every other candidate-window member and the first query keyframe connects to
every other query-window member; no other pairs — in particular no edge
from the query anchor to any candidate-window keyframe — are present. -/
theorem C9_lba_between_factor_topology :
    ∀ (QKFs CKFs : List LbaKf) (k1 k2 : Nat),
      ((k1, k2) ∈ (lbaBetweenEdges QKFs CKFs).map (fun e => (e.kf1, e.kf2))) ↔
        ((k1 = (CKFs.headD ⟨0, idPose⟩).tag ∧ k2 ∈ (CKFs.drop 1).map LbaKf.tag) ∨
         (k1 = (QKFs.headD ⟨0, idPose⟩).tag ∧ k2 ∈ (QKFs.drop 1).map LbaKf.tag)) := by
  intro QKFs CKFs k1 k2
  simp only [lbaBetweenEdges, List.map_append, List.map_map, List.mem_append,
    List.mem_map, Function.comp, Prod.mk.injEq, idPose, idQuat]
  constructor
  · rintro (⟨a, ha, h1, h2⟩ | ⟨a, ha, h1, h2⟩)
    · exact Or.inl ⟨h1.symm, a, ha, h2⟩
    · exact Or.inr ⟨h1.symm, a, ha, h2⟩
  · rintro (⟨h1, a, ha, h2⟩ | ⟨h1, a, ha, h2⟩)
    · exact Or.inl ⟨a, ha, h1.symm, h2⟩
    · exact Or.inr ⟨a, ha, h1.symm, h2⟩

/-- C9 counterexample to the claim as stated: with query window (10, 11) and
candidate window (20, 21), no between-factor connects the query anchor 10 to
the candidate-window keyframe 21, while a between-factor between the two
non-anchor members 20 and 21 (anchor in the claim's sense being 10) is
present. -/
theorem C9_lba_star_counterexample :
    ((10, 21) ∉ (lbaBetweenEdges [⟨10, idPose⟩, ⟨11, idPose⟩]
        [⟨20, idPose⟩, ⟨21, idPose⟩]).map (fun e => (e.kf1, e.kf2))) ∧
    ((20, 21) ∈ (lbaBetweenEdges [⟨10, idPose⟩, ⟨11, idPose⟩]
        [⟨20, idPose⟩, ⟨21, idPose⟩]).map (fun e => (e.kf1, e.kf2))) := by
  constructor
  · decide
  · decide

/-! ### C6 — loop-edge information weights of the two pose-graph variants -/

/-- C6 (corrected): the three-band covariance-trace bucket table is the
loop-edge weight policy of the 6-DoF pose-graph optimization, while the
4-DoF variant weights every loop edge by the constant 1 (its bucket table is
commented out): every loop edge built by `pgo4LoopEdges` is a
`FourDOFWeightError` with weight `pgo4LoopWeight` (= 1, independent of the
covariance trace) under a Huber(0.1) loss, and every loop edge built by
`pgo6LoopEdges` is a `SixDofBetweenError` whose information matrix is the
identity uniformly scaled by `pgo6LoopWeight` (the bucket table keyed by the
translational-covariance trace), with no loss. -/
theorem C6_loop_edge_weight_policy :
    (∀ cov : Scalar, pgo4LoopWeight cov = 1) ∧
    (∀ (r2ypr : Quat → Vec3) (qws : List ((Nat × Nat) × Quat)) (m : MapState)
       (ls : List LoopConstraint) (pr : CeresProblem),
      (pgo4LoopEdges r2ypr qws m ls pr).residuals.map Prod.snd =
        pr.residuals.map Prod.snd ++ ls.map (fun l =>
          Factor.fourDofWeight l.kf1 l.kf2 l.T_s1_s2.t l.relativeYaw
            (r2ypr (pgo4LoopQ1 qws m l)).y (r2ypr (pgo4LoopQ1 qws m l)).z
            (pgo4LoopWeight (covTransTrace l)) (Loss.huber (1/10)))) ∧
    (∀ (p : Params) (ls : List LoopConstraint) (pr : CeresProblem),
      (pgo6LoopEdges p ls pr).residuals.map Prod.snd =
        pr.residuals.map Prod.snd ++ ls.map (fun l =>
          Factor.sixDofBetween l.kf1 l.kf2 l.T_s1_s2
            (pgo6LoopWeight p (covTransTrace l)) (pgo6LoopWeight p (covTransTrace l))
            Loss.noLoss)) := by
  refine ⟨fun _ => rfl, ?_, ?_⟩
  · intro r2ypr qws m ls
    induction ls with
    | nil => intro pr; simp [pgo4LoopEdges]
    | cons l rest ih => intro pr; simp [pgo4LoopEdges, addResidual, ih]
  · intro p ls
    induction ls with
    | nil => intro pr; simp [pgo6LoopEdges]
    | cons l rest ih => intro pr; simp [pgo6LoopEdges, addResidual, ih]

/-- C6 counterexample to the claim as stated: a concrete 4-DoF PGO loop-edge
construction over one loop constraint with translational-covariance trace 0
produces weight 1, whereas the spec's bucket table (breakpoints 1 and 2,
weights 1/2, 1/10, 1/100) dictates the tight-band weight 1/2. -/
theorem C6_fourdof_bucket_counterexample :
    ((pgo4LoopEdges (fun _ => ⟨0, 0, 0⟩) [] ⟨0, [], [], []⟩
        [⟨0, 1, idPose, [], 5⟩] emptyProblem).residuals.map Prod.snd =
      [Factor.fourDofWeight 0 1 ⟨0, 0, 0⟩ 5 0 0 1 (Loss.huber (1/10))]) ∧
    specBucketWeight exParams (covTransTrace ⟨0, 1, idPose, [], 5⟩) = 1/2 ∧
    ¬ Scalar.equiv 1 (1/2) := by
  refine ⟨rfl, by decide, by decide⟩

/-! ### C4, C5, C10 — OptimizeRelativePose -/

theorem relPoseCorrStep_length (kf1 kf2 : Keyframe) (k2 : Nat) (lms : List Landmark)
    (TA TB : Pose) (i : Nat) (mi : Option Nat) (st st2 : RelBuildSt)
    (h : relPoseCorrStep kf1 kf2 k2 lms TA TB i mi st = Except.ok st2) :
    st2.corrs.length ≤ st.corrs.length + (if mi.isSome then 1 else 0) := by
  unfold relPoseCorrStep at h
  cases mi with
  | none => cases h; simp
  | some bIdx =>
    simp only [Option.isSome_some, if_pos]
    cases hslot : kf1.landmarkSlots.getD i Option.none with
    | none => rw [hslot] at h; cases h; simp
    | some aIdx =>
      rw [hslot] at h
      dsimp only at h
      cases hA : lms.get? aIdx with
      | none => rw [hA] at h; cases h; simp
      | some lmA =>
        cases hB : lms.get? bIdx with
        | none => rw [hA, hB] at h; cases h; simp
        | some lmB =>
          rw [hA, hB] at h
          dsimp only at h
          by_cases hacc : (!lmA.invalid && !lmB.invalid &&
              decide (0 ≤ GetFeatureIndex lmB k2)) = true
          · rw [if_pos hacc] at h
            by_cases h1 : kf1.camType = CamType.kOtherCam
            · rw [if_pos h1] at h; exact (Except.noConfusion h)
            · rw [if_neg h1] at h
              by_cases h2 : kf1.distType = DistType.kOtherDist
              · rw [if_pos h2] at h; exact (Except.noConfusion h)
              · rw [if_neg h2] at h
                by_cases h3 : kf2.camType = CamType.kOtherCam
                · rw [if_pos h3] at h; exact (Except.noConfusion h)
                · rw [if_neg h3] at h
                  by_cases h4 : kf2.distType = DistType.kOtherDist
                  · rw [if_pos h4] at h; exact (Except.noConfusion h)
                  · rw [if_neg h4] at h
                    cases h
                    simp
          · rw [if_neg hacc] at h
            cases h
            simp

theorem relPoseCorrLoop_length (kf1 kf2 : Keyframe) (k2 : Nat) (lms : List Landmark)
    (TA TB : Pose) :
    ∀ (l : List (Nat × Option Nat)) (st st2 : RelBuildSt),
      relPoseCorrLoop kf1 kf2 k2 lms TA TB l st = Except.ok st2 →
      st2.corrs.length ≤ st.corrs.length + l.countP (fun im => im.2.isSome) := by
  intro l
  induction l with
  | nil =>
    intro st st2 h
    unfold relPoseCorrLoop at h
    cases h
    simp
  | cons im rest ih =>
    intro st st2 h
    unfold relPoseCorrLoop at h
    cases hstep : relPoseCorrStep kf1 kf2 k2 lms TA TB im.1 im.2 st with
    | error e => rw [hstep] at h; simp at h
    | ok stm =>
      rw [hstep] at h
      have h1 := relPoseCorrStep_length kf1 kf2 k2 lms TA TB im.1 im.2 st stm hstep
      have h2 := ih stm st2 h
      have : (im :: rest).countP (fun p => p.2.isSome) =
          (if im.2.isSome then 1 else 0) + rest.countP (fun p => p.2.isSome) := by
        rcases im with ⟨a, b⟩
        cases b <;> (simp [List.countP_cons]; try omega)
      omega

theorem countP_isSome_enumFrom (l : List (Option Nat)) :
    ∀ n : Nat, (List.enumFrom n l).countP (fun im => im.2.isSome) =
      l.countP (fun mi => mi.isSome) := by
  induction l with
  | nil => intro n; rfl
  | cons a rest ih =>
    intro n
    cases a <;> simp [List.enumFrom, List.countP_cons, ih]

/-- C4 (confirmed): `OptimizeRelativePose` never returns more than the number
of entries of `matches1` holding a non-null match; when fewer than 12
correspondences survive outlier classification it returns 0, and otherwise it
returns exactly the number of survivors (correspondences added minus
correspondences classified as outliers). -/
theorem C4_two_view_inlier_contract
    (p : Params) (kfs : List Keyframe) (lms : List Landmark) (k1 k2 : Nat)
    (matches1 : List (Option Nat)) (T12 : Pose) (th2 : Scalar)
    (solve : SolveFn) (evA evB : EvalFn) (r : RelPoseResult)
    (hr : OptimizeRelativePose p kfs lms k1 k2 matches1 T12 th2 solve evA evB =
      Except.ok r) :
    r.ret ≤ matches1.countP (fun mi => mi.isSome) ∧
    (relPoseSurvivors p kfs lms k1 k2 matches1 T12 solve evA evB < 12 → r.ret = 0) ∧
    (12 ≤ relPoseSurvivors p kfs lms k1 k2 matches1 T12 solve evA evB →
      r.ret = relPoseSurvivors p kfs lms k1 k2 matches1 T12 solve evA evB) := by
  unfold OptimizeRelativePose at hr
  unfold relPoseSurvivors
  cases hb : relPoseBuild kfs lms k1 k2 matches1 with
  | error e => rw [hb] at hr; simp at hr
  | ok st =>
    rw [hb] at hr
    have hlen : st.corrs.length ≤ matches1.countP (fun mi => mi.isSome) := by
      unfold relPoseBuild at hb
      cases h1 : kfs.get? k1 with
      | none => rw [h1] at hb; simp at hb
      | some kf1 =>
        cases h2 : kfs.get? k2 with
        | none => rw [h1, h2] at hb; simp at hb
        | some kf2 =>
          rw [h1, h2] at hb
          have := relPoseCorrLoop_length kf1 kf2 k2 lms
            (poseInv (poseMul kf1.pose kf1.extrinsics))
            (poseInv (poseMul kf2.pose kf1.extrinsics))
            matches1.enum ⟨addBlock emptyProblem .relPose, []⟩ st hb
          simpa [List.enum, countP_isSome_enumFrom] using this
    dsimp only at hr ⊢
    split at hr
    · cases hr
      refine ⟨Nat.zero_le _, fun _ => rfl, fun hge => ?_⟩
      omega
    · cases hr
      refine ⟨le_trans (Nat.sub_le _ _) hlen, fun hlt => ?_, fun _ => rfl⟩
      omega

def kfsC4 : List Keyframe :=
  [{ exKf with landmarkSlots := List.replicate 10 (some 0) },
   { exKf with idFirst := 1 }]

def lmsC4 : List Landmark :=
  exLm :: List.replicate 10 { exLm with observations := [(some 1, 0)] }

def matchesC4 : List (Option Nat) := (List.range 10).map (fun i => some (i + 1))

/-- C4 witness: a synthetic correspondence set with exactly 10 valid matches
yields 10 survivors and a 0 return. -/
theorem C4_two_view_inlier_contract_witness :
    relPoseSurvivors exParams kfsC4 lmsC4 0 1 matchesC4 idPose idSolve
      zeroEval zeroEval = 10 ∧
    (OptimizeRelativePose exParams kfsC4 lmsC4 0 1 matchesC4 idPose 10 idSolve
        zeroEval zeroEval).map RelPoseResult.ret = Except.ok 0 := by
  refine ⟨by decide, ?_⟩
  cases hr : OptimizeRelativePose exParams kfsC4 lmsC4 0 1 matchesC4 idPose 10 idSolve
      zeroEval zeroEval with
  | error e =>
    have hok : exceptIsOk (OptimizeRelativePose exParams kfsC4 lmsC4 0 1 matchesC4
        idPose 10 idSolve zeroEval zeroEval) = true := by decide
    rw [hr] at hok
    simp [exceptIsOk] at hok
  | ok r =>
    have h0 := (C4_two_view_inlier_contract exParams kfsC4 lmsC4 0 1 matchesC4
      idPose 10 idSolve zeroEval zeroEval r hr).2.1 (by decide)
    simp [Except.map, h0]

/-- C10 (confirmed): a 0 return from `OptimizeRelativePose` leaves the
caller's `T12` argument unchanged — the refined transform is written only on
the success path. -/
theorem C10_failure_leaves_T12_unchanged
    (p : Params) (kfs : List Keyframe) (lms : List Landmark) (k1 k2 : Nat)
    (matches1 : List (Option Nat)) (T12 : Pose) (th2 : Scalar)
    (solve : SolveFn) (evA evB : EvalFn) (r : RelPoseResult)
    (hr : OptimizeRelativePose p kfs lms k1 k2 matches1 T12 th2 solve evA evB =
      Except.ok r)
    (h0 : r.ret = 0) : r.T12 = T12 := by
  unfold OptimizeRelativePose at hr
  cases hb : relPoseBuild kfs lms k1 k2 matches1 with
  | error e => rw [hb] at hr; simp at hr
  | ok st =>
    rw [hb] at hr
    dsimp only at hr
    split at hr
    · cases hr; rfl
    · cases hr; simp at h0; omega

/-- C10 witness: with no valid correspondences the call returns 0 and the
input transform. -/
theorem C10_failure_leaves_T12_unchanged_witness :
    (OptimizeRelativePose exParams [exKf, { exKf with idFirst := 1 }] [] 0 1 []
        idPose 10 idSolve zeroEval zeroEval).map (fun r => (r.ret, r.T12)) =
      Except.ok (0, idPose) := by
  cases hr : OptimizeRelativePose exParams [exKf, { exKf with idFirst := 1 }] [] 0 1 []
      idPose 10 idSolve zeroEval zeroEval with
  | error e =>
    have hok : exceptIsOk (OptimizeRelativePose exParams
        [exKf, { exKf with idFirst := 1 }] [] 0 1 [] idPose 10 idSolve zeroEval
        zeroEval) = true := by decide
    rw [hr] at hok
    simp [exceptIsOk] at hok
  | ok r =>
    have hret : r.ret = 0 := by
      have hm : (OptimizeRelativePose exParams [exKf, { exKf with idFirst := 1 }]
          [] 0 1 [] idPose 10 idSolve zeroEval zeroEval).map RelPoseResult.ret =
          Except.ok 0 := by decide
      rw [hr] at hm
      simpa [Except.map] using hm
    have hT := C10_failure_leaves_T12_unchanged exParams
      [exKf, { exKf with idFirst := 1 }] [] 0 1 [] idPose 10 idSolve zeroEval
      zeroEval r hr hret
    simp [Except.map, hret, hT]

def kfsC5 : List Keyframe :=
  [{ exKf with landmarkSlots := [some 0, some 0, some 0] },
   { exKf with idFirst := 1 }]

def lmsC5 : List Landmark :=
  [exLm,
   { exLm with observations := [(some 1, 0)] },
   { exLm with observations := [(some 1, 3)] }]

def evAC5 : EvalFn := fun _ _ j => if j == 1 then ⟨100, 0⟩ else ⟨0, 0⟩

/-- C5 (code bug, evaluation at the failing input): `matches1 = [null, lm1,
lm2]` yields two correspondences — ordinal 0 at original index 1 and
ordinal 1 at original index 2.  Classifying ordinal 1 (original index 2) as
the only outlier, the code nulls `matches1[1]` — erasing the surviving
inlier's match and keeping the outlier's — because line 1314 indexes
`matches1` with the correspondence ordinal instead of `vIndex[i]`.  The
claimed behaviour would produce `[null, lm1, null]`. -/
theorem C5_outlier_nulling_wrong_index :
    OptimizeRelativePose exParams kfsC5 lmsC5 0 1 [Option.none, some 1, some 2]
        idPose 10 idSolve evAC5 zeroEval =
      Except.ok ⟨0, idPose, [Option.none, Option.none, some 2]⟩ ∧
    ([Option.none, Option.none, some 2] : List (Option Nat)) ≠
      [Option.none, some 1, Option.none] := by
  exact ⟨by decide, by decide⟩

/-! ### C2 — GBA outlier removal -/

theorem length_listModify {α : Type} (f : α → α) :
    ∀ (l : List α) (i : Nat), (listModify l i f).length = l.length := by
  intro l
  induction l with
  | nil => intro i; cases i <;> rfl
  | cons a rest ih =>
    intro i
    cases i with
    | zero => rfl
    | succ n => simpa [listModify] using ih n

theorem get?_listModify_self {α : Type} (f : α → α) :
    ∀ (l : List α) (i : Nat) (a : α), l.get? i = some a →
      (listModify l i f).get? i = some (f a) := by
  intro l
  induction l with
  | nil => intro i a h; cases i <;> exact Option.noConfusion h
  | cons b rest ih =>
    intro i a h
    cases i with
    | zero => cases h; rfl
    | succ n => exact ih n a h

theorem get?_listModify_ne {α : Type} (f : α → α) :
    ∀ (l : List α) (i j : Nat), i ≠ j →
      (listModify l i f).get? j = l.get? j := by
  intro l
  induction l with
  | nil => intro i j _; cases i <;> rfl
  | cons b rest ih =>
    intro i j hne
    cases i with
    | zero =>
      cases j with
      | zero => exact absurd rfl hne
      | succ k => rfl
    | succ n =>
      cases j with
      | zero => rfl
      | succ k => exact ih n k (fun hh => hne (by rw [hh]))

theorem get?_set_self {α : Type} (a : α) :
    ∀ (l : List α) (i : Nat), i < l.length → (l.set i a).get? i = some a := by
  intro l
  induction l with
  | nil => intro i h; simp at h
  | cons b rest ih =>
    intro i h
    cases i with
    | zero => rfl
    | succ n => exact ih n (Nat.lt_of_succ_lt_succ h)

theorem get?_set_ne {α : Type} (a : α) :
    ∀ (l : List α) (i j : Nat), i ≠ j → (l.set i a).get? j = l.get? j := by
  intro l
  induction l with
  | nil => intro i j _; rfl
  | cons b rest ih =>
    intro i j hne
    cases i with
    | zero =>
      cases j with
      | zero => exact absurd rfl hne
      | succ k => rfl
    | succ n =>
      cases j with
      | zero => rfl
      | succ k => exact ih n k (fun hh => hne (by rw [hh]))

/-- The slot `feat` of keyframe `k` holds no landmark. -/
def slotNull (m : MapState) (k f : Nat) : Bool :=
  match m.keyframes.get? k with
  | some kf => decide (kf.landmarkSlots.get? f = some Option.none)
  | Option.none => false

/-- Landmark `li` holds no observation keyed by keyframe `ki`. -/
def obsErased (m : MapState) (li ki : Nat) : Bool :=
  match m.landmarks.get? li with
  | some lm => decide (∀ o ∈ lm.observations, o.1 ≠ some ki)
  | Option.none => false

/-- No residual block with id `rid` remains in the problem. -/
def ridAbsent (prob : CeresProblem) (rid : Nat) : Bool :=
  decide (∀ e ∈ prob.residuals, e.1 ≠ rid)

theorem slotNull_eraseKfSlot_self (m : MapState) (k f : Nat) (kf0 : Keyframe)
    (hk : m.keyframes.get? k = some kf0) (hf : f < kf0.landmarkSlots.length) :
    slotNull (eraseKfSlot m k f) k f = true := by
  unfold slotNull eraseKfSlot
  rw [get?_listModify_self _ _ _ _ hk]
  dsimp only
  rw [get?_set_self _ _ _ hf]
  exact decide_eq_true rfl

theorem slotNull_eraseKfSlot (m : MapState) (k f k' f' : Nat)
    (h : slotNull m k f = true) : slotNull (eraseKfSlot m k' f') k f = true := by
  unfold slotNull at h ⊢
  unfold eraseKfSlot
  by_cases hk : k' = k
  · subst hk
    cases hg : m.keyframes.get? k' with
    | none => rw [hg] at h; simp at h
    | some kf0 =>
      rw [hg] at h
      rw [get?_listModify_self _ _ _ _ hg]
      simp only [decide_eq_true_eq] at h ⊢
      by_cases hf : f' = f
      · subst hf
        have hlt : f' < kf0.landmarkSlots.length := by
          by_contra hge
          rw [List.get?_eq_none.mpr (by omega)] at h
          cases h
        simpa using get?_set_self _ _ _ hlt
      · rw [get?_set_ne _ _ _ _ hf]
        exact h
  · rw [get?_listModify_ne _ _ _ _ (fun hh => hk hh)]
    exact h

theorem slotNull_eraseLmObs (m : MapState) (k f li ki : Nat)
    (h : slotNull m k f = true) : slotNull (eraseLmObs m li ki) k f = true := h

theorem obsErased_eraseLmObs_self (m : MapState) (li ki : Nat) (lm0 : Landmark)
    (hl : m.landmarks.get? li = some lm0) :
    obsErased (eraseLmObs m li ki) li ki = true := by
  unfold obsErased eraseLmObs
  rw [get?_listModify_self _ _ _ _ hl]
  simp only [decide_eq_true_eq]
  intro o ho
  exact of_decide_eq_true (List.mem_filter.mp ho).2

theorem obsErased_eraseLmObs (m : MapState) (li ki li' ki' : Nat)
    (h : obsErased m li ki = true) :
    obsErased (eraseLmObs m li' ki') li ki = true := by
  unfold obsErased at h ⊢
  unfold eraseLmObs
  by_cases hk : li' = li
  · subst hk
    cases hg : m.landmarks.get? li' with
    | none => rw [hg] at h; simp at h
    | some lm0 =>
      rw [hg] at h
      rw [get?_listModify_self _ _ _ _ hg]
      simp only [decide_eq_true_eq] at h ⊢
      intro o ho
      exact h o (List.mem_filter.mp ho).1
  · rw [get?_listModify_ne _ _ _ _ (fun hh => hk hh)]
    exact h

theorem obsErased_eraseKfSlot (m : MapState) (li ki k f : Nat)
    (h : obsErased m li ki = true) : obsErased (eraseKfSlot m k f) li ki = true := h

theorem ridAbsent_removeResidual_self (prob : CeresProblem) (rid : Nat) :
    ridAbsent (removeResidual prob rid) rid = true := by
  unfold ridAbsent removeResidual
  simp only [decide_eq_true_eq]
  intro e he
  have := List.mem_filter.mp he
  simpa using this.2

theorem ridAbsent_removeResidual (prob : CeresProblem) (rid rid' : Nat)
    (h : ridAbsent prob rid = true) :
    ridAbsent (removeResidual prob rid') rid = true := by
  unfold ridAbsent at h ⊢
  unfold removeResidual
  simp only [decide_eq_true_eq] at h ⊢
  intro e he
  exact h e (List.mem_filter.mp he).1

theorem get?_listModify_none {α : Type} (f : α → α) :
    ∀ (l : List α) (i : Nat), l.get? i = Option.none →
      (listModify l i f).get? i = Option.none := by
  intro l i h
  rw [List.get?_eq_none] at h ⊢
  rw [length_listModify]
  exact h

theorem eraseKfSlot_shape (m : MapState) (k0 f0 k : Nat) :
    ((eraseKfSlot m k0 f0).keyframes.get? k).map (fun kf => kf.landmarkSlots.length) =
      (m.keyframes.get? k).map (fun kf => kf.landmarkSlots.length) := by
  unfold eraseKfSlot
  by_cases hk : k0 = k
  · subst hk
    cases hg : m.keyframes.get? k0 with
    | none => rw [get?_listModify_none _ _ _ hg]
    | some kf0 =>
      rw [get?_listModify_self _ _ _ _ hg]
      simp
  · rw [get?_listModify_ne _ _ _ _ (fun hh => hk hh)]

theorem eraseLmObs_lmShape (m : MapState) (li' ki' li : Nat) :
    ((eraseLmObs m li' ki').landmarks.get? li).isSome =
      (m.landmarks.get? li).isSome := by
  unfold eraseLmObs
  by_cases h : li' = li
  · subst h
    cases hg : m.landmarks.get? li' with
    | none => rw [get?_listModify_none _ _ _ hg]
    | some lm0 => rw [get?_listModify_self _ _ _ _ hg]; rfl
  · rw [get?_listModify_ne _ _ _ _ (fun hh => h hh)]

theorem gbaRemoveOutliers_mono (th : Scalar) (ev : Nat → Vec2) :
    ∀ (l : List (Nat × Nat × KeypointIdentifier)) (m : MapState)
      (prob : CeresProblem) (nb : Nat),
      (∀ k f, slotNull m k f = true →
        slotNull (gbaRemoveOutliers th ev l (m, prob, nb)).1 k f = true) ∧
      (∀ li ki, obsErased m li ki = true →
        obsErased (gbaRemoveOutliers th ev l (m, prob, nb)).1 li ki = true) ∧
      (∀ rid, ridAbsent prob rid = true →
        ridAbsent (gbaRemoveOutliers th ev l (m, prob, nb)).2.1 rid = true) := by
  intro l
  induction l with
  | nil =>
    intro m prob nb
    exact ⟨fun _ _ h => h, fun _ _ h => h, fun _ h => h⟩
  | cons e rest ih =>
    intro m prob nb
    rcases e with ⟨pos, rid0, kp⟩
    simp only [gbaRemoveOutliers]
    by_cases hout : normGt (ev pos) th = true
    · rw [if_pos hout]
      refine ⟨?_, ?_, ?_⟩
      · intro k f h
        exact (ih _ _ _).1 k f
          (slotNull_eraseLmObs _ _ _ _ _ (slotNull_eraseKfSlot _ _ _ _ _ h))
      · intro li ki h
        exact (ih _ _ _).2.1 li ki
          (obsErased_eraseLmObs _ _ _ _ _ (obsErased_eraseKfSlot _ _ _ _ _ h))
      · intro r h
        exact (ih _ _ _).2.2 r (ridAbsent_removeResidual _ _ _ h)
    · rw [if_neg hout]
      exact ih _ _ _

theorem gbaRemoveOutliers_spec (th : Scalar) (ev : Nat → Vec2) :
    ∀ (l : List (Nat × Nat × KeypointIdentifier)) (m : MapState)
      (prob : CeresProblem) (nb : Nat),
      ((gbaRemoveOutliers th ev l (m, prob, nb)).2.2 =
        nb + l.countP (fun e => normGt (ev e.1) th)) ∧
      (∀ e ∈ l, normGt (ev e.1) th = true →
        (∀ lm0, m.landmarks.get? e.2.2.landmark = some lm0 →
          obsErased (gbaRemoveOutliers th ev l (m, prob, nb)).1
            e.2.2.landmark e.2.2.keyframe = true) ∧
        ridAbsent (gbaRemoveOutliers th ev l (m, prob, nb)).2.1 e.2.1 = true ∧
        (∀ kf0, m.keyframes.get? e.2.2.keyframe = some kf0 →
          e.2.2.keypointId < kf0.landmarkSlots.length →
          slotNull (gbaRemoveOutliers th ev l (m, prob, nb)).1
            e.2.2.keyframe e.2.2.keypointId = true)) := by
  intro l
  induction l with
  | nil =>
    intro m prob nb
    refine ⟨by simp [gbaRemoveOutliers], ?_⟩
    intro e he
    simp at he
  | cons e rest ih =>
    intro m prob nb
    rcases e with ⟨pos, rid0, kp⟩
    simp only [gbaRemoveOutliers]
    by_cases hout : normGt (ev pos) th = true
    · rw [if_pos hout]
      constructor
      · rw [(ih _ _ _).1]
        simp [List.countP_cons, hout]
        try omega
      · intro e' he' hcls
        rcases List.mem_cons.mp he' with heq | hmem
        · subst heq
          refine ⟨?_, ?_, ?_⟩
          · intro lm0 hlm0
            have h0 : (eraseKfSlot m kp.keyframe kp.keypointId).landmarks.get?
                kp.landmark = some lm0 := hlm0
            exact (gbaRemoveOutliers_mono th ev rest _ _ _).2.1 _ _
              (obsErased_eraseLmObs_self _ _ _ _ h0)
          · exact (gbaRemoveOutliers_mono th ev rest _ _ _).2.2 _
              (ridAbsent_removeResidual_self _ _)
          · intro kf0 hk hf
            exact (gbaRemoveOutliers_mono th ev rest _ _ _).1 _ _
              (slotNull_eraseLmObs _ _ _ _ _
                (slotNull_eraseKfSlot_self m _ _ kf0 hk hf))
        · have hrec := (ih (eraseLmObs (eraseKfSlot m kp.keyframe kp.keypointId)
            kp.landmark kp.keyframe) (removeResidual prob rid0) (nb + 1)).2
            e' hmem hcls
          refine ⟨?_, hrec.2.1, ?_⟩
          · intro lm0 hlm0
            have hsome : ((eraseLmObs (eraseKfSlot m kp.keyframe kp.keypointId)
                kp.landmark kp.keyframe).landmarks.get? e'.2.2.landmark).isSome = true := by
              rw [eraseLmObs_lmShape]
              show ((m.landmarks.get? e'.2.2.landmark).isSome = true)
              rw [hlm0]
              rfl
            rcases Option.isSome_iff_exists.mp hsome with ⟨lm1, hlm1⟩
            exact hrec.1 lm1 hlm1
          · intro kf0 hk hf
            have hshape := eraseKfSlot_shape m kp.keyframe kp.keypointId e'.2.2.keyframe
            rw [hk] at hshape
            cases hk2 : (eraseKfSlot m kp.keyframe kp.keypointId).keyframes.get?
                e'.2.2.keyframe with
            | none => rw [hk2] at hshape; exact Option.noConfusion hshape
            | some kf1 =>
              rw [hk2] at hshape
              have hlen : kf1.landmarkSlots.length = kf0.landmarkSlots.length :=
                Option.some.inj hshape
              exact hrec.2.2 kf1 hk2 (by omega)
    · rw [if_neg hout]
      constructor
      · rw [(ih _ _ _).1]
        simp [List.countP_cons, hout]
        try omega
      · intro e' he' hcls
        rcases List.mem_cons.mp he' with heq | hmem
        · subst heq
          exact absurd hcls hout
        · exact (ih _ _ _).2 e' hmem hcls

theorem get?_zip {α β : Type} :
    ∀ (l1 : List α) (l2 : List β) (i : Nat) (a : α) (b : β),
      l1.get? i = some a → l2.get? i = some b →
      (l1.zip l2).get? i = some (a, b) := by
  intro l1
  induction l1 with
  | nil => intro l2 i a b h _; exact Option.noConfusion h
  | cons x rest ih =>
    intro l2 i a b h1 h2
    cases l2 with
    | nil => exact Option.noConfusion h2
    | cons y rest2 =>
      cases i with
      | zero => cases h1; cases h2; rfl
      | succ n => exact ih rest2 n a b h1 h2

theorem countP_zip_fst {α β : Type} (q : α → Bool) :
    ∀ (l1 : List α) (l2 : List β), l1.length = l2.length →
      ((l1.zip l2).countP (fun e => q e.1)) = l1.countP q := by
  intro l1
  induction l1 with
  | nil => intro l2 _; rfl
  | cons x rest ih =>
    intro l2 h
    cases l2 with
    | nil => simp at h
    | cons y rest2 =>
      simp only [List.zip_cons_cons, List.countP_cons]
      rw [ih rest2 (by simpa using h)]

theorem zipPos_countP (cls : Nat → Bool) (rids : List Nat)
    (kps : List KeypointIdentifier) (hlen : kps.length = rids.length) :
    (zipPos rids kps).countP (fun e => cls e.1) =
      (List.range rids.length).countP cls := by
  unfold zipPos
  apply countP_zip_fst
  simp [hlen]

theorem zipPos_get? (rids : List Nat) (kps : List KeypointIdentifier)
    (pos rid : Nat) (kp : KeypointIdentifier)
    (h1 : rids.get? pos = some rid) (h2 : kps.get? pos = some kp) :
    (zipPos rids kps).get? pos = some (pos, rid, kp) := by
  unfold zipPos
  apply get?_zip
  · have hlt : pos < rids.length := by
      by_contra hge
      rw [List.get?_eq_none.mpr (by omega)] at h1
      exact Option.noConfusion h1
    exact List.get?_range hlt
  · exact get?_zip _ _ _ _ _ h1 h2

theorem get?_enumFrom {α : Type} :
    ∀ (l : List α) (n i : Nat),
      (List.enumFrom n l).get? i = (l.get? i).map (fun a => (n + i, a)) := by
  intro l
  induction l with
  | nil => intro n i; cases i <;> rfl
  | cons a rest ih =>
    intro n i
    cases i with
    | zero => simp [List.enumFrom]
    | succ k =>
      show (List.enumFrom (n + 1) rest).get? k = (rest.get? k).map (fun a => (n + (k + 1), a))
      rw [ih (n + 1) k]
      cases rest.get? k <;> simp <;> omega

theorem storeAsg_kf_get? (m : MapState) (a : Asg) (k : Nat) :
    (storeAsg m a).keyframes.get? k = (m.keyframes.get? k).map (fun kf =>
      { kf with
        ceresPose := a (.kfPose k)
        ceresVelBias := a (.kfVelBias k)
        ceresExtr := a (.kfExtr k) }) := by
  unfold storeAsg
  dsimp only
  rw [List.get?_map]
  rw [show m.keyframes.enum = List.enumFrom 0 m.keyframes from rfl]
  rw [get?_enumFrom]
  cases m.keyframes.get? k <;> simp

theorem storeAsg_lm_get? (m : MapState) (a : Asg) (li : Nat) :
    (storeAsg m a).landmarks.get? li = (m.landmarks.get? li).map (fun lm =>
      { lm with ceresPos := a (.lmPos li) }) := by
  unfold storeAsg
  dsimp only
  rw [List.get?_map]
  rw [show m.landmarks.enum = List.enumFrom 0 m.landmarks from rfl]
  rw [get?_enumFrom]
  cases m.landmarks.get? li <;> simp

theorem gbaObsStep_lockstep (m : MapState) (lmIdx : Nat) (obs : Option Nat × Nat)
    (st st2 : LmBuildSt) (h : gbaObsStep m lmIdx obs st = Except.ok st2)
    (heq : st.residualIds.length = st.keypointIds.length) :
    st2.residualIds.length = st2.keypointIds.length := by
  unfold gbaObsStep at h
  repeat' split at h
  all_goals try cases h
  all_goals simp_all [addResidual, List.length_append]

theorem gbaObsLoop_lockstep (m : MapState) (lmIdx : Nat) :
    ∀ (obsl : List (Option Nat × Nat)) (st st2 : LmBuildSt),
      gbaObsLoop m lmIdx obsl st = Except.ok st2 →
      st.residualIds.length = st.keypointIds.length →
      st2.residualIds.length = st2.keypointIds.length := by
  intro obsl
  induction obsl with
  | nil => intro st st2 h heq; cases h; exact heq
  | cons o rest ih =>
    intro st st2 h heq
    unfold gbaObsLoop at h
    cases hs : gbaObsStep m lmIdx o st with
    | error e => rw [hs] at h; cases h
    | ok stm =>
      rw [hs] at h
      exact ih stm st2 h (gbaObsStep_lockstep _ _ _ _ _ hs heq)

theorem gbaLmLoop_lockstep (m : MapState) :
    ∀ (lml : List (Nat × Landmark)) (st st2 : LmBuildSt),
      gbaLmLoop m lml st = Except.ok st2 →
      st.residualIds.length = st.keypointIds.length →
      st2.residualIds.length = st2.keypointIds.length := by
  intro lml
  induction lml with
  | nil => intro st st2 h heq; cases h; exact heq
  | cons il rest ih =>
    intro st st2 h heq
    unfold gbaLmLoop at h
    rcases il with ⟨i, lm⟩
    by_cases hg : gbaLmGate m lm ≠ LmGate.included
    · rw [if_pos hg] at h
      exact ih st st2 h heq
    · rw [if_neg hg] at h
      cases ho : gbaObsLoop m i lm.observations
          { st with prob := addBlock st.prob (.lmPos i) } with
      | error e => rw [ho] at h; cases h
      | ok stm =>
        rw [ho] at h
        exact ih stm st2 h (gbaObsLoop_lockstep m i _ _ _ ho heq)

theorem gbaBuild_lockstep (isPass1 : Bool) (p : Params) (vo : Bool) (m0 : MapState)
    (b : GbaBuild) (hb : gbaBuildProblem isPass1 p vo m0 = Except.ok b) :
    b.keypointIds.length = b.residualIds.length := by
  unfold gbaBuildProblem at hb
  dsimp only at hb
  cases hk : gbaKfLoop isPass1 p vo (gbaSyncKeyframes m0)
      (gbaSyncKeyframes m0).keyframes.enum ⟨emptyProblem, [], [], []⟩ with
  | error e => rw [hk] at hb; cases hb
  | ok kst =>
    rw [hk] at hb
    dsimp only at hb
    cases hl : gbaLmLoop (gbaSyncLandmarks (gbaSyncKeyframes m0))
        (gbaSyncLandmarks (gbaSyncKeyframes m0)).landmarks.enum
        ⟨kst.prob, kst.intrinsicsMap, [], []⟩ with
    | error e => rw [hl] at hb; cases hb
    | ok lst =>
      rw [hl] at hb
      cases hb
      exact (gbaLmLoop_lockstep _ _ _ _ hl rfl).symm

/-- The post-solve assignment of GBA round one. -/
def gbaPass1Solved (p : Params) (solve : SolveFn) (b : GbaBuild) : Asg :=
  solve (gbaPass1SolverOptions p.threadsServer) b.prob (initAsg b.m)

/-- The outlier classification of GBA round one: the evaluated residual of
the reprojection block at position `pos` exceeds the configured global
threshold. -/
def gbaPass1Outlier (p : Params) (solve : SolveFn) (ev : EvalFn) (b : GbaBuild)
    (pos : Nat) : Bool :=
  normGt (ev b.prob (gbaPass1Solved p solve b) pos) p.thGbaOutlierGlobal

/-- C2 (confirmed): in GBA's outlier-removal round, the reported count equals
the number of reprojection residual blocks whose evaluated residual norm
exceeds the configured global threshold; every such block has its observation
erased from both the owning keyframe (slot nulled) and the landmark
(observation entry dropped) and is removed from the problem; and every
residual block surviving in the problem was classified within the threshold
at that evaluation. -/
theorem C2_gba_outlier_removal
    (p : Params) (vo : Bool) (solve : SolveFn) (ev : EvalFn) (m0 : MapState)
    (b : GbaBuild) (m1 : MapState) (prob1 : CeresProblem) (nbad : Nat)
    (hb : gbaBuildProblem true p vo m0 = Except.ok b)
    (hp : gbaPass1 p vo solve ev m0 = Except.ok (m1, prob1, nbad)) :
    nbad = (List.range b.residualIds.length).countP (gbaPass1Outlier p solve ev b) ∧
    ∀ pos rid kp,
      b.residualIds.get? pos = some rid → b.keypointIds.get? pos = some kp →
      ((gbaPass1Outlier p solve ev b pos = true →
        (∀ lm0, b.m.landmarks.get? kp.landmark = some lm0 →
          obsErased m1 kp.landmark kp.keyframe = true) ∧
        ridAbsent prob1 rid = true ∧
        (∀ kf0, b.m.keyframes.get? kp.keyframe = some kf0 →
          kp.keypointId < kf0.landmarkSlots.length →
          slotNull m1 kp.keyframe kp.keypointId = true)) ∧
      ((∃ f, (rid, f) ∈ prob1.residuals) →
        gbaPass1Outlier p solve ev b pos = false)) := by
  have hX : gbaRemoveOutliers p.thGbaOutlierGlobal
      (ev b.prob (gbaPass1Solved p solve b)) (zipPos b.residualIds b.keypointIds)
      (storeAsg b.m (gbaPass1Solved p solve b), b.prob, 0) = (m1, prob1, nbad) := by
    unfold gbaPass1 at hp
    rw [hb] at hp
    dsimp only at hp
    exact Except.ok.inj hp
  have hspec := gbaRemoveOutliers_spec p.thGbaOutlierGlobal
    (ev b.prob (gbaPass1Solved p solve b)) (zipPos b.residualIds b.keypointIds)
    (storeAsg b.m (gbaPass1Solved p solve b)) b.prob 0
  constructor
  · have h1 := hspec.1
    rw [hX] at h1
    have h2 := zipPos_countP (gbaPass1Outlier p solve ev b) b.residualIds b.keypointIds
      (gbaBuild_lockstep true p vo m0 b hb)
    rw [Nat.zero_add] at h1
    exact h1.trans h2
  · intro pos rid kp h1 h2
    have hmem : (pos, rid, kp) ∈ zipPos b.residualIds b.keypointIds :=
      List.get?_mem (zipPos_get? _ _ _ _ _ h1 h2)
    constructor
    · intro hcls
      have h3 := hspec.2 (pos, rid, kp) hmem (by simpa [gbaPass1Outlier] using hcls)
      refine ⟨?_, ?_, ?_⟩
      · intro lm0 hlm0
        have hsa := storeAsg_lm_get? b.m (gbaPass1Solved p solve b) kp.landmark
        rw [hlm0] at hsa
        have := h3.1 _ hsa
        rw [hX] at this
        exact this
      · have := h3.2.1
        rw [hX] at this
        exact this
      · intro kf0 hk hf
        have hsa := storeAsg_kf_get? b.m (gbaPass1Solved p solve b) kp.keyframe
        rw [hk] at hsa
        have := h3.2.2 _ hsa hf
        rw [hX] at this
        exact this
    · rintro ⟨f, hmemf⟩
      cases hcase : gbaPass1Outlier p solve ev b pos with
      | false => rfl
      | true =>
        have h3 := hspec.2 (pos, rid, kp) hmem (by simpa [gbaPass1Outlier] using hcase)
        have habs := h3.2.1
        rw [hX] at habs
        have habs2 := of_decide_eq_true habs
        exact absurd rfl (habs2 (rid, f) hmemf)

/-- Witness map for the removal round: two valid keyframes observing one
landmark, anchor keyframe 0. -/
def mC2 : MapState :=
  { idMap := 0
    keyframes := [
      { exKf with
          landmarkSlots := [some 0, some 0]
          kpDist := [⟨0, 0⟩, ⟨0, 0⟩]
          kpAor1 := [0, 0] },
      { exKf with
          idFirst := 1
          landmarkSlots := [some 0]
          kpDist := [⟨0, 0⟩]
          kpAor1 := [0] }]
    landmarks := [{ exLm with observations := [(some 0, 1), (some 1, 0)] }]
    loops := [] }

/-- Witness residual evaluation: the block at position 0 evaluates to
norm 5 (an outlier against the threshold 3), every other block to 0. -/
def evC2 : EvalFn := fun _ _ pos => if pos = 0 then ⟨5, 0⟩ else ⟨0, 0⟩

theorem C2_gba_outlier_removal_witness :
    exceptIsOk (gbaPass1 exParams true idSolve evC2 mC2) = true ∧
    (match gbaPass1 exParams true idSolve evC2 mC2 with
     | Except.ok r =>
         r.2.2 = 1 ∧ obsErased r.1 0 0 = true ∧ ridAbsent r.2.1 0 = true ∧
           slotNull r.1 0 1 = true
     | Except.error _ => False) := by
  constructor
  · decide
  · cases hp : gbaPass1 exParams true idSolve evC2 mC2 with
    | error e =>
        have hok : exceptIsOk (gbaPass1 exParams true idSolve evC2 mC2) = true := by decide
        rw [hp] at hok
        simp [exceptIsOk] at hok
    | ok r =>
        cases hb : gbaBuildProblem true exParams true mC2 with
        | error e =>
            have hok : exceptIsOk (gbaBuildProblem true exParams true mC2) = true := by decide
            rw [hb] at hok
            simp [exceptIsOk] at hok
        | ok b =>
            have hp' : gbaPass1 exParams true idSolve evC2 mC2 =
                Except.ok (r.1, r.2.1, r.2.2) := hp
            have hmain := C2_gba_outlier_removal exParams true idSolve evC2 mC2
              b r.1 r.2.1 r.2.2 hb hp'
            have hproj : (gbaBuildProblem true exParams true mC2).map
                (fun bb => (bb.residualIds.get? 0, bb.keypointIds.get? 0)) =
                Except.ok (some 0, some ⟨0, 0, 1⟩) := by decide
            rw [hb] at hproj
            have hpair : (b.residualIds.get? 0, b.keypointIds.get? 0) =
                (some 0, some ⟨0, 0, 1⟩) := Except.ok.inj hproj
            have h1 : b.residualIds.get? 0 = some 0 := congrArg Prod.fst hpair
            have h2 : b.keypointIds.get? 0 = some ⟨0, 0, 1⟩ := congrArg Prod.snd hpair
            have hcnt : (gbaBuildProblem true exParams true mC2).map
                (fun bb => (List.range bb.residualIds.length).countP
                  (gbaPass1Outlier exParams idSolve evC2 bb)) = Except.ok 1 := by decide
            rw [hb] at hcnt
            have hout : (gbaBuildProblem true exParams true mC2).map
                (fun bb => gbaPass1Outlier exParams idSolve evC2 bb 0) =
                Except.ok true := by decide
            rw [hb] at hout
            have hout2 : gbaPass1Outlier exParams idSolve evC2 b 0 = true :=
              Except.ok.inj hout
            have hlms : (gbaBuildProblem true exParams true mC2).map
                (fun bb => (bb.m.landmarks.get? 0).isSome) = Except.ok true := by decide
            rw [hb] at hlms
            have hlms2 : (b.m.landmarks.get? 0).isSome = true := Except.ok.inj hlms
            obtain ⟨lm0, hlm0⟩ := Option.isSome_iff_exists.mp hlms2
            have hkfs : (gbaBuildProblem true exParams true mC2).map
                (fun bb => (bb.m.keyframes.get? 0).map
                  (fun kf => kf.landmarkSlots.length)) = Except.ok (some 2) := by decide
            rw [hb] at hkfs
            have hkfs2 : (b.m.keyframes.get? 0).map (fun kf => kf.landmarkSlots.length) =
                some 2 := Except.ok.inj hkfs
            have hmain2 := (hmain.2 0 0 ⟨0, 0, 1⟩ h1 h2).1 hout2
            refine ⟨hmain.1.trans (Except.ok.inj hcnt), hmain2.1 lm0 hlm0, hmain2.2.1, ?_⟩
            cases hkg : b.m.keyframes.get? 0 with
            | none => rw [hkg] at hkfs2; cases hkfs2
            | some kf0 =>
                rw [hkg] at hkfs2
                have hlen : kf0.landmarkSlots.length = 2 := Option.some.inj hkfs2
                exact hmain2.2.2 kf0 hkg (by rw [hlen]; decide)

/-! ### C3 — under-observed landmarks are excluded from GBA -/

/-- The landmark index a factor reprojects (`Option.none` for every
non-reprojection factor). -/
def reprojLm (f : Factor) : Option Nat :=
  match f with
  | .reproj _ _ _ l _ _ _ _ _ => some l
  | _ => Option.none

/-- A landmark index is absent from a problem: no position parameter block
and no reprojection factor over it. -/
def lmExcluded (i : Nat) (prob : CeresProblem) : Prop :=
  BlockId.lmPos i ∉ prob.blocks ∧ ∀ e ∈ prob.residuals, reprojLm e.2 ≠ some i

theorem lmExcluded_addBlock {i : Nat} {prob : CeresProblem} {b : BlockId}
    (h : lmExcluded i prob) (hb : b ≠ .lmPos i) : lmExcluded i (addBlock prob b) := by
  unfold addBlock
  split
  · exact h
  · refine ⟨?_, h.2⟩
    intro hmem
    rcases List.mem_append.mp hmem with h1 | h1
    · exact h.1 h1
    · simp at h1
      exact hb h1.symm

theorem lmExcluded_setConst {i : Nat} {prob : CeresProblem} {b : BlockId}
    (h : lmExcluded i prob) : lmExcluded i (setConst prob b) := by
  unfold setConst
  split
  · exact h
  · exact h

theorem lmExcluded_addResidual {i : Nat} {prob : CeresProblem} {f : Factor}
    (h : lmExcluded i prob) (hf : reprojLm f ≠ some i) :
    lmExcluded i (addResidual prob f).1 := by
  refine ⟨h.1, ?_⟩
  intro e he
  rcases List.mem_append.mp he with h1 | h1
  · exact h.2 e h1
  · simp at h1
    rw [h1]
    exact hf

theorem lmExcluded_ite {i : Nat} {c : Prop} [Decidable c] {p1 p2 : CeresProblem}
    (h1 : lmExcluded i p1) (h2 : lmExcluded i p2) :
    lmExcluded i (if c then p1 else p2) := by
  split
  · exact h1
  · exact h2

theorem lmExcluded_gbaAddCameraBlocks {kf : Keyframe} {st st2 : KfBuildSt}
    (hstep : gbaAddCameraBlocks kf st = Except.ok st2)
    {i : Nat} (h : lmExcluded i st.prob) : lmExcluded i st2.prob := by
  unfold gbaAddCameraBlocks at hstep
  split at hstep
  · cases hstep
  · cases hstep
    exact lmExcluded_setConst (lmExcluded_addBlock
      (lmExcluded_setConst (lmExcluded_addBlock h (by simp))) (by simp))

theorem ne_some_of_reprojLm_none {i : Nat} {f : Factor}
    (h : reprojLm f = Option.none) : reprojLm f ≠ some i := by
  rw [h]
  exact fun hh => Option.noConfusion hh

theorem lmExcluded_gbaAddImuFactor {isPass1 : Bool} {m : MapState} {j : Nat}
    {kf : Keyframe} {st st2 : KfBuildSt}
    (hstep : gbaAddImuFactor isPass1 m j kf st = Except.ok st2)
    {i : Nat} (h : lmExcluded i st.prob) : lmExcluded i st2.prob := by
  unfold gbaAddImuFactor at hstep
  dsimp only at hstep
  repeat' split at hstep
  all_goals try cases hstep
  all_goals first
    | exact h
    | exact lmExcluded_addResidual h (by simp [reprojLm])

theorem lmExcluded_gbaKfStep {isPass1 : Bool} {p : Params} {vo : Bool}
    {m : MapState} {j : Nat} {kf : Keyframe} {st st2 : KfBuildSt}
    (hstep : gbaKfStep isPass1 p vo m j kf st = Except.ok st2)
    {i : Nat} (h : lmExcluded i st.prob) : lmExcluded i st2.prob := by
  unfold gbaKfStep at hstep
  split at hstep
  · cases hstep
    exact h
  · dsimp only at hstep
    split at hstep
    next e heq => cases hstep
    next stc heq =>
      have hc : lmExcluded i stc.prob := lmExcluded_gbaAddCameraBlocks heq
        (lmExcluded_ite (lmExcluded_setConst (lmExcluded_setConst (lmExcluded_addBlock (lmExcluded_ite (lmExcluded_ite (lmExcluded_setConst (lmExcluded_addBlock h (by simp))) (lmExcluded_addBlock h (by simp))) (lmExcluded_addBlock (lmExcluded_ite (lmExcluded_setConst (lmExcluded_addBlock h (by simp))) (lmExcluded_addBlock h (by simp))) (by simp))) (by simp)))) (lmExcluded_setConst (lmExcluded_addBlock (lmExcluded_ite (lmExcluded_ite (lmExcluded_setConst (lmExcluded_addBlock h (by simp))) (lmExcluded_addBlock h (by simp))) (lmExcluded_addBlock (lmExcluded_ite (lmExcluded_setConst (lmExcluded_addBlock h (by simp))) (lmExcluded_addBlock h (by simp))) (by simp))) (by simp))))
      split at hstep
      · cases hstep
        exact hc
      · exact lmExcluded_gbaAddImuFactor hstep hc

theorem lmExcluded_gbaKfLoop {isPass1 : Bool} {p : Params} {vo : Bool}
    {m : MapState} {i : Nat} :
    ∀ (l : List (Nat × Keyframe)) (st st2 : KfBuildSt),
      gbaKfLoop isPass1 p vo m l st = Except.ok st2 →
      lmExcluded i st.prob → lmExcluded i st2.prob := by
  intro l
  induction l with
  | nil => intro st st2 hstep h; cases hstep; exact h
  | cons e rest ih =>
    intro st st2 hstep h
    rcases e with ⟨j, kf⟩
    unfold gbaKfLoop at hstep
    cases hs : gbaKfStep isPass1 p vo m j kf st with
    | error er => rw [hs] at hstep; cases hstep
    | ok stm =>
      rw [hs] at hstep
      exact ih stm st2 hstep (lmExcluded_gbaKfStep hs h)

/-- The landmark-loop invariant: the problem excludes landmark `i` and no
recorded keypoint id references it. -/
def lmUntouched (i : Nat) (st : LmBuildSt) : Prop :=
  lmExcluded i st.prob ∧ ∀ kp ∈ st.keypointIds, kp.landmark ≠ i

theorem lmUntouched_gbaObsStep {m : MapState} {lmIdx : Nat} {obs : Option Nat × Nat}
    {st st2 : LmBuildSt} (hstep : gbaObsStep m lmIdx obs st = Except.ok st2)
    {i : Nat} (hne : lmIdx ≠ i) (h : lmUntouched i st) : lmUntouched i st2 := by
  unfold gbaObsStep at hstep
  repeat' split at hstep
  all_goals try cases hstep
  all_goals first
    | exact h
    | (refine ⟨lmExcluded_addResidual h.1 (by simp [reprojLm]; exact hne), ?_⟩
       intro kp hkp
       rcases List.mem_append.mp hkp with h1 | h1
       · exact h.2 kp h1
       · simp at h1
         rw [h1]
         exact hne)

theorem lmUntouched_gbaObsLoop {m : MapState} {lmIdx : Nat} {i : Nat}
    (hne : lmIdx ≠ i) :
    ∀ (obsl : List (Option Nat × Nat)) (st st2 : LmBuildSt),
      gbaObsLoop m lmIdx obsl st = Except.ok st2 →
      lmUntouched i st → lmUntouched i st2 := by
  intro obsl
  induction obsl with
  | nil => intro st st2 hstep h; cases hstep; exact h
  | cons o rest ih =>
    intro st st2 hstep h
    unfold gbaObsLoop at hstep
    cases hs : gbaObsStep m lmIdx o st with
    | error er => rw [hs] at hstep; cases hstep
    | ok stm =>
      rw [hs] at hstep
      exact ih stm st2 hstep (lmUntouched_gbaObsStep hs hne h)

theorem lmUntouched_gbaLmLoop {m : MapState} {i : Nat} :
    ∀ (lml : List (Nat × Landmark)) (st st2 : LmBuildSt),
      gbaLmLoop m lml st = Except.ok st2 →
      (∀ lmj, (i, lmj) ∈ lml → gbaLmGate m lmj ≠ LmGate.included) →
      lmUntouched i st → lmUntouched i st2 := by
  intro lml
  induction lml with
  | nil => intro st st2 hstep _ h; cases hstep; exact h
  | cons e rest ih =>
    intro st st2 hstep hL h
    rcases e with ⟨j, lm⟩
    unfold gbaLmLoop at hstep
    by_cases hg : gbaLmGate m lm ≠ LmGate.included
    · rw [if_pos hg] at hstep
      exact ih st st2 hstep (fun lmj hm => hL lmj (List.mem_cons_of_mem _ hm)) h
    · rw [if_neg hg] at hstep
      have hne : j ≠ i := by
        intro hji
        subst hji
        exact hg (hL lm (List.mem_cons_self _ _))
      have hst : lmUntouched i { st with prob := addBlock st.prob (.lmPos j) } :=
        ⟨lmExcluded_addBlock h.1 (by simp; exact fun hc => hne hc), h.2⟩
      cases ho : gbaObsLoop m j lm.observations
          { st with prob := addBlock st.prob (.lmPos j) } with
      | error er => rw [ho] at hstep; cases hstep
      | ok stm =>
        rw [ho] at hstep
        exact ih stm st2 hstep (fun lmj hm => hL lmj (List.mem_cons_of_mem _ hm))
          (lmUntouched_gbaObsLoop hne _ _ _ ho hst)

theorem lmExcluded_loopEdges1 {i : Nat} :
    ∀ (ls : List LoopConstraint) (pr : CeresProblem),
      lmExcluded i pr → lmExcluded i (gbaLoopEdgeLoop1 ls pr) := by
  intro ls
  induction ls with
  | nil => intro pr h; exact h
  | cons l rest ih =>
    intro pr h
    exact ih _ (lmExcluded_addResidual h (by simp [reprojLm]))

theorem lmExcluded_loopEdges2 {i : Nat} :
    ∀ (ls : List LoopConstraint) (pr : CeresProblem),
      lmExcluded i pr → lmExcluded i (gbaLoopEdgeLoop2 ls pr) := by
  intro ls
  induction ls with
  | nil => intro pr h; exact h
  | cons l rest ih =>
    intro pr h
    exact ih _ (by
      split
      · exact lmExcluded_addResidual h (by simp [reprojLm])
      · exact h)

theorem gbaBuild_lmUntouched (isPass1 : Bool) (p : Params) (vo : Bool)
    (m0 : MapState) (b : GbaBuild)
    (hb : gbaBuildProblem isPass1 p vo m0 = Except.ok b) (i : Nat)
    (hL : ∀ lmj, (i, lmj) ∈ (gbaSyncLandmarks (gbaSyncKeyframes m0)).landmarks.enum →
      gbaLmGate (gbaSyncLandmarks (gbaSyncKeyframes m0)) lmj ≠ LmGate.included) :
    lmExcluded i b.prob ∧ ∀ kp ∈ b.keypointIds, kp.landmark ≠ i := by
  unfold gbaBuildProblem at hb
  dsimp only at hb
  cases hk : gbaKfLoop isPass1 p vo (gbaSyncKeyframes m0)
      (gbaSyncKeyframes m0).keyframes.enum ⟨emptyProblem, [], [], []⟩ with
  | error e => rw [hk] at hb; cases hb
  | ok kst =>
    rw [hk] at hb
    dsimp only at hb
    cases hl : gbaLmLoop (gbaSyncLandmarks (gbaSyncKeyframes m0))
        (gbaSyncLandmarks (gbaSyncKeyframes m0)).landmarks.enum
        ⟨kst.prob, kst.intrinsicsMap, [], []⟩ with
    | error e => rw [hl] at hb; cases hb
    | ok lst =>
      rw [hl] at hb
      cases hb
      have hke : lmExcluded i emptyProblem :=
        ⟨List.not_mem_nil _, fun e he => absurd he (List.not_mem_nil _)⟩
      have hkst : lmExcluded i kst.prob := lmExcluded_gbaKfLoop _ _ _ hk hke
      have hlm : lmUntouched i lst :=
        lmUntouched_gbaLmLoop _ _ _ hl hL
          ⟨hkst, fun kp hkp => absurd hkp (List.not_mem_nil _)⟩
      refine ⟨?_, hlm.2⟩
      split
      · exact lmExcluded_loopEdges1 _ _ hlm.1
      · split
        · exact lmExcluded_loopEdges2 _ _ hlm.1
        · exact hlm.1

theorem syncKf_invalid (m : MapState) (k : Nat) :
    ((gbaSyncKeyframes m).keyframes.get? k).map Keyframe.invalid =
      (m.keyframes.get? k).map Keyframe.invalid := by
  unfold gbaSyncKeyframes
  dsimp only
  rw [List.get?_map]
  cases m.keyframes.get? k with
  | none => rfl
  | some kf =>
    dsimp only [Option.map]
    split
    · rfl
    · rfl

theorem validObsCount_congr (ma mb : MapState) (la lb : Landmark)
    (hk : ∀ k, (ma.keyframes.get? k).map Keyframe.invalid =
      (mb.keyframes.get? k).map Keyframe.invalid)
    (ho : la.observations = lb.observations) :
    validObsCount ma la = validObsCount mb lb := by
  unfold validObsCount
  rw [ho]
  apply List.countP_congr
  intro o _
  cases o.1 with
  | none => rfl
  | some k =>
    dsimp only
    have hmk := hk k
    cases h1 : ma.keyframes.get? k with
    | none =>
      rw [h1] at hmk
      cases h2 : mb.keyframes.get? k with
      | none => rfl
      | some kfb => rw [h2] at hmk; cases hmk
    | some kfa =>
      rw [h1] at hmk
      cases h2 : mb.keyframes.get? k with
      | none => rw [h2] at hmk; cases hmk
      | some kfb =>
        rw [h2] at hmk
        have hinv : kfa.invalid = kfb.invalid := Option.some.inj hmk
        show ((!kfa.invalid) = true) ↔ ((!kfb.invalid) = true)
        rw [hinv]

theorem gate_not_included_of_cnt (m : MapState) (lm : Landmark)
    (hcnt : validObsCount m lm < 2) : gbaLmGate m lm ≠ LmGate.included := by
  intro hh
  unfold gbaLmGate at hh
  by_cases h1 : lm.invalid = true
  · rw [if_pos h1] at hh
    cases hh
  · rw [if_neg h1] at hh
    by_cases h2 : lm.observations.length < 2
    · rw [if_pos h2] at hh
      cases hh
    · rw [if_neg h2] at hh
      rw [if_pos hcnt] at hh
      cases hh

theorem syncLm_skip (m1 : MapState) (i : Nat) (lm0 : Landmark)
    (hlm : m1.landmarks.get? i = some lm0)
    (hg : gbaLmGate m1 lm0 ≠ LmGate.included) :
    (gbaSyncLandmarks m1).landmarks.get? i = some lm0 := by
  unfold gbaSyncLandmarks
  dsimp only
  rw [List.get?_map, hlm]
  dsimp only [Option.map]
  rw [if_neg hg]

theorem get?_of_mem_enum {α : Type} {l : List α} {i : Nat} {a : α}
    (h : (i, a) ∈ l.enum) : l.get? i = some a := by
  rw [show l.enum = List.enumFrom 0 l from rfl] at h
  obtain ⟨n, hn⟩ := List.mem_iff_get?.mp h
  rw [get?_enumFrom] at hn
  cases hg : l.get? n with
  | none => rw [hg] at hn; cases hn
  | some b =>
    rw [hg] at hn
    have hpair := Option.some.inj hn
    have h1 : 0 + n = i := congrArg Prod.fst hpair
    have h2 : b = a := congrArg Prod.snd hpair
    rw [← h1, Nat.zero_add, hg, h2]

theorem storeAsg_invalid (m : MapState) (a : Asg) (k : Nat) :
    ((storeAsg m a).keyframes.get? k).map Keyframe.invalid =
      (m.keyframes.get? k).map Keyframe.invalid := by
  rw [storeAsg_kf_get?]
  cases m.keyframes.get? k with
  | none => rfl
  | some kf => rfl

theorem gbaRemoveOutliers_preserve (th : Scalar) (ev : Nat → Vec2) (i : Nat) :
    ∀ (L : List (Nat × Nat × KeypointIdentifier)) (m : MapState)
      (prob : CeresProblem) (nb : Nat),
      (∀ e ∈ L, e.2.2.landmark ≠ i) →
      (gbaRemoveOutliers th ev L (m, prob, nb)).1.landmarks.get? i =
        m.landmarks.get? i ∧
      ∀ k, ((gbaRemoveOutliers th ev L (m, prob, nb)).1.keyframes.get? k).map
          Keyframe.invalid = (m.keyframes.get? k).map Keyframe.invalid := by
  intro L
  induction L with
  | nil => intro m prob nb _; exact ⟨rfl, fun _ => rfl⟩
  | cons e rest ih =>
    intro m prob nb hL
    rcases e with ⟨pos, rid, kp⟩
    unfold gbaRemoveOutliers
    split
    · have hrec := ih
        (eraseLmObs (eraseKfSlot m kp.keyframe kp.keypointId) kp.landmark kp.keyframe)
        (removeResidual prob rid) (nb + 1)
        (fun e he => hL e (List.mem_cons_of_mem _ he))
      have hkpne : kp.landmark ≠ i := hL (pos, rid, kp) (List.mem_cons_self _ _)
      constructor
      · rw [hrec.1]
        show (listModify (eraseKfSlot m kp.keyframe kp.keypointId).landmarks
          kp.landmark _).get? i = m.landmarks.get? i
        rw [get?_listModify_ne _ _ _ _ hkpne]
        rfl
      · intro k
        rw [hrec.2 k]
        show ((listModify m.keyframes kp.keyframe _).get? k).map Keyframe.invalid =
          (m.keyframes.get? k).map Keyframe.invalid
        rcases Nat.decEq kp.keyframe k with hne | heq
        · rw [get?_listModify_ne _ _ _ _ hne]
        · subst heq
          cases hg : m.keyframes.get? kp.keyframe with
          | none =>
            have h1 := get?_listModify_none
              (fun kf => { kf with landmarkSlots := kf.landmarkSlots.set kp.keypointId Option.none })
              m.keyframes kp.keyframe hg
            rw [h1]
          | some kf =>
            have h1 := get?_listModify_self
              (fun kf => { kf with landmarkSlots := kf.landmarkSlots.set kp.keypointId Option.none })
              m.keyframes kp.keyframe kf hg
            rw [h1]
            rfl
    · exact ih m prob nb (fun e he => hL e (List.mem_cons_of_mem _ he))

theorem gbaBuild_m (isPass1 : Bool) (p : Params) (vo : Bool) (m0 : MapState)
    (b : GbaBuild) (hb : gbaBuildProblem isPass1 p vo m0 = Except.ok b) :
    b.m = gbaSyncLandmarks (gbaSyncKeyframes m0) := by
  unfold gbaBuildProblem at hb
  dsimp only at hb
  cases hk : gbaKfLoop isPass1 p vo (gbaSyncKeyframes m0)
      (gbaSyncKeyframes m0).keyframes.enum ⟨emptyProblem, [], [], []⟩ with
  | error e => rw [hk] at hb; cases hb
  | ok kst =>
    rw [hk] at hb
    dsimp only at hb
    cases hl : gbaLmLoop (gbaSyncLandmarks (gbaSyncKeyframes m0))
        (gbaSyncLandmarks (gbaSyncKeyframes m0)).landmarks.enum
        ⟨kst.prob, kst.intrinsicsMap, [], []⟩ with
    | error e => rw [hl] at hb; cases hb
    | ok lst =>
      rw [hl] at hb
      cases hb
      rfl

theorem gbaPass2_skips (p : Params) (il : Int) (tl : Scalar) (vo : Bool)
    (solve : SolveFn) (m : MapState) (i : Nat) (lm : Landmark) (m' : MapState)
    (hlm : m.landmarks.get? i = some lm)
    (hcnt : validObsCount m lm < 2)
    (hp : gbaPass2 p il tl vo solve m = Except.ok m') :
    m'.landmarks.get? i = some lm := by
  have hc1 : validObsCount (gbaSyncKeyframes m) lm < 2 := by
    rw [validObsCount_congr (gbaSyncKeyframes m) m lm lm (syncKf_invalid m) rfl]
    exact hcnt
  have hg1 := gate_not_included_of_cnt _ _ hc1
  have hm2 : (gbaSyncLandmarks (gbaSyncKeyframes m)).landmarks.get? i = some lm :=
    syncLm_skip _ _ _ hlm hg1
  have hc2 : validObsCount (gbaSyncLandmarks (gbaSyncKeyframes m)) lm < 2 := hc1
  have hg2 := gate_not_included_of_cnt _ _ hc2
  unfold gbaPass2 at hp
  cases hb : gbaBuildProblem false p vo m with
  | error e => rw [hb] at hp; cases hp
  | ok b =>
    rw [hb] at hp
    dsimp only at hp
    have hbm := gbaBuild_m false p vo m b hb
    rw [hbm] at hp
    rw [← Except.ok.inj hp]
    show ((gbaSyncLandmarks (gbaSyncKeyframes m)).landmarks.enum.map _).get? i = some lm
    rw [List.get?_map,
      show (gbaSyncLandmarks (gbaSyncKeyframes m)).landmarks.enum
        = List.enumFrom 0 (gbaSyncLandmarks (gbaSyncKeyframes m)).landmarks from rfl,
      get?_enumFrom, hm2]
    dsimp only [Option.map]
    unfold gbaWritebackLm
    rw [if_pos hg2]

theorem gbaPass1_skips (p : Params) (vo : Bool) (solve : SolveFn) (ev : EvalFn)
    (m0 : MapState) (i : Nat) (lm0 : Landmark) (r : MapState × CeresProblem × Nat)
    (hlm : m0.landmarks.get? i = some lm0)
    (hcnt : validObsCount m0 lm0 < 2)
    (hp : gbaPass1 p vo solve ev m0 = Except.ok r) :
    (∃ lmI, r.1.landmarks.get? i = some lmI ∧ lmI.posW = lm0.posW ∧
      lmI.observations = lm0.observations ∧ lmI.invalid = lm0.invalid) ∧
    ∀ k, (r.1.keyframes.get? k).map Keyframe.invalid =
      (m0.keyframes.get? k).map Keyframe.invalid := by
  have hc1 : validObsCount (gbaSyncKeyframes m0) lm0 < 2 := by
    rw [validObsCount_congr (gbaSyncKeyframes m0) m0 lm0 lm0 (syncKf_invalid m0) rfl]
    exact hcnt
  have hg1 := gate_not_included_of_cnt _ _ hc1
  have hm2 : (gbaSyncLandmarks (gbaSyncKeyframes m0)).landmarks.get? i = some lm0 :=
    syncLm_skip _ _ _ hlm hg1
  have hc2 : validObsCount (gbaSyncLandmarks (gbaSyncKeyframes m0)) lm0 < 2 := hc1
  have hg2 := gate_not_included_of_cnt _ _ hc2
  have hL : ∀ lmj, (i, lmj) ∈ (gbaSyncLandmarks (gbaSyncKeyframes m0)).landmarks.enum →
      gbaLmGate (gbaSyncLandmarks (gbaSyncKeyframes m0)) lmj ≠ LmGate.included := by
    intro lmj hmem
    have hji := get?_of_mem_enum hmem
    rw [hm2] at hji
    have heq := Option.some.inj hji
    rw [← heq]
    exact hg2
  unfold gbaPass1 at hp
  cases hb : gbaBuildProblem true p vo m0 with
  | error e => rw [hb] at hp; cases hp
  | ok b =>
    rw [hb] at hp
    dsimp only at hp
    have hfold := Except.ok.inj hp
    have hbm := gbaBuild_m true p vo m0 b hb
    have hunt := gbaBuild_lmUntouched true p vo m0 b hb i hL
    have hKps : ∀ e ∈ zipPos b.residualIds b.keypointIds, e.2.2.landmark ≠ i := by
      intro e he
      rcases e with ⟨pos, rid, kp⟩
      have h1 : (rid, kp) ∈ b.residualIds.zip b.keypointIds := (List.of_mem_zip he).2
      have h2 : kp ∈ b.keypointIds := (List.of_mem_zip h1).2
      exact hunt.2 kp h2
    have hpr := gbaRemoveOutliers_preserve p.thGbaOutlierGlobal
      (ev b.prob (solve (gbaPass1SolverOptions p.threadsServer) b.prob (initAsg b.m)))
      i (zipPos b.residualIds b.keypointIds)
      (storeAsg b.m (solve (gbaPass1SolverOptions p.threadsServer) b.prob (initAsg b.m)))
      b.prob 0 hKps
    constructor
    · have h1 := hpr.1
      rw [hfold] at h1
      rw [storeAsg_lm_get?, hbm, hm2] at h1
      dsimp only [Option.map] at h1
      exact ⟨_, h1, rfl, rfl, rfl⟩
    · intro k
      have h2 := hpr.2 k
      rw [hfold] at h2
      rw [h2, storeAsg_invalid, hbm]
      exact syncKf_invalid m0 k

/-- C3 (confirmed): a landmark with fewer than two valid observations from
valid keyframes is excluded from the GBA problem — its position parameter
block is never registered and no reprojection factor over it is added, in
both the outlier-removal round and the real round — and the full
`GlobalBundleAdjustment` call leaves its world position unchanged. -/
theorem C3_underobserved_landmark_excluded
    (p : Params) (il : Int) (tl : Scalar) (vo orem eb : Bool)
    (solve : SolveFn) (ev : EvalFn) (m0 : MapState)
    (i : Nat) (lm0 : Landmark)
    (hlm : m0.landmarks.get? i = some lm0)
    (hcnt : validObsCount m0 lm0 < 2) :
    (∀ (isPass1 : Bool) (b : GbaBuild), gbaBuildProblem isPass1 p vo m0 = Except.ok b →
       BlockId.lmPos i ∉ b.prob.blocks ∧
       ∀ e ∈ b.prob.residuals, reprojLm e.2 ≠ some i) ∧
    (∀ m', GlobalBundleAdjustment p il tl vo orem eb solve ev m0 = Except.ok m' →
       ∃ lm', m'.landmarks.get? i = some lm' ∧ lm'.posW = lm0.posW) := by
  have hc1 : validObsCount (gbaSyncKeyframes m0) lm0 < 2 := by
    rw [validObsCount_congr (gbaSyncKeyframes m0) m0 lm0 lm0 (syncKf_invalid m0) rfl]
    exact hcnt
  have hg1 := gate_not_included_of_cnt _ _ hc1
  have hm2 : (gbaSyncLandmarks (gbaSyncKeyframes m0)).landmarks.get? i = some lm0 :=
    syncLm_skip _ _ _ hlm hg1
  have hc2 : validObsCount (gbaSyncLandmarks (gbaSyncKeyframes m0)) lm0 < 2 := hc1
  have hg2 := gate_not_included_of_cnt _ _ hc2
  have hL : ∀ lmj, (i, lmj) ∈ (gbaSyncLandmarks (gbaSyncKeyframes m0)).landmarks.enum →
      gbaLmGate (gbaSyncLandmarks (gbaSyncKeyframes m0)) lmj ≠ LmGate.included := by
    intro lmj hmem
    have hji := get?_of_mem_enum hmem
    rw [hm2] at hji
    have heq := Option.some.inj hji
    rw [← heq]
    exact hg2
  constructor
  · intro isPass1 b hb
    exact (gbaBuild_lmUntouched isPass1 p vo m0 b hb i hL).1
  · intro m' hm'
    unfold GlobalBundleAdjustment at hm'
    cases orem with
    | false =>
      rw [if_neg (by simp)] at hm'
      have hsk := gbaPass2_skips p il tl vo solve m0 i lm0 m' hlm hcnt hm'
      exact ⟨lm0, hsk, rfl⟩
    | true =>
      rw [if_pos rfl] at hm'
      cases hp1 : gbaPass1 p vo solve ev m0 with
      | error e =>
        rw [hp1] at hm'
        cases hm'
      | ok r =>
        rw [hp1] at hm'
        dsimp only [Except.map] at hm'
        have hsk := gbaPass1_skips p vo solve ev m0 i lm0 r hlm hcnt hp1
        obtain ⟨⟨lmI, hI, hposW, hobs, hinv⟩, hkinv⟩ := hsk
        have hcntI : validObsCount r.1 lmI < 2 := by
          rw [validObsCount_congr r.1 m0 lmI lm0 hkinv hobs]
          exact hcnt
        have hfin := gbaPass2_skips p il tl vo solve r.1 i lmI m' hI hcntI hm'
        exact ⟨lmI, hfin, hposW⟩

/-- Witness landmark: a single observation, hence fewer than two valid
observing keyframes. -/
def lmC3 : Landmark := { exLm with observations := [(some 0, 0)] }

/-- Witness map: one valid anchor keyframe and the under-observed landmark. -/
def mC3 : MapState :=
  { idMap := 0
    keyframes := [{ exKf with
        landmarkSlots := [some 0]
        kpDist := [⟨0, 0⟩]
        kpAor1 := [0] }]
    landmarks := [lmC3]
    loops := [] }

theorem C3_underobserved_landmark_excluded_witness :
    mC3.landmarks.get? 0 = some lmC3 ∧ validObsCount mC3 lmC3 < 2 ∧
    (match GlobalBundleAdjustment exParams 50 0 true true false idSolve zeroEval mC3 with
     | Except.ok m' => ∃ lm', m'.landmarks.get? 0 = some lm' ∧ lm'.posW = lmC3.posW
     | Except.error _ => False) := by
  refine ⟨by decide, by decide, ?_⟩
  cases hr : GlobalBundleAdjustment exParams 50 0 true true false idSolve zeroEval mC3 with
  | error e =>
    have hok : exceptIsOk
        (GlobalBundleAdjustment exParams 50 0 true true false idSolve zeroEval mC3) = true := by
      decide
    rw [hr] at hok
    simp [exceptIsOk] at hok
  | ok mr =>
    exact (C3_underobserved_landmark_excluded exParams 50 0 true true false idSolve
      zeroEval mC3 0 lmC3 (by decide) (by decide)).2 mr hr

/-! ### C1 — anchor keyframe pose across the three optimizations -/

theorem Ceres2Transform_encodePose (T : Pose) : Ceres2Transform (encodePose T) = T := by
  rcases T with ⟨⟨qx, qy, qz, qw⟩, ⟨tx, ty, tz⟩⟩
  rfl

theorem constants_addBlock (pr : CeresProblem) (b : BlockId) :
    (addBlock pr b).constants = pr.constants := by
  unfold addBlock
  split
  · rfl
  · rfl

theorem constants_addResidual (pr : CeresProblem) (f : Factor) :
    (addResidual pr f).1.constants = pr.constants := rfl

theorem mem_constants_setConst (pr : CeresProblem) (b c : BlockId)
    (h : c ∈ pr.constants) : c ∈ (setConst pr b).constants := by
  unfold setConst
  split
  · exact h
  · exact List.mem_append.mpr (Or.inl h)

theorem mem_constants_setConst_self (pr : CeresProblem) (b : BlockId) :
    b ∈ (setConst pr b).constants := by
  unfold setConst
  split
  next h => exact h
  next h => exact List.mem_append.mpr (Or.inr (List.mem_singleton.mpr rfl))

theorem mem_enum_of_get? {α : Type} {l : List α} {i : Nat} {a : α}
    (h : l.get? i = some a) : (i, a) ∈ l.enum := by
  apply List.mem_iff_get?.mpr
  refine ⟨i, ?_⟩
  rw [show l.enum = List.enumFrom 0 l from rfl, get?_enumFrom, h]
  dsimp only [Option.map]
  rw [Nat.zero_add]

theorem pgoKfBlocks_mono (m : MapState) :
    ∀ (lst : List (Nat × Keyframe)) (pr : CeresProblem) (c : BlockId),
      c ∈ pr.constants → c ∈ (pgoKfBlocks m lst pr).constants := by
  intro lst
  induction lst with
  | nil => intro pr c h; exact h
  | cons e rest ih =>
    intro pr c h
    rcases e with ⟨i, kf⟩
    unfold pgoKfBlocks
    split
    · exact ih pr c h
    · apply ih
      apply mem_constants_setConst
      rw [constants_addBlock]
      split
      · exact mem_constants_setConst _ _ _ (by rw [constants_addBlock]; exact h)
      · rw [constants_addBlock]
        exact h

theorem pgoKfBlocks_anchor (m : MapState) :
    ∀ (lst : List (Nat × Keyframe)) (pr : CeresProblem) (i : Nat) (kf : Keyframe),
      (i, kf) ∈ lst → kf.invalid = false →
      kf.idFirst = 0 ∧ kf.idSecond = m.idMap →
      BlockId.kfPose i ∈ (pgoKfBlocks m lst pr).constants := by
  intro lst
  induction lst with
  | nil => intro pr i kf hm; exact absurd hm (List.not_mem_nil _)
  | cons e rest ih =>
    intro pr i kf hm hv ha
    rcases e with ⟨j, kfj⟩
    rcases List.mem_cons.mp hm with hhead | htail
    · have hji : j = i := (congrArg Prod.fst hhead).symm
      have hkj : kfj = kf := (congrArg Prod.snd hhead).symm
      subst hji
      subst hkj
      unfold pgoKfBlocks
      rw [if_neg (by rw [hv]; exact fun hc => Bool.noConfusion hc)]
      apply pgoKfBlocks_mono
      apply mem_constants_setConst
      rw [constants_addBlock]
      rw [if_pos ha]
      exact mem_constants_setConst_self _ _
    · unfold pgoKfBlocks
      split
      · exact ih pr i kf htail hv ha
      · exact ih _ i kf htail hv ha

theorem pgo6LoopEdges_constants (p : Params) :
    ∀ (ls : List LoopConstraint) (pr : CeresProblem),
      (pgo6LoopEdges p ls pr).constants = pr.constants := by
  intro ls
  induction ls with
  | nil => intro pr; rfl
  | cons l rest ih =>
    intro pr
    unfold pgo6LoopEdges
    rw [ih, constants_addResidual]

theorem pgo6SuccEdges_constants (p : Params) (m : MapState) :
    ∀ (lst : List (Nat × Keyframe)) (st : PgoBuildSt),
      (pgo6SuccEdges p m lst st).prob.constants = st.prob.constants := by
  intro lst
  induction lst with
  | nil => intro st; rfl
  | cons e rest ih =>
    intro st
    rcases e with ⟨i, kf⟩
    unfold pgo6SuccEdges
    repeat' split
    all_goals rw [ih]
    rfl

theorem pgo6NeighborEdgesForKf_constants (p : Params) (m : MapState) (i : Nat)
    (kf : Keyframe) :
    ∀ (conns : List (Option Nat)) (st st2 : PgoBuildSt),
      pgo6NeighborEdgesForKf p m i kf conns st = Except.ok st2 →
      st2.prob.constants = st.prob.constants := by
  intro conns
  induction conns with
  | nil => intro st st2 h; cases h; rfl
  | cons c rest ih =>
    intro st st2 h
    unfold pgo6NeighborEdgesForKf at h
    repeat' split at h
    all_goals try cases h
    all_goals try exact ih _ _ h
    rw [ih _ _ h]
    rfl

theorem pgo6NeighborEdges_constants (p : Params) (m : MapState) :
    ∀ (lst : List (Nat × Keyframe)) (st st2 : PgoBuildSt),
      pgo6NeighborEdges p m lst st = Except.ok st2 →
      st2.prob.constants = st.prob.constants := by
  intro lst
  induction lst with
  | nil => intro st st2 h; cases h; rfl
  | cons e rest ih =>
    intro st st2 h
    rcases e with ⟨i, kf⟩
    unfold pgo6NeighborEdges at h
    split at h
    · exact ih _ _ h
    · split at h
      next e2 heq => cases h
      next conns heq =>
        split at h
        next e2 heq2 => cases h
        next stm heq2 =>
          rw [ih _ _ h]
          exact pgo6NeighborEdgesForKf_constants p m i kf conns _ _ heq2

/-- The per-keyframe effect of the 6-DoF PGO writeback loop. -/
def pgo6WbKf (a : Asg) (i : Nat) (kf : Keyframe) : Keyframe :=
  if kf.invalid then kf
  else
    let poseArr := a (.kfPose i)
    let kf1 := UpdateFromCeres kf poseArr kf.ceresVelBias (a (.kfExtr i))
    let Tc := Ceres2Transform poseArr
    { kf1 with vel := quatRotate Tc.q (quatRotate (quatConj kf.pose.q) kf1.vel) }

theorem pgo6WritebackKfs_fst (a : Asg) :
    ∀ (lst : List (Nat × Keyframe)) (ks : List Keyframe) (nc : PoseMap),
      (pgo6WritebackKfs a lst (ks, nc)).1 =
        ks ++ lst.map (fun ik => pgo6WbKf a ik.1 ik.2) := by
  intro lst
  induction lst with
  | nil => intro ks nc; simp [pgo6WritebackKfs]
  | cons e rest ih =>
    intro ks nc
    rcases e with ⟨i, kf⟩
    unfold pgo6WritebackKfs
    by_cases hv : kf.invalid = true
    · rw [if_pos hv, ih]
      simp [pgo6WbKf, hv]
    · rw [if_neg hv, ih]
      simp only [List.map_cons, List.append_assoc, List.singleton_append]
      rw [show pgo6WbKf a i kf = { UpdateFromCeres kf (a (.kfPose i)) kf.ceresVelBias
            (a (.kfExtr i)) with
          vel := quatRotate (Ceres2Transform (a (.kfPose i))).q
            (quatRotate (quatConj kf.pose.q)
              (UpdateFromCeres kf (a (.kfPose i)) kf.ceresVelBias (a (.kfExtr i))).vel) }
        from by unfold pgo6WbKf; rw [if_neg hv]]

theorem pgo6_anchor (p : Params) (correctedPoses : PoseMap) (solve : SolveFn)
    (m0 : MapState) (i : Nat) (kf : Keyframe) (m' : MapState)
    (hs : SolverOk solve)
    (hkf : m0.keyframes.get? i = some kf) (hv : kf.invalid = false)
    (ha1 : kf.idFirst = 0) (ha2 : kf.idSecond = m0.idMap)
    (hcp : (assocFind correctedPoses (kf.idFirst, kf.idSecond)).getD kf.pose = kf.pose)
    (hok : PoseGraphOptimization p correctedPoses solve m0 = Except.ok m') :
    ∃ kf', m'.keyframes.get? i = some kf' ∧ kf'.pose = kf.pose := by
  have hm1 : (pgoSyncKeyframes correctedPoses m0).keyframes.get? i =
      some (pgoSyncKf correctedPoses kf) := by
    unfold pgoSyncKeyframes
    dsimp only
    rw [List.get?_map, hkf]
    rfl
  have hsync : pgoSyncKf correctedPoses kf =
      { UpdateCeresFromState kf with ceresPose := encodePose kf.pose } := by
    unfold pgoSyncKf
    rw [if_neg (by rw [hv]; exact fun hc => Bool.noConfusion hc)]
    rw [hcp]
  unfold PoseGraphOptimization at hok
  dsimp only at hok
  split at hok
  next e heq => cases hok
  next st2 heq =>
    have hconst : BlockId.kfPose i ∈ st2.prob.constants := by
      rw [pgo6NeighborEdges_constants p _ _ _ _ heq, pgo6SuccEdges_constants,
        pgo6LoopEdges_constants]
      apply pgoKfBlocks_anchor _ _ _ i (pgoSyncKf correctedPoses kf)
        (mem_enum_of_get? hm1)
      · rw [hsync]
        exact hv
      · rw [hsync]
        exact ⟨ha1, ha2⟩
    have hsolve := hs (pgoSolverOptions p.threadsServer p.pgoIterationLimit) st2.prob
      (initAsg (pgoSyncKeyframes correctedPoses m0)) (BlockId.kfPose i) (Or.inl hconst)
    have hinit : initAsg (pgoSyncKeyframes correctedPoses m0) (BlockId.kfPose i) =
        encodePose kf.pose := by
      unfold initAsg
      dsimp only
      rw [hm1, hsync]
      rfl
    cases hwl : pgoWritebackLms
        { pgoSyncKeyframes correctedPoses m0 with
          keyframes := (pgo6WritebackKfs
            (solve (pgoSolverOptions p.threadsServer p.pgoIterationLimit) st2.prob
              (initAsg (pgoSyncKeyframes correctedPoses m0)))
            (pgoSyncKeyframes correctedPoses m0).keyframes.enum ([], [])).1 }
        (pgo6WritebackKfs
            (solve (pgoSolverOptions p.threadsServer p.pgoIterationLimit) st2.prob
              (initAsg (pgoSyncKeyframes correctedPoses m0)))
            (pgoSyncKeyframes correctedPoses m0).keyframes.enum ([], [])).2
        (pgoSyncKeyframes correctedPoses m0).landmarks [] with
    | error e => rw [hwl] at hok; cases hok
    | ok lms2 =>
      rw [hwl] at hok
      rw [← Except.ok.inj hok]
      refine ⟨pgo6WbKf (solve (pgoSolverOptions p.threadsServer p.pgoIterationLimit)
        st2.prob (initAsg (pgoSyncKeyframes correctedPoses m0))) i
        (pgoSyncKf correctedPoses kf), ?_, ?_⟩
      · show ((pgo6WritebackKfs _ (pgoSyncKeyframes correctedPoses m0).keyframes.enum
          ([], [])).1).get? i = some _
        rw [pgo6WritebackKfs_fst, List.nil_append, List.get?_map,
          show (pgoSyncKeyframes correctedPoses m0).keyframes.enum =
            List.enumFrom 0 (pgoSyncKeyframes correctedPoses m0).keyframes from rfl,
          get?_enumFrom, hm1]
        dsimp only [Option.map]
        rw [Nat.zero_add]
      · show (pgo6WbKf _ i (pgoSyncKf correctedPoses kf)).pose = kf.pose
        unfold pgo6WbKf
        rw [hsync]
        have hinv2 : ({ UpdateCeresFromState kf with
            ceresPose := encodePose kf.pose } : Keyframe).invalid = false := hv
        rw [if_neg (by rw [hinv2]; exact fun hc => Bool.noConfusion hc)]
        show Ceres2Transform (solve (pgoSolverOptions p.threadsServer p.pgoIterationLimit)
          st2.prob (initAsg (pgoSyncKeyframes correctedPoses m0)) (BlockId.kfPose i)) = kf.pose
        rw [hsolve, hinit, Ceres2Transform_encodePose]

theorem pgo4KfBlocks_mono (p : Params) (m : MapState) :
    ∀ (lst : List (Nat × Keyframe)) (pr : CeresProblem) (c : BlockId),
      c ∈ pr.constants → c ∈ (pgo4KfBlocks p m lst pr).constants := by
  intro lst
  induction lst with
  | nil => intro pr c h; exact h
  | cons e rest ih =>
    intro pr c h
    rcases e with ⟨i, kf⟩
    unfold pgo4KfBlocks
    split
    · exact ih pr c h
    · apply ih
      have h1 : c ∈ (addBlock (addBlock pr (.kfYaw i)) (.kfTrans i)).constants := by
        rw [constants_addBlock, constants_addBlock]
        exact h
      have h2 : c ∈ (if kf.idFirst = 0 ∧ kf.idSecond = m.idMap then
          setConst (setConst (addBlock (addBlock pr (.kfYaw i)) (.kfTrans i)) (.kfYaw i))
            (.kfTrans i)
          else addBlock (addBlock pr (.kfYaw i)) (.kfTrans i)).constants := by
        split
        · exact mem_constants_setConst _ _ _ (mem_constants_setConst _ _ _ h1)
        · exact h1
      split
      · exact mem_constants_setConst _ _ _ (mem_constants_setConst _ _ _ h2)
      · split
        · exact mem_constants_setConst _ _ _ (mem_constants_setConst _ _ _ h2)
        · exact h2

theorem pgo4KfBlocks_anchor (p : Params) (m : MapState) :
    ∀ (lst : List (Nat × Keyframe)) (pr : CeresProblem) (i : Nat) (kf : Keyframe),
      (i, kf) ∈ lst → kf.invalid = false →
      kf.idFirst = 0 ∧ kf.idSecond = m.idMap →
      BlockId.kfYaw i ∈ (pgo4KfBlocks p m lst pr).constants ∧
      BlockId.kfTrans i ∈ (pgo4KfBlocks p m lst pr).constants := by
  intro lst
  induction lst with
  | nil => intro pr i kf hm; exact absurd hm (List.not_mem_nil _)
  | cons e rest ih =>
    intro pr i kf hm hv ha
    rcases e with ⟨j, kfj⟩
    rcases List.mem_cons.mp hm with hhead | htail
    · have hji : j = i := (congrArg Prod.fst hhead).symm
      have hkj : kfj = kf := (congrArg Prod.snd hhead).symm
      subst hji
      subst hkj
      unfold pgo4KfBlocks
      rw [if_neg (by rw [hv]; exact fun hc => Bool.noConfusion hc)]
      dsimp only
      rw [if_pos ha]
      have hY : BlockId.kfYaw j ∈ (setConst (setConst (addBlock (addBlock pr (.kfYaw j))
          (.kfTrans j)) (.kfYaw j)) (.kfTrans j)).constants :=
        mem_constants_setConst _ _ _ (mem_constants_setConst_self _ _)
      have hT : BlockId.kfTrans j ∈ (setConst (setConst (addBlock (addBlock pr (.kfYaw j))
          (.kfTrans j)) (.kfYaw j)) (.kfTrans j)).constants :=
        mem_constants_setConst_self _ _
      constructor
      · apply pgo4KfBlocks_mono
        split
        · exact mem_constants_setConst _ _ _ (mem_constants_setConst _ _ _ hY)
        · split
          · exact mem_constants_setConst _ _ _ (mem_constants_setConst _ _ _ hY)
          · exact hY
      · apply pgo4KfBlocks_mono
        split
        · exact mem_constants_setConst _ _ _ (mem_constants_setConst _ _ _ hT)
        · split
          · exact mem_constants_setConst _ _ _ (mem_constants_setConst _ _ _ hT)
          · exact hT
    · unfold pgo4KfBlocks
      split
      · exact ih pr i kf htail hv ha
      · exact ih _ i kf htail hv ha

theorem pgo4LoopEdges_constants (r2ypr : Quat → Vec3) (qws : List ((Nat × Nat) × Quat))
    (m : MapState) :
    ∀ (ls : List LoopConstraint) (pr : CeresProblem),
      (pgo4LoopEdges r2ypr qws m ls pr).constants = pr.constants := by
  intro ls
  induction ls with
  | nil => intro pr; rfl
  | cons l rest ih =>
    intro pr
    unfold pgo4LoopEdges
    rw [ih, constants_addResidual]

theorem pgo4SuccEdges_constants (r2ypr : Quat → Vec3) (qws : List ((Nat × Nat) × Quat))
    (m : MapState) :
    ∀ (lst : List (Nat × Keyframe)) (st : PgoBuildSt),
      (pgo4SuccEdges r2ypr qws m lst st).prob.constants = st.prob.constants := by
  intro lst
  induction lst with
  | nil => intro st; rfl
  | cons e rest ih =>
    intro st
    rcases e with ⟨i, kf⟩
    unfold pgo4SuccEdges
    repeat' split
    all_goals rw [ih]
    rfl

theorem pgo4NeighborEdgesForKf_constants (r2ypr : Quat → Vec3)
    (qws : List ((Nat × Nat) × Quat)) (m : MapState) (i : Nat) (kf : Keyframe) :
    ∀ (conns : List (Option Nat)) (st st2 : PgoBuildSt),
      pgo4NeighborEdgesForKf r2ypr qws m i kf conns st = Except.ok st2 →
      st2.prob.constants = st.prob.constants := by
  intro conns
  induction conns with
  | nil => intro st st2 h; cases h; rfl
  | cons c rest ih =>
    intro st st2 h
    unfold pgo4NeighborEdgesForKf at h
    repeat' split at h
    all_goals try cases h
    all_goals try exact ih _ _ h
    rw [ih _ _ h]
    rfl

theorem pgo4NeighborEdges_constants (r2ypr : Quat → Vec3)
    (qws : List ((Nat × Nat) × Quat)) (m : MapState) :
    ∀ (lst : List (Nat × Keyframe)) (st st2 : PgoBuildSt),
      pgo4NeighborEdges r2ypr qws m lst st = Except.ok st2 →
      st2.prob.constants = st.prob.constants := by
  intro lst
  induction lst with
  | nil => intro st st2 h; cases h; rfl
  | cons e rest ih =>
    intro st st2 h
    rcases e with ⟨i, kf⟩
    unfold pgo4NeighborEdges at h
    split at h
    · exact ih _ _ h
    · split at h
      next e2 heq => cases h
      next conns heq =>
        split at h
        next e2 heq2 => cases h
        next stm heq2 =>
          rw [ih _ _ h]
          exact pgo4NeighborEdgesForKf_constants r2ypr qws m i kf conns _ _ heq2

/-- The per-keyframe effect of the 4-DoF PGO writeback loop. -/
def pgo4WbKf (tc : TrigOracle) (a : Asg) (i : Nat) (kf : Keyframe) : Keyframe :=
  if kf.invalid then kf
  else
    let yaw := (a (.kfYaw i)).getD 0 0
    let pitch := kf.ceresPose.getD 2 0
    let roll := kf.ceresPose.getD 3 0
    let q := eulerAnglesToQuat tc yaw pitch roll
    let tr := a (.kfTrans i)
    let poseArr := [q.x, q.y, q.z, q.w, tr.getD 0 0, tr.getD 1 0, tr.getD 2 0]
    let kf1 := UpdateFromCeres kf poseArr kf.ceresVelBias kf.ceresExtr
    let Tc := Ceres2Transform poseArr
    { kf1 with vel := quatRotate Tc.q (quatRotate (quatConj kf.pose.q) kf1.vel) }

theorem pgo4WritebackKfs_fst (tc : TrigOracle) (a : Asg) :
    ∀ (lst : List (Nat × Keyframe)) (ks : List Keyframe) (nc : PoseMap),
      (pgo4WritebackKfs tc a lst (ks, nc)).1 =
        ks ++ lst.map (fun ik => pgo4WbKf tc a ik.1 ik.2) := by
  intro lst
  induction lst with
  | nil => intro ks nc; simp [pgo4WritebackKfs]
  | cons e rest ih =>
    intro ks nc
    rcases e with ⟨i, kf⟩
    unfold pgo4WritebackKfs
    by_cases hv : kf.invalid = true
    · rw [if_pos hv, ih]
      simp [pgo4WbKf, hv]
    · rw [if_neg hv, ih]
      simp only [List.map_cons, List.append_assoc, List.singleton_append]
      rw [show pgo4WbKf tc a i kf = _ from by unfold pgo4WbKf; rw [if_neg hv]]

theorem pgo4_anchor (p : Params) (tc : TrigOracle) (r2ypr : Quat → Vec3)
    (correctedPoses : PoseMap) (solve : SolveFn)
    (m0 : MapState) (i : Nat) (kf : Keyframe) (m' : MapState)
    (hs : SolverOk solve)
    (hkf : m0.keyframes.get? i = some kf) (hv : kf.invalid = false)
    (ha1 : kf.idFirst = 0) (ha2 : kf.idSecond = m0.idMap)
    (hok : PoseGraphOptimization4DoF p tc r2ypr correctedPoses solve m0 = Except.ok m') :
    ∃ kf', m'.keyframes.get? i = some kf' ∧
      kf'.pose = ⟨eulerAnglesToQuat tc ((r2ypr kf.pose.q).x) ((r2ypr kf.pose.q).y)
        ((r2ypr kf.pose.q).z), kf.pose.t⟩ := by
  have hm1 : ({ m0 with keyframes := m0.keyframes.map (pgo4SyncKf r2ypr) }
      : MapState).keyframes.get? i = some (pgo4SyncKf r2ypr kf) := by
    dsimp only
    rw [List.get?_map, hkf]
    rfl
  have hsync : pgo4SyncKf r2ypr kf =
      { UpdateCeresFromState kf with
        ceresPose := [kf.pose.q.x, (r2ypr kf.pose.q).x, (r2ypr kf.pose.q).y,
          (r2ypr kf.pose.q).z, kf.pose.t.x, kf.pose.t.y, kf.pose.t.z] } := by
    unfold pgo4SyncKf
    rw [if_neg (by rw [hv]; exact fun hc => Bool.noConfusion hc)]
  unfold PoseGraphOptimization4DoF at hok
  dsimp only at hok
  split at hok
  next e heq => cases hok
  next st2 heq =>
    have hconst := pgo4KfBlocks_anchor p
      { m0 with keyframes := m0.keyframes.map (pgo4SyncKf r2ypr) }
      ({ m0 with keyframes := m0.keyframes.map (pgo4SyncKf r2ypr) }
        : MapState).keyframes.enum emptyProblem i (pgo4SyncKf r2ypr kf)
      (mem_enum_of_get? hm1) (by rw [hsync]; exact hv) (by rw [hsync]; exact ⟨ha1, ha2⟩)
    have hcY : BlockId.kfYaw i ∈ st2.prob.constants := by
      rw [pgo4NeighborEdges_constants _ _ _ _ _ _ heq, pgo4SuccEdges_constants,
        pgo4LoopEdges_constants]
      exact hconst.1
    have hcT : BlockId.kfTrans i ∈ st2.prob.constants := by
      rw [pgo4NeighborEdges_constants _ _ _ _ _ _ heq, pgo4SuccEdges_constants,
        pgo4LoopEdges_constants]
      exact hconst.2
    have hsY := hs (pgo4SolverOptions p.threadsServer p.pgoIterationLimit) st2.prob
      (initAsg { m0 with keyframes := m0.keyframes.map (pgo4SyncKf r2ypr) })
      (BlockId.kfYaw i) (Or.inl hcY)
    have hsT := hs (pgo4SolverOptions p.threadsServer p.pgoIterationLimit) st2.prob
      (initAsg { m0 with keyframes := m0.keyframes.map (pgo4SyncKf r2ypr) })
      (BlockId.kfTrans i) (Or.inl hcT)
    have hiY : initAsg { m0 with keyframes := m0.keyframes.map (pgo4SyncKf r2ypr) }
        (BlockId.kfYaw i) = [(r2ypr kf.pose.q).x] := by
      unfold initAsg
      dsimp only
      rw [hm1, hsync]
      rfl
    have hiT : initAsg { m0 with keyframes := m0.keyframes.map (pgo4SyncKf r2ypr) }
        (BlockId.kfTrans i) = [kf.pose.t.x, kf.pose.t.y, kf.pose.t.z] := by
      unfold initAsg
      dsimp only
      rw [hm1, hsync]
      rfl
    have haY := hsY.trans hiY
    have haT := hsT.trans hiT
    cases hwl : pgoWritebackLms
        { ({ m0 with keyframes := m0.keyframes.map (pgo4SyncKf r2ypr) } : MapState) with
          keyframes := (pgo4WritebackKfs tc
            (solve (pgo4SolverOptions p.threadsServer p.pgoIterationLimit) st2.prob
              (initAsg { m0 with keyframes := m0.keyframes.map (pgo4SyncKf r2ypr) }))
            ({ m0 with keyframes := m0.keyframes.map (pgo4SyncKf r2ypr) }
              : MapState).keyframes.enum ([], [])).1 }
        (pgo4WritebackKfs tc
            (solve (pgo4SolverOptions p.threadsServer p.pgoIterationLimit) st2.prob
              (initAsg { m0 with keyframes := m0.keyframes.map (pgo4SyncKf r2ypr) }))
            ({ m0 with keyframes := m0.keyframes.map (pgo4SyncKf r2ypr) }
              : MapState).keyframes.enum ([], [])).2
        ({ m0 with keyframes := m0.keyframes.map (pgo4SyncKf r2ypr) }
          : MapState).landmarks [] with
    | error e => rw [hwl] at hok; cases hok
    | ok lms2 =>
      rw [hwl] at hok
      rw [← Except.ok.inj hok]
      refine ⟨pgo4WbKf tc (solve (pgo4SolverOptions p.threadsServer p.pgoIterationLimit)
        st2.prob (initAsg { m0 with keyframes := m0.keyframes.map (pgo4SyncKf r2ypr) })) i
        (pgo4SyncKf r2ypr kf), ?_, ?_⟩
      · show ((pgo4WritebackKfs tc _
          ({ m0 with keyframes := m0.keyframes.map (pgo4SyncKf r2ypr) }
            : MapState).keyframes.enum ([], [])).1).get? i = some _
        rw [pgo4WritebackKfs_fst, List.nil_append, List.get?_map,
          show ({ m0 with keyframes := m0.keyframes.map (pgo4SyncKf r2ypr) }
              : MapState).keyframes.enum =
            List.enumFrom 0 ({ m0 with keyframes := m0.keyframes.map (pgo4SyncKf r2ypr) }
              : MapState).keyframes from rfl,
          get?_enumFrom, hm1]
        dsimp only [Option.map]
        rw [Nat.zero_add]
      · show (pgo4WbKf tc _ i (pgo4SyncKf r2ypr kf)).pose = _
        unfold pgo4WbKf
        rw [hsync]
        have hinv2 : ({ UpdateCeresFromState kf with
            ceresPose := [kf.pose.q.x, (r2ypr kf.pose.q).x, (r2ypr kf.pose.q).y,
              (r2ypr kf.pose.q).z, kf.pose.t.x, kf.pose.t.y, kf.pose.t.z] }
            : Keyframe).invalid = false := hv
        rw [if_neg (by rw [hinv2]; exact fun hc => Bool.noConfusion hc)]
        rw [haY, haT]
        rfl

theorem gbaAddCameraBlocks_constMono {kf : Keyframe} {st st2 : KfBuildSt}
    (hstep : gbaAddCameraBlocks kf st = Except.ok st2)
    {c : BlockId} (h : c ∈ st.prob.constants) : c ∈ st2.prob.constants := by
  unfold gbaAddCameraBlocks at hstep
  split at hstep
  · cases hstep
  · cases hstep
    apply mem_constants_setConst
    rw [constants_addBlock]
    apply mem_constants_setConst
    rw [constants_addBlock]
    exact h

theorem gbaAddImuFactor_constants {isPass1 : Bool} {m : MapState} {j : Nat}
    {kf : Keyframe} {st st2 : KfBuildSt}
    (hstep : gbaAddImuFactor isPass1 m j kf st = Except.ok st2) :
    st2.prob.constants = st.prob.constants := by
  unfold gbaAddImuFactor at hstep
  dsimp only at hstep
  repeat' split at hstep
  all_goals try cases hstep
  all_goals rfl

theorem gbaKfStep_constMono {isPass1 : Bool} {p : Params} {vo : Bool}
    {m : MapState} {j : Nat} {kf : Keyframe} {st st2 : KfBuildSt}
    (hstep : gbaKfStep isPass1 p vo m j kf st = Except.ok st2)
    {c : BlockId} (h : c ∈ st.prob.constants) : c ∈ st2.prob.constants := by
  unfold gbaKfStep at hstep
  split at hstep
  · cases hstep
    exact h
  · dsimp only at hstep
    split at hstep
    next e heq => cases hstep
    next stc heq =>
      have h5 : c ∈ (if !isPass1 && kf.isLoaded && p.gbaFixPosesLoadedMaps then
          setConst (setConst (addBlock (if vo then
              (if kf.idFirst = 0 ∧ kf.idSecond = m.idMap then
                setConst (addBlock st.prob (.kfPose j)) (.kfPose j)
               else addBlock st.prob (.kfPose j))
            else addBlock (if kf.idFirst = 0 ∧ kf.idSecond = m.idMap then
                setConst (addBlock st.prob (.kfPose j)) (.kfPose j)
               else addBlock st.prob (.kfPose j)) (.kfVelBias j)) (.kfExtr j)) (.kfExtr j))
            (.kfPose j)
          else setConst (addBlock (if vo then
              (if kf.idFirst = 0 ∧ kf.idSecond = m.idMap then
                setConst (addBlock st.prob (.kfPose j)) (.kfPose j)
               else addBlock st.prob (.kfPose j))
            else addBlock (if kf.idFirst = 0 ∧ kf.idSecond = m.idMap then
                setConst (addBlock st.prob (.kfPose j)) (.kfPose j)
               else addBlock st.prob (.kfPose j)) (.kfVelBias j)) (.kfExtr j)) (.kfExtr j)
          ).constants := by
        have h2 : c ∈ (if kf.idFirst = 0 ∧ kf.idSecond = m.idMap then
            setConst (addBlock st.prob (.kfPose j)) (.kfPose j)
            else addBlock st.prob (.kfPose j)).constants := by
          split
          · exact mem_constants_setConst _ _ _ (by rw [constants_addBlock]; exact h)
          · rw [constants_addBlock]
            exact h
        have h3 : c ∈ (if vo then
            (if kf.idFirst = 0 ∧ kf.idSecond = m.idMap then
              setConst (addBlock st.prob (.kfPose j)) (.kfPose j)
             else addBlock st.prob (.kfPose j))
            else addBlock (if kf.idFirst = 0 ∧ kf.idSecond = m.idMap then
              setConst (addBlock st.prob (.kfPose j)) (.kfPose j)
             else addBlock st.prob (.kfPose j)) (.kfVelBias j)).constants := by
          split
          · exact h2
          · rw [constants_addBlock]
            exact h2
        split
        · apply mem_constants_setConst
          apply mem_constants_setConst
          rw [constants_addBlock]
          exact h3
        · apply mem_constants_setConst
          rw [constants_addBlock]
          exact h3
      have hc5 := gbaAddCameraBlocks_constMono heq h5
      split at hstep
      · cases hstep
        exact hc5
      · rw [gbaAddImuFactor_constants hstep]
        exact hc5

theorem gbaKfStep_anchor {isPass1 : Bool} {p : Params} {vo : Bool}
    {m : MapState} {j : Nat} {kf : Keyframe} {st st2 : KfBuildSt}
    (hstep : gbaKfStep isPass1 p vo m j kf st = Except.ok st2)
    (hv : kf.invalid = false) (ha : kf.idFirst = 0 ∧ kf.idSecond = m.idMap) :
    BlockId.kfPose j ∈ st2.prob.constants := by
  unfold gbaKfStep at hstep
  rw [if_neg (by rw [hv]; exact fun hc => Bool.noConfusion hc)] at hstep
  dsimp only at hstep
  rw [if_pos ha] at hstep
  split at hstep
  next e heq => cases hstep
  next stc heq =>
    have h2 : BlockId.kfPose j ∈
        (setConst (addBlock st.prob (.kfPose j)) (.kfPose j)).constants :=
      mem_constants_setConst_self _ _
    have h3 : BlockId.kfPose j ∈ (if vo then
        setConst (addBlock st.prob (.kfPose j)) (.kfPose j)
        else addBlock (setConst (addBlock st.prob (.kfPose j)) (.kfPose j))
          (.kfVelBias j)).constants := by
      split
      · exact h2
      · rw [constants_addBlock]
        exact h2
    have h5 : BlockId.kfPose j ∈ (if !isPass1 && kf.isLoaded && p.gbaFixPosesLoadedMaps then
        setConst (setConst (addBlock (if vo then
            setConst (addBlock st.prob (.kfPose j)) (.kfPose j)
          else addBlock (setConst (addBlock st.prob (.kfPose j)) (.kfPose j))
            (.kfVelBias j)) (.kfExtr j)) (.kfExtr j)) (.kfPose j)
        else setConst (addBlock (if vo then
            setConst (addBlock st.prob (.kfPose j)) (.kfPose j)
          else addBlock (setConst (addBlock st.prob (.kfPose j)) (.kfPose j))
            (.kfVelBias j)) (.kfExtr j)) (.kfExtr j)).constants := by
      split
      · apply mem_constants_setConst
        apply mem_constants_setConst
        rw [constants_addBlock]
        exact h3
      · apply mem_constants_setConst
        rw [constants_addBlock]
        exact h3
    have hc5 := gbaAddCameraBlocks_constMono heq h5
    split at hstep
    · cases hstep
      exact hc5
    · rw [gbaAddImuFactor_constants hstep]
      exact hc5

theorem gbaKfLoop_constMono {isPass1 : Bool} {p : Params} {vo : Bool} {m : MapState} :
    ∀ (lst : List (Nat × Keyframe)) (st st2 : KfBuildSt),
      gbaKfLoop isPass1 p vo m lst st = Except.ok st2 →
      ∀ c, c ∈ st.prob.constants → c ∈ st2.prob.constants := by
  intro lst
  induction lst with
  | nil => intro st st2 h c hc; cases h; exact hc
  | cons e rest ih =>
    intro st st2 h c hc
    rcases e with ⟨j, kf⟩
    unfold gbaKfLoop at h
    split at h
    next e2 heq => cases h
    next stm heq => exact ih stm st2 h c (gbaKfStep_constMono heq hc)

theorem gbaKfLoop_anchor {isPass1 : Bool} {p : Params} {vo : Bool} {m : MapState} :
    ∀ (lst : List (Nat × Keyframe)) (st st2 : KfBuildSt) (i : Nat) (kf : Keyframe),
      gbaKfLoop isPass1 p vo m lst st = Except.ok st2 →
      (i, kf) ∈ lst → kf.invalid = false → kf.idFirst = 0 ∧ kf.idSecond = m.idMap →
      BlockId.kfPose i ∈ st2.prob.constants := by
  intro lst
  induction lst with
  | nil => intro st st2 i kf _ hm; exact absurd hm (List.not_mem_nil _)
  | cons e rest ih =>
    intro st st2 i kf h hm hv ha
    rcases e with ⟨j, kfj⟩
    unfold gbaKfLoop at h
    split at h
    next e2 heq => cases h
    next stm heq =>
      rcases List.mem_cons.mp hm with hhead | htail
      · have hji : j = i := (congrArg Prod.fst hhead).symm
        have hkj : kfj = kf := (congrArg Prod.snd hhead).symm
        subst hji
        subst hkj
        exact gbaKfLoop_constMono rest stm st2 h _ (gbaKfStep_anchor heq hv ha)
      · exact ih stm st2 i kf h htail hv ha

theorem gbaObsStep_constants {m : MapState} {lmIdx : Nat} {obs : Option Nat × Nat}
    {st st2 : LmBuildSt} (hstep : gbaObsStep m lmIdx obs st = Except.ok st2) :
    st2.prob.constants = st.prob.constants := by
  unfold gbaObsStep at hstep
  repeat' split at hstep
  all_goals try cases hstep
  all_goals rfl

theorem gbaObsLoop_constants {m : MapState} {lmIdx : Nat} :
    ∀ (obsl : List (Option Nat × Nat)) (st st2 : LmBuildSt),
      gbaObsLoop m lmIdx obsl st = Except.ok st2 →
      st2.prob.constants = st.prob.constants := by
  intro obsl
  induction obsl with
  | nil => intro st st2 h; cases h; rfl
  | cons o rest ih =>
    intro st st2 h
    unfold gbaObsLoop at h
    split at h
    next e heq => cases h
    next stm heq => rw [ih stm st2 h, gbaObsStep_constants heq]

theorem gbaLmLoop_constants {m : MapState} :
    ∀ (lml : List (Nat × Landmark)) (st st2 : LmBuildSt),
      gbaLmLoop m lml st = Except.ok st2 →
      st2.prob.constants = st.prob.constants := by
  intro lml
  induction lml with
  | nil => intro st st2 h; cases h; rfl
  | cons il rest ih =>
    intro st st2 h
    rcases il with ⟨j, lm⟩
    unfold gbaLmLoop at h
    split at h
    · exact ih st st2 h
    · split at h
      next e heq => cases h
      next stm heq =>
        rw [ih stm st2 h, gbaObsLoop_constants _ _ _ heq, constants_addBlock]

theorem gbaLoopEdgeLoop1_constants :
    ∀ (ls : List LoopConstraint) (pr : CeresProblem),
      (gbaLoopEdgeLoop1 ls pr).constants = pr.constants := by
  intro ls
  induction ls with
  | nil => intro pr; rfl
  | cons l rest ih =>
    intro pr
    unfold gbaLoopEdgeLoop1
    rw [ih, constants_addResidual]

theorem gbaLoopEdgeLoop2_constants :
    ∀ (ls : List LoopConstraint) (pr : CeresProblem),
      (gbaLoopEdgeLoop2 ls pr).constants = pr.constants := by
  intro ls
  induction ls with
  | nil => intro pr; rfl
  | cons l rest ih =>
    intro pr
    unfold gbaLoopEdgeLoop2
    rw [ih]
    split
    · rw [constants_addResidual]
    · rfl

theorem gbaBuild_anchorConst (isPass1 : Bool) (p : Params) (vo : Bool) (m0 : MapState)
    (b : GbaBuild) (hb : gbaBuildProblem isPass1 p vo m0 = Except.ok b)
    (i : Nat) (skf : Keyframe)
    (hkf : (gbaSyncKeyframes m0).keyframes.get? i = some skf)
    (hv : skf.invalid = false)
    (ha : skf.idFirst = 0 ∧ skf.idSecond = m0.idMap) :
    BlockId.kfPose i ∈ b.prob.constants := by
  unfold gbaBuildProblem at hb
  dsimp only at hb
  cases hk : gbaKfLoop isPass1 p vo (gbaSyncKeyframes m0)
      (gbaSyncKeyframes m0).keyframes.enum ⟨emptyProblem, [], [], []⟩ with
  | error e => rw [hk] at hb; cases hb
  | ok kst =>
    rw [hk] at hb
    dsimp only at hb
    cases hl : gbaLmLoop (gbaSyncLandmarks (gbaSyncKeyframes m0))
        (gbaSyncLandmarks (gbaSyncKeyframes m0)).landmarks.enum
        ⟨kst.prob, kst.intrinsicsMap, [], []⟩ with
    | error e => rw [hl] at hb; cases hb
    | ok lst =>
      rw [hl] at hb
      cases hb
      have hanchor := gbaKfLoop_anchor _ _ _ i skf hk (mem_enum_of_get? hkf) hv ha
      have hlst : BlockId.kfPose i ∈ lst.prob.constants := by
        rw [gbaLmLoop_constants _ _ _ hl]
        exact hanchor
      show BlockId.kfPose i ∈ (if isPass1 then _ else _ : CeresProblem).constants
      split
      · rw [gbaLoopEdgeLoop1_constants]
        exact hlst
      · split
        · rw [gbaLoopEdgeLoop2_constants]
          exact hlst
        · exact hlst

/-- The keyframe fields the GBA removal round can never change. -/
def kfCore (kf : Keyframe) : Pose × Nat × Nat × Bool :=
  (kf.pose, kf.idFirst, kf.idSecond, kf.invalid)

theorem gbaRemoveOutliers_kfCore (th : Scalar) (ev : Nat → Vec2) (k : Nat) :
    ∀ (L : List (Nat × Nat × KeypointIdentifier)) (m : MapState)
      (prob : CeresProblem) (nb : Nat),
      ((gbaRemoveOutliers th ev L (m, prob, nb)).1.keyframes.get? k).map kfCore =
        (m.keyframes.get? k).map kfCore ∧
      (gbaRemoveOutliers th ev L (m, prob, nb)).1.idMap = m.idMap := by
  intro L
  induction L with
  | nil => intro m prob nb; exact ⟨rfl, rfl⟩
  | cons e rest ih =>
    intro m prob nb
    rcases e with ⟨pos, rid, kp⟩
    unfold gbaRemoveOutliers
    split
    · have hrec := ih
        (eraseLmObs (eraseKfSlot m kp.keyframe kp.keypointId) kp.landmark kp.keyframe)
        (removeResidual prob rid) (nb + 1)
      constructor
      · rw [hrec.1]
        show ((listModify m.keyframes kp.keyframe _).get? k).map kfCore =
          (m.keyframes.get? k).map kfCore
        rcases Nat.decEq kp.keyframe k with hne | heq
        · rw [get?_listModify_ne _ _ _ _ hne]
        · subst heq
          cases hg : m.keyframes.get? kp.keyframe with
          | none =>
            have h1 := get?_listModify_none
              (fun kf => { kf with landmarkSlots := kf.landmarkSlots.set kp.keypointId Option.none })
              m.keyframes kp.keyframe hg
            rw [h1]
          | some kf =>
            have h1 := get?_listModify_self
              (fun kf => { kf with landmarkSlots := kf.landmarkSlots.set kp.keypointId Option.none })
              m.keyframes kp.keyframe kf hg
            rw [h1]
            rfl
      · rw [hrec.2]
        rfl
    · exact ih m prob nb

theorem storeAsg_kfCore (m : MapState) (a : Asg) (k : Nat) :
    ((storeAsg m a).keyframes.get? k).map kfCore = (m.keyframes.get? k).map kfCore := by
  rw [storeAsg_kf_get?]
  cases m.keyframes.get? k with
  | none => rfl
  | some kf => rfl

theorem syncKf_kfCore (m : MapState) (k : Nat) :
    ((gbaSyncKeyframes m).keyframes.get? k).map kfCore =
      (m.keyframes.get? k).map kfCore := by
  unfold gbaSyncKeyframes
  dsimp only
  rw [List.get?_map]
  cases m.keyframes.get? k with
  | none => rfl
  | some kf =>
    dsimp only [Option.map]
    split
    · rfl
    · rfl

theorem gbaPass1_kfCore (p : Params) (vo : Bool) (solve : SolveFn) (ev : EvalFn)
    (m0 : MapState) (r : MapState × CeresProblem × Nat)
    (hp : gbaPass1 p vo solve ev m0 = Except.ok r) :
    (∀ k, (r.1.keyframes.get? k).map kfCore = (m0.keyframes.get? k).map kfCore) ∧
    r.1.idMap = m0.idMap := by
  unfold gbaPass1 at hp
  cases hb : gbaBuildProblem true p vo m0 with
  | error e => rw [hb] at hp; cases hp
  | ok b =>
    rw [hb] at hp
    dsimp only at hp
    have hfold := Except.ok.inj hp
    have hbm := gbaBuild_m true p vo m0 b hb
    have hpr := gbaRemoveOutliers_kfCore p.thGbaOutlierGlobal
      (ev b.prob (solve (gbaPass1SolverOptions p.threadsServer) b.prob (initAsg b.m)))
    constructor
    · intro k
      have h1 := (hpr k (zipPos b.residualIds b.keypointIds)
        (storeAsg b.m (solve (gbaPass1SolverOptions p.threadsServer) b.prob (initAsg b.m)))
        b.prob 0).1
      rw [hfold] at h1
      rw [h1, storeAsg_kfCore, hbm]
      exact syncKf_kfCore m0 k
    · have h2 := (hpr 0 (zipPos b.residualIds b.keypointIds)
        (storeAsg b.m (solve (gbaPass1SolverOptions p.threadsServer) b.prob (initAsg b.m)))
        b.prob 0).2
      rw [hfold] at h2
      rw [h2]
      rw [hbm]
      rfl

theorem gbaPass2_anchor (p : Params) (il : Int) (tl : Scalar) (vo : Bool)
    (solve : SolveFn) (m : MapState) (i : Nat) (kf : Keyframe) (m' : MapState)
    (hs : SolverOk solve)
    (hkf : m.keyframes.get? i = some kf) (hv : kf.invalid = false)
    (ha1 : kf.idFirst = 0) (ha2 : kf.idSecond = m.idMap)
    (hp : gbaPass2 p il tl vo solve m = Except.ok m') :
    ∃ kf', m'.keyframes.get? i = some kf' ∧ kf'.pose = kf.pose := by
  have hm1 : (gbaSyncKeyframes m).keyframes.get? i = some (UpdateCeresFromState kf) := by
    unfold gbaSyncKeyframes
    dsimp only
    rw [List.get?_map, hkf]
    dsimp only [Option.map]
    rw [if_neg (by rw [hv]; exact fun hc => Bool.noConfusion hc)]
  unfold gbaPass2 at hp
  cases hb : gbaBuildProblem false p vo m with
  | error e => rw [hb] at hp; cases hp
  | ok b =>
    rw [hb] at hp
    dsimp only at hp
    have hbm := gbaBuild_m false p vo m b hb
    have hconst : BlockId.kfPose i ∈ b.prob.constants :=
      gbaBuild_anchorConst false p vo m b hb i (UpdateCeresFromState kf) hm1 hv ⟨ha1, ha2⟩
    have hsolve := hs (gbaSolverOptions p.threadsServer il tl) b.prob (initAsg b.m)
      (BlockId.kfPose i) (Or.inl hconst)
    have hbmkf : b.m.keyframes.get? i = some (UpdateCeresFromState kf) := by
      rw [hbm]
      exact hm1
    have hinit : initAsg b.m (BlockId.kfPose i) = encodePose kf.pose := by
      unfold initAsg
      dsimp only
      rw [hbmkf]
      rfl
    rw [← Except.ok.inj hp]
    refine ⟨gbaWritebackKf vo (solve (gbaSolverOptions p.threadsServer il tl) b.prob
      (initAsg b.m)) i (UpdateCeresFromState kf), ?_, ?_⟩
    · show (b.m.keyframes.enum.map _).get? i = some _
      rw [List.get?_map,
        show b.m.keyframes.enum = List.enumFrom 0 b.m.keyframes from rfl,
        get?_enumFrom, hbmkf]
      dsimp only [Option.map]
      rw [Nat.zero_add]
    · show (gbaWritebackKf vo _ i (UpdateCeresFromState kf)).pose = kf.pose
      unfold gbaWritebackKf
      have hinv2 : (UpdateCeresFromState kf).invalid = false := hv
      rw [if_neg (by rw [hinv2]; exact fun hc => Bool.noConfusion hc)]
      dsimp only
      split
      · show Ceres2Transform (solve (gbaSolverOptions p.threadsServer il tl) b.prob
          (initAsg b.m) (BlockId.kfPose i)) = kf.pose
        rw [hsolve, hinit, Ceres2Transform_encodePose]
      · show Ceres2Transform (solve (gbaSolverOptions p.threadsServer il tl) b.prob
          (initAsg b.m) (BlockId.kfPose i)) = kf.pose
        rw [hsolve, hinit, Ceres2Transform_encodePose]

theorem gba_anchor (p : Params) (il : Int) (tl : Scalar) (vo orem eb : Bool)
    (solve : SolveFn) (ev : EvalFn) (m0 : MapState) (i : Nat) (kf : Keyframe)
    (m' : MapState)
    (hs : SolverOk solve)
    (hkf : m0.keyframes.get? i = some kf) (hv : kf.invalid = false)
    (ha1 : kf.idFirst = 0) (ha2 : kf.idSecond = m0.idMap)
    (hok : GlobalBundleAdjustment p il tl vo orem eb solve ev m0 = Except.ok m') :
    ∃ kf', m'.keyframes.get? i = some kf' ∧ kf'.pose = kf.pose := by
  unfold GlobalBundleAdjustment at hok
  cases orem with
  | false =>
    rw [if_neg (by simp)] at hok
    exact gbaPass2_anchor p il tl vo solve m0 i kf m' hs hkf hv ha1 ha2 hok
  | true =>
    rw [if_pos rfl] at hok
    cases hp1 : gbaPass1 p vo solve ev m0 with
    | error e => rw [hp1] at hok; cases hok
    | ok r =>
      rw [hp1] at hok
      dsimp only [Except.map] at hok
      have hcore := gbaPass1_kfCore p vo solve ev m0 r hp1
      have hck := hcore.1 i
      rw [hkf] at hck
      cases hr1 : r.1.keyframes.get? i with
      | none => rw [hr1] at hck; cases hck
      | some kfr =>
        rw [hr1] at hck
        have hcc : kfCore kfr = kfCore kf := Option.some.inj hck
        have hpose : kfr.pose = kf.pose := congrArg (fun x => x.1) hcc
        have hid1 : kfr.idFirst = kf.idFirst := congrArg (fun x => x.2.1) hcc
        have hid2 : kfr.idSecond = kf.idSecond := congrArg (fun x => x.2.2.1) hcc
        have hinv : kfr.invalid = kf.invalid := congrArg (fun x => x.2.2.2) hcc
        obtain ⟨kf', h1, h2⟩ := gbaPass2_anchor p il tl vo solve r.1 i kfr m' hs hr1
          (by rw [hinv]; exact hv) (by rw [hid1]; exact ha1)
          (by rw [hid2, hcore.2]; exact ha2) hok
        exact ⟨kf', h1, by rw [h2, hpose]⟩

/-- C1 (corrected): the anchor-keyframe pose policy of the three optimizers.
Under the documented Ceres contract (constant blocks are not modified by the
solve), Global Bundle Adjustment returns the anchor keyframe with its pose
bit-for-bit unchanged; the 6-DoF Pose-Graph Optimization does so only when
the `corrected_poses` map does not remap the anchor — the seeded (possibly
corrected) pose, not the entry pose, is what the constant block holds; and
the 4-DoF variant preserves the anchor translation bit-for-bit but
re-synthesizes the rotation through `eulerAnglesToQuat` of the `R2ypr`
decomposition, which is not a bit-for-bit identity on the quaternion. -/
theorem C1_anchor_pose_policy :
    (∀ (p : Params) (il : Int) (tl : Scalar) (vo orem eb : Bool) (solve : SolveFn)
       (ev : EvalFn) (m0 : MapState) (i : Nat) (kf : Keyframe) (m' : MapState),
       SolverOk solve → m0.keyframes.get? i = some kf → kf.invalid = false →
       kf.idFirst = 0 → kf.idSecond = m0.idMap →
       GlobalBundleAdjustment p il tl vo orem eb solve ev m0 = Except.ok m' →
       ∃ kf', m'.keyframes.get? i = some kf' ∧ kf'.pose = kf.pose) ∧
    (∀ (p : Params) (cp : PoseMap) (solve : SolveFn) (m0 : MapState) (i : Nat)
       (kf : Keyframe) (m' : MapState),
       SolverOk solve → m0.keyframes.get? i = some kf → kf.invalid = false →
       kf.idFirst = 0 → kf.idSecond = m0.idMap →
       (assocFind cp (kf.idFirst, kf.idSecond)).getD kf.pose = kf.pose →
       PoseGraphOptimization p cp solve m0 = Except.ok m' →
       ∃ kf', m'.keyframes.get? i = some kf' ∧ kf'.pose = kf.pose) ∧
    (∀ (p : Params) (tc : TrigOracle) (r2ypr : Quat → Vec3) (cp : PoseMap)
       (solve : SolveFn) (m0 : MapState) (i : Nat) (kf : Keyframe) (m' : MapState),
       SolverOk solve → m0.keyframes.get? i = some kf → kf.invalid = false →
       kf.idFirst = 0 → kf.idSecond = m0.idMap →
       PoseGraphOptimization4DoF p tc r2ypr cp solve m0 = Except.ok m' →
       ∃ kf', m'.keyframes.get? i = some kf' ∧
         kf'.pose = ⟨eulerAnglesToQuat tc ((r2ypr kf.pose.q).x) ((r2ypr kf.pose.q).y)
           ((r2ypr kf.pose.q).z), kf.pose.t⟩) := by
  refine ⟨?_, ?_, ?_⟩
  · intro p il tl vo orem eb solve ev m0 i kf m' hs hkf hv ha1 ha2 hok
    exact gba_anchor p il tl vo orem eb solve ev m0 i kf m' hs hkf hv ha1 ha2 hok
  · intro p cp solve m0 i kf m' hs hkf hv ha1 ha2 hcp hok
    exact pgo6_anchor p cp solve m0 i kf m' hs hkf hv ha1 ha2 hcp hok
  · intro p tc r2ypr cp solve m0 i kf m' hs hkf hv ha1 ha2 hok
    exact pgo4_anchor p tc r2ypr cp solve m0 i kf m' hs hkf hv ha1 ha2 hok

/-- A pose distinct from the identity. -/
def poseShift : Pose := ⟨idQuat, ⟨1, 0, 0⟩⟩

/-- Counterexample map: a single valid anchor keyframe at the identity pose. -/
def mC1 : MapState := { idMap := 0, keyframes := [exKf], landmarks := [], loops := [] }

/-- C1 counterexample: a 6-DoF Pose-Graph Optimization call whose
`corrected_poses` map remaps the anchor keyframe.  The anchor's pose block is
held constant, yet its pose after the call is the corrected pose, not the
pose it entered with — the claim's bit-for-bit invariant fails. -/
theorem C1_anchor_pose_counterexample :
    (mC1.keyframes.get? 0).map Keyframe.pose = some idPose ∧
    exKf.idFirst = 0 ∧ exKf.idSecond = mC1.idMap ∧ exKf.invalid = false ∧
    (match PoseGraphOptimization exParams [((0, 0), poseShift)] idSolve mC1 with
     | Except.ok m' => (m'.keyframes.get? 0).map Keyframe.pose = some poseShift
     | Except.error _ => False) ∧
    poseShift ≠ idPose := by
  refine ⟨by decide, by decide, by decide, by decide, ?_, by decide⟩
  cases hr : PoseGraphOptimization exParams [((0, 0), poseShift)] idSolve mC1 with
  | error e =>
    have hok : exceptIsOk (PoseGraphOptimization exParams [((0, 0), poseShift)]
        idSolve mC1) = true := by decide
    rw [hr] at hok
    simp [exceptIsOk] at hok
  | ok mr =>
    have h : (PoseGraphOptimization exParams [((0, 0), poseShift)] idSolve mC1).map
        (fun mm => (mm.keyframes.get? 0).map Keyframe.pose) =
        Except.ok (some poseShift) := by decide
    rw [hr] at h
    exact Except.ok.inj h

/-- A concrete trigonometric oracle for the 4-DoF witness. -/
def tcC1 : TrigOracle := ⟨3, fun _ => 0, fun _ => 1⟩

def r2yprC1 : Quat → Vec3 := fun _ => ⟨0, 0, 0⟩

theorem C1_anchor_pose_policy_witness :
    (match GlobalBundleAdjustment exParams 3 0 true false false idSolve zeroEval mC1 with
     | Except.ok m' => ∃ kf', m'.keyframes.get? 0 = some kf' ∧ kf'.pose = exKf.pose
     | Except.error _ => False) ∧
    (match PoseGraphOptimization exParams [] idSolve mC1 with
     | Except.ok m' => ∃ kf', m'.keyframes.get? 0 = some kf' ∧ kf'.pose = exKf.pose
     | Except.error _ => False) ∧
    (match PoseGraphOptimization4DoF exParams tcC1 r2yprC1 [] idSolve mC1 with
     | Except.ok m' => ∃ kf', m'.keyframes.get? 0 = some kf' ∧
         kf'.pose = ⟨eulerAnglesToQuat tcC1 ((r2yprC1 exKf.pose.q).x)
           ((r2yprC1 exKf.pose.q).y) ((r2yprC1 exKf.pose.q).z), exKf.pose.t⟩
     | Except.error _ => False) := by
  refine ⟨?_, ?_, ?_⟩
  · cases hr : GlobalBundleAdjustment exParams 3 0 true false false idSolve zeroEval mC1 with
    | error e =>
      have hok : exceptIsOk
          (GlobalBundleAdjustment exParams 3 0 true false false idSolve zeroEval mC1)
          = true := by decide
      rw [hr] at hok
      simp [exceptIsOk] at hok
    | ok mr =>
      exact C1_anchor_pose_policy.1 exParams 3 0 true false false idSolve zeroEval mC1
        0 exKf mr idSolve_ok (by decide) (by decide) (by decide) (by decide) hr
  · cases hr : PoseGraphOptimization exParams [] idSolve mC1 with
    | error e =>
      have hok : exceptIsOk (PoseGraphOptimization exParams [] idSolve mC1) = true := by
        decide
      rw [hr] at hok
      simp [exceptIsOk] at hok
    | ok mr =>
      exact C1_anchor_pose_policy.2.1 exParams [] idSolve mC1 0 exKf mr idSolve_ok
        (by decide) (by decide) (by decide) (by decide) (by decide) hr
  · cases hr : PoseGraphOptimization4DoF exParams tcC1 r2yprC1 [] idSolve mC1 with
    | error e =>
      have hok : exceptIsOk (PoseGraphOptimization4DoF exParams tcC1 r2yprC1 [] idSolve mC1)
          = true := by decide
      rw [hr] at hok
      simp [exceptIsOk] at hok
    | ok mr =>
      exact C1_anchor_pose_policy.2.2 exParams tcC1 r2yprC1 [] idSolve mC1 0 exKf mr
        idSolve_ok (by decide) (by decide) (by decide) (by decide) hr

/-! ### C7 — the two GBA build rounds -/

/-- `AddParameterBlock` on the bare block list. -/
def addB (bs : List BlockId) (b : BlockId) : List BlockId :=
  if b ∈ bs then bs else bs ++ [b]

theorem addBlock_blocks (pr : CeresProblem) (b : BlockId) :
    (addBlock pr b).blocks = addB pr.blocks b := by
  unfold addBlock addB
  split
  · rfl
  · rfl

theorem blocks_setConst (pr : CeresProblem) (b : BlockId) :
    (setConst pr b).blocks = pr.blocks := by
  unfold setConst
  split
  · rfl
  · rfl

theorem blocks_addResidual (pr : CeresProblem) (f : Factor) :
    (addResidual pr f).1.blocks = pr.blocks := rfl

/-- The block-list effect of one keyframe iteration — identical for the two
rounds (the rounds differ only in constants and residuals). -/
def kfStepBlocks (vo : Bool) (i : Nat) (kf : Keyframe) (bs : List BlockId) :
    List BlockId :=
  if kf.invalid then bs
  else
    addB (addB (addB (if vo then addB bs (.kfPose i)
      else addB (addB bs (.kfPose i)) (.kfVelBias i)) (.kfExtr i))
      (.camDist kf.cameraId)) (.camIntr kf.cameraId)

theorem gbaAddImuFactor_blocksMaps {isPass1 : Bool} {m : MapState} {j : Nat}
    {kf : Keyframe} {st st2 : KfBuildSt}
    (hstep : gbaAddImuFactor isPass1 m j kf st = Except.ok st2) :
    st2.prob.blocks = st.prob.blocks ∧ st2.distortionMap = st.distortionMap ∧
    st2.intrinsicsMap = st.intrinsicsMap := by
  unfold gbaAddImuFactor at hstep
  dsimp only at hstep
  repeat' split at hstep
  all_goals try cases hstep
  all_goals exact ⟨rfl, rfl, rfl⟩

theorem gbaKfStep_blocksMaps {isPass1 : Bool} {p : Params} {vo : Bool}
    {m : MapState} {j : Nat} {kf : Keyframe} {st st2 : KfBuildSt}
    (hstep : gbaKfStep isPass1 p vo m j kf st = Except.ok st2) :
    st2.prob.blocks = kfStepBlocks vo j kf st.prob.blocks ∧
    st2.distortionMap = (if kf.invalid then st.distortionMap
      else assocInsertIfAbsent st.distortionMap (kf.idFirst, kf.idSecond) kf.cameraId) ∧
    st2.intrinsicsMap = (if kf.invalid then st.intrinsicsMap
      else assocInsertIfAbsent st.intrinsicsMap (kf.idFirst, kf.idSecond) kf.cameraId) := by
  unfold gbaKfStep at hstep
  by_cases hv : kf.invalid = true
  · rw [if_pos hv] at hstep
    cases hstep
    unfold kfStepBlocks
    rw [if_pos hv, if_pos hv, if_pos hv]
    exact ⟨rfl, rfl, rfl⟩
  · rw [if_neg hv] at hstep
    dsimp only at hstep
    unfold kfStepBlocks
    rw [if_neg hv, if_neg hv, if_neg hv]
    split at hstep
    next e heq => cases hstep
    next stc heq =>
      have hcam : stc.prob.blocks =
          addB (addB ((if !isPass1 && kf.isLoaded && p.gbaFixPosesLoadedMaps then
            setConst (setConst (addBlock (if vo then
                (if kf.idFirst = 0 ∧ kf.idSecond = m.idMap then
                  setConst (addBlock st.prob (.kfPose j)) (.kfPose j)
                 else addBlock st.prob (.kfPose j))
              else addBlock (if kf.idFirst = 0 ∧ kf.idSecond = m.idMap then
                  setConst (addBlock st.prob (.kfPose j)) (.kfPose j)
                 else addBlock st.prob (.kfPose j)) (.kfVelBias j)) (.kfExtr j))
              (.kfExtr j)) (.kfPose j)
            else setConst (addBlock (if vo then
                (if kf.idFirst = 0 ∧ kf.idSecond = m.idMap then
                  setConst (addBlock st.prob (.kfPose j)) (.kfPose j)
                 else addBlock st.prob (.kfPose j))
              else addBlock (if kf.idFirst = 0 ∧ kf.idSecond = m.idMap then
                  setConst (addBlock st.prob (.kfPose j)) (.kfPose j)
                 else addBlock st.prob (.kfPose j)) (.kfVelBias j)) (.kfExtr j))
              (.kfExtr j)) : CeresProblem).blocks (.camDist kf.cameraId))
            (.camIntr kf.cameraId) ∧
          stc.distortionMap = assocInsertIfAbsent st.distortionMap
            (kf.idFirst, kf.idSecond) kf.cameraId ∧
          stc.intrinsicsMap = assocInsertIfAbsent st.intrinsicsMap
            (kf.idFirst, kf.idSecond) kf.cameraId := by
        unfold gbaAddCameraBlocks at heq
        split at heq
        · cases heq
        · cases heq
          exact ⟨by rw [blocks_setConst, addBlock_blocks, blocks_setConst,
            addBlock_blocks], rfl, rfl⟩
      have hpr5b : (if !isPass1 && kf.isLoaded && p.gbaFixPosesLoadedMaps then
            setConst (setConst (addBlock (if vo then
                (if kf.idFirst = 0 ∧ kf.idSecond = m.idMap then
                  setConst (addBlock st.prob (.kfPose j)) (.kfPose j)
                 else addBlock st.prob (.kfPose j))
              else addBlock (if kf.idFirst = 0 ∧ kf.idSecond = m.idMap then
                  setConst (addBlock st.prob (.kfPose j)) (.kfPose j)
                 else addBlock st.prob (.kfPose j)) (.kfVelBias j)) (.kfExtr j))
              (.kfExtr j)) (.kfPose j)
            else setConst (addBlock (if vo then
                (if kf.idFirst = 0 ∧ kf.idSecond = m.idMap then
                  setConst (addBlock st.prob (.kfPose j)) (.kfPose j)
                 else addBlock st.prob (.kfPose j))
              else addBlock (if kf.idFirst = 0 ∧ kf.idSecond = m.idMap then
                  setConst (addBlock st.prob (.kfPose j)) (.kfPose j)
                 else addBlock st.prob (.kfPose j)) (.kfVelBias j)) (.kfExtr j))
              (.kfExtr j) : CeresProblem).blocks =
          addB (if vo then addB st.prob.blocks (.kfPose j)
            else addB (addB st.prob.blocks (.kfPose j)) (.kfVelBias j)) (.kfExtr j) := by
        have h23 : (if vo then
              (if kf.idFirst = 0 ∧ kf.idSecond = m.idMap then
                setConst (addBlock st.prob (.kfPose j)) (.kfPose j)
               else addBlock st.prob (.kfPose j))
            else addBlock (if kf.idFirst = 0 ∧ kf.idSecond = m.idMap then
                setConst (addBlock st.prob (.kfPose j)) (.kfPose j)
               else addBlock st.prob (.kfPose j)) (.kfVelBias j) : CeresProblem).blocks =
            (if vo then addB st.prob.blocks (.kfPose j)
             else addB (addB st.prob.blocks (.kfPose j)) (.kfVelBias j)) := by
          have h2 : (if kf.idFirst = 0 ∧ kf.idSecond = m.idMap then
              setConst (addBlock st.prob (.kfPose j)) (.kfPose j)
              else addBlock st.prob (.kfPose j) : CeresProblem).blocks =
              addB st.prob.blocks (.kfPose j) := by
            split
            · rw [blocks_setConst, addBlock_blocks]
            · rw [addBlock_blocks]
          by_cases hvo : vo = true
          · rw [if_pos hvo, if_pos hvo]
            exact h2
          · rw [if_neg hvo, if_neg hvo, addBlock_blocks, h2]
        split
        · rw [blocks_setConst, blocks_setConst, addBlock_blocks, h23]
        · rw [blocks_setConst, addBlock_blocks, h23]
      have hfin : st2.prob.blocks = stc.prob.blocks ∧
          st2.distortionMap = stc.distortionMap ∧
          st2.intrinsicsMap = stc.intrinsicsMap := by
        split at hstep
        · cases hstep
          exact ⟨rfl, rfl, rfl⟩
        · exact gbaAddImuFactor_blocksMaps hstep
      refine ⟨?_, ?_, ?_⟩
      · rw [hfin.1, hcam.1, hpr5b]
      · rw [hfin.2.1, hcam.2.1]
      · rw [hfin.2.2, hcam.2.2]

theorem gbaKfLoop_blocks_rel {p : Params} {vo : Bool} {m : MapState} :
    ∀ (lst : List (Nat × Keyframe)) (st1 st2 o1 o2 : KfBuildSt),
      gbaKfLoop true p vo m lst st1 = Except.ok o1 →
      gbaKfLoop false p vo m lst st2 = Except.ok o2 →
      st1.prob.blocks = st2.prob.blocks →
      st1.distortionMap = st2.distortionMap →
      st1.intrinsicsMap = st2.intrinsicsMap →
      o1.prob.blocks = o2.prob.blocks ∧ o1.distortionMap = o2.distortionMap ∧
      o1.intrinsicsMap = o2.intrinsicsMap := by
  intro lst
  induction lst with
  | nil =>
    intro st1 st2 o1 o2 h1 h2 hb hd hi
    cases h1
    cases h2
    exact ⟨hb, hd, hi⟩
  | cons e rest ih =>
    intro st1 st2 o1 o2 h1 h2 hb hd hi
    rcases e with ⟨j, kf⟩
    unfold gbaKfLoop at h1 h2
    split at h1
    next e1 heq1 => cases h1
    next stm1 heq1 =>
      split at h2
      next e2 heq2 => cases h2
      next stm2 heq2 =>
        have hf1 := gbaKfStep_blocksMaps heq1
        have hf2 := gbaKfStep_blocksMaps heq2
        apply ih stm1 stm2 o1 o2 h1 h2
        · rw [hf1.1, hf2.1, hb]
        · rw [hf1.2.1, hf2.2.1, hd]
        · rw [hf1.2.2, hf2.2.2, hi]

theorem gbaObsStep_blocks {m : MapState} {lmIdx : Nat} {obs : Option Nat × Nat}
    {st st2 : LmBuildSt} (hstep : gbaObsStep m lmIdx obs st = Except.ok st2) :
    st2.prob.blocks = st.prob.blocks := by
  unfold gbaObsStep at hstep
  repeat' split at hstep
  all_goals try cases hstep
  all_goals rfl

theorem gbaObsLoop_blocks {m : MapState} {lmIdx : Nat} :
    ∀ (obsl : List (Option Nat × Nat)) (st st2 : LmBuildSt),
      gbaObsLoop m lmIdx obsl st = Except.ok st2 →
      st2.prob.blocks = st.prob.blocks := by
  intro obsl
  induction obsl with
  | nil => intro st st2 h; cases h; rfl
  | cons o rest ih =>
    intro st st2 h
    unfold gbaObsLoop at h
    split at h
    next e heq => cases h
    next stm heq => rw [ih stm st2 h, gbaObsStep_blocks heq]

theorem gbaLmLoop_blocks_rel {m : MapState} :
    ∀ (lml : List (Nat × Landmark)) (st1 st2 o1 o2 : LmBuildSt),
      gbaLmLoop m lml st1 = Except.ok o1 →
      gbaLmLoop m lml st2 = Except.ok o2 →
      st1.prob.blocks = st2.prob.blocks →
      o1.prob.blocks = o2.prob.blocks := by
  intro lml
  induction lml with
  | nil =>
    intro st1 st2 o1 o2 h1 h2 hb
    cases h1
    cases h2
    exact hb
  | cons il rest ih =>
    intro st1 st2 o1 o2 h1 h2 hb
    rcases il with ⟨j, lm⟩
    unfold gbaLmLoop at h1 h2
    by_cases hg : gbaLmGate m lm ≠ LmGate.included
    · rw [if_pos hg] at h1 h2
      exact ih st1 st2 o1 o2 h1 h2 hb
    · rw [if_neg hg] at h1 h2
      split at h1
      next e1 heq1 => cases h1
      next stm1 heq1 =>
        split at h2
        next e2 heq2 => cases h2
        next stm2 heq2 =>
          apply ih stm1 stm2 o1 o2 h1 h2
          rw [gbaObsLoop_blocks _ _ _ heq1, gbaObsLoop_blocks _ _ _ heq2]
          show (addBlock st1.prob (.lmPos j)).blocks = (addBlock st2.prob (.lmPos j)).blocks
          rw [addBlock_blocks, addBlock_blocks, hb]

theorem gbaLoopEdgeLoop1_blocks :
    ∀ (ls : List LoopConstraint) (pr : CeresProblem),
      (gbaLoopEdgeLoop1 ls pr).blocks = pr.blocks := by
  intro ls
  induction ls with
  | nil => intro pr; rfl
  | cons l rest ih =>
    intro pr
    unfold gbaLoopEdgeLoop1
    rw [ih, blocks_addResidual]

theorem gbaLoopEdgeLoop2_blocks :
    ∀ (ls : List LoopConstraint) (pr : CeresProblem),
      (gbaLoopEdgeLoop2 ls pr).blocks = pr.blocks := by
  intro ls
  induction ls with
  | nil => intro pr; rfl
  | cons l rest ih =>
    intro pr
    unfold gbaLoopEdgeLoop2
    rw [ih]
    split
    · rw [blocks_addResidual]
    · rfl

theorem gbaBuild_blocks_eq (p : Params) (vo : Bool) (m0 : MapState)
    (b1 b2 : GbaBuild)
    (h1 : gbaBuildProblem true p vo m0 = Except.ok b1)
    (h2 : gbaBuildProblem false p vo m0 = Except.ok b2) :
    b1.prob.blocks = b2.prob.blocks := by
  unfold gbaBuildProblem at h1 h2
  dsimp only at h1 h2
  cases hk1 : gbaKfLoop true p vo (gbaSyncKeyframes m0)
      (gbaSyncKeyframes m0).keyframes.enum ⟨emptyProblem, [], [], []⟩ with
  | error e => rw [hk1] at h1; cases h1
  | ok kst1 =>
    rw [hk1] at h1
    dsimp only at h1
    cases hk2 : gbaKfLoop false p vo (gbaSyncKeyframes m0)
        (gbaSyncKeyframes m0).keyframes.enum ⟨emptyProblem, [], [], []⟩ with
    | error e => rw [hk2] at h2; cases h2
    | ok kst2 =>
      rw [hk2] at h2
      dsimp only at h2
      have hkrel := gbaKfLoop_blocks_rel _ _ _ _ _ hk1 hk2 rfl rfl rfl
      cases hl1 : gbaLmLoop (gbaSyncLandmarks (gbaSyncKeyframes m0))
          (gbaSyncLandmarks (gbaSyncKeyframes m0)).landmarks.enum
          ⟨kst1.prob, kst1.intrinsicsMap, [], []⟩ with
      | error e => rw [hl1] at h1; cases h1
      | ok lst1 =>
        rw [hl1] at h1
        cases hl2 : gbaLmLoop (gbaSyncLandmarks (gbaSyncKeyframes m0))
            (gbaSyncLandmarks (gbaSyncKeyframes m0)).landmarks.enum
            ⟨kst2.prob, kst2.intrinsicsMap, [], []⟩ with
        | error e => rw [hl2] at h2; cases h2
        | ok lst2 =>
          rw [hl2] at h2
          cases h1
          cases h2
          have hlrel := gbaLmLoop_blocks_rel _ _ _ _ _ hl1 hl2 hkrel.1
          show (gbaLoopEdgeLoop1 (gbaSyncLandmarks (gbaSyncKeyframes m0)).loops
            lst1.prob).blocks = (if p.gbaUseMapLoopConstraints then _ else _
              : CeresProblem).blocks
          rw [gbaLoopEdgeLoop1_blocks]
          split
          · rw [gbaLoopEdgeLoop2_blocks]
            exact hlrel
          · exact hlrel

/-- C7 (corrected): the two GBA rounds register identical parameter-block
sets — the round flag affects only constants, residual factors and solver
caps — and the iteration caps are the fixed 5 of round one versus the
caller's limit in round two.  The residual-factor sets are *not* identical
(see the counterexample): round one adds a loop edge per constraint
unconditionally with no loss, round two only under
`gba_use_map_loop_constraints` with a Cauchy loss, and round two skips the
IMU factor of a keyframe with an empty preintegration. -/
theorem C7_build_rounds :
    (∀ (p : Params) (vo : Bool) (m0 : MapState) (b1 b2 : GbaBuild),
       gbaBuildProblem true p vo m0 = Except.ok b1 →
       gbaBuildProblem false p vo m0 = Except.ok b2 →
       b1.prob.blocks = b2.prob.blocks) ∧
    (∀ t : Nat, (gbaPass1SolverOptions t).maxNumIterations = 5) ∧
    (∀ (t : Nat) (il : Int) (tl : Scalar),
       (gbaSolverOptions t il tl).maxNumIterations = il) :=
  ⟨gbaBuild_blocks_eq, fun _ => rfl, fun _ _ _ => rfl⟩

def pC7 : Params := { exParams with gbaUseMapLoopConstraints := false }

def lcC7 : LoopConstraint :=
  { kf1 := 0, kf2 := 1, T_s1_s2 := idPose, covMat := [], relativeYaw := 0 }

/-- Counterexample map: two valid keyframes and one loop constraint. -/
def mC7 : MapState :=
  { idMap := 0
    keyframes := [exKf, { exKf with idFirst := 1 }]
    landmarks := []
    loops := [lcC7] }

/-- C7 counterexample: with `gba_use_map_loop_constraints` unset, round one
still adds the loop-constraint between-factor while round two does not, so
the residual-factor lists of the two builds differ. -/
theorem C7_build_rounds_counterexample :
    (gbaBuildProblem true pC7 true mC7).map (fun b => b.prob.residuals.map Prod.snd) ≠
      (gbaBuildProblem false pC7 true mC7).map
        (fun b => b.prob.residuals.map Prod.snd) := by
  decide

theorem C7_build_rounds_witness :
    exceptIsOk (gbaBuildProblem true pC7 true mC7) = true ∧
    exceptIsOk (gbaBuildProblem false pC7 true mC7) = true ∧
    (match gbaBuildProblem true pC7 true mC7, gbaBuildProblem false pC7 true mC7 with
     | Except.ok b1, Except.ok b2 => b1.prob.blocks = b2.prob.blocks
     | _, _ => False) := by
  refine ⟨by decide, by decide, ?_⟩
  cases hr1 : gbaBuildProblem true pC7 true mC7 with
  | error e =>
    have hok : exceptIsOk (gbaBuildProblem true pC7 true mC7) = true := by decide
    rw [hr1] at hok
    simp [exceptIsOk] at hok
  | ok b1 =>
    cases hr2 : gbaBuildProblem false pC7 true mC7 with
    | error e =>
      have hok : exceptIsOk (gbaBuildProblem false pC7 true mC7) = true := by decide
      rw [hr2] at hok
      simp [exceptIsOk] at hok
    | ok b2 =>
      exact C7_build_rounds.1 pC7 true mC7 b1 b2 hr1 hr2
